import Mathlib

/-!
# The Macintosh scene (`2DTriangles/mac_0_0.cpp`): shader program, textures and start-up

A shallow embedding of the program's resource handling.  The OpenGL driver, the window
system and the image decoder are outside the program: what they answer is a parameter
(`Platform`), what the program asks of them is recorded, in order, in `World.trace`, and
the part of the OpenGL object state that the program can observe (shader and program
objects, the current program, texture names and the texture binding) is kept in `World`.
-/

namespace Mac

/-! ## Calls to the outside world -/

/-- An argument of a recorded call. -/
inductive Arg where
  /-- an object name (handle) -/
  | name (n : Nat)
  /-- a string argument -/
  | text (s : String)
  /-- an integer argument -/
  | int (i : Int)
  /-- a real argument (exact arithmetic) -/
  | real (q : ℚ)
  /-- an enumerant or identifier, such as `GL_TEXTURE_2D` -/
  | sym (s : String)
  /-- the location `glGetUniformLocation` gave for the uniform of that name -/
  | loc (uniform : String)
  deriving DecidableEq

/-- One call issued by the program: the function called and its arguments. -/
structure Call where
  fn : String
  args : List Arg
  deriving DecidableEq

/-! ## OpenGL objects -/

/-- The two shader stages the program uses. -/
inductive ShaderType where
  | GL_VERTEX_SHADER
  | GL_FRAGMENT_SHADER
  deriving DecidableEq

/-- A shader object: stage, source text and `GL_COMPILE_STATUS`. -/
structure ShaderObj where
  type : ShaderType
  source : String
  compiled : Bool
  deriving DecidableEq

/-- A program object: attached shader names, `GL_LINK_STATUS`, `GL_DELETE_STATUS`. -/
structure ProgramObj where
  attached : List Nat
  linked : Bool
  deleteFlag : Bool
  deriving DecidableEq

/-- What `stbi_load` writes to its out-parameters for a decoded image (the pixel bytes
are not part of this record). -/
structure Image where
  width : Int
  height : Int
  channels : Int
  deriving DecidableEq

/-- The answers of the environment: the GLSL compiler and linker of the driver, the image
decoder, window creation and GLEW initialisation. -/
structure Platform where
  /-- `GL_COMPILE_STATUS` after compiling a source for a stage -/
  compileStatus : ShaderType → String → Bool
  /-- the info log of such a compilation -/
  shaderInfoLog : ShaderType → String → String
  /-- `GL_LINK_STATUS` after linking a program with the given shaders attached -/
  linkStatus : List ShaderObj → Bool
  /-- the info log of such a link -/
  programInfoLog : List ShaderObj → String
  /-- `stbi_load`: `none` is the null pointer -/
  stbi_load : String → Option Image
  /-- whether `glfwCreateWindow` returns a window -/
  windowCreated : Bool
  /-- whether `glewInit` returns `GLEW_OK` -/
  glewOk : Bool
  /-- the text of `glewGetErrorString` for the result of a failed `glewInit` -/
  glewErrorString : String
  /-- `glGetString(GL_VERSION)` -/
  glVersion : String
  /-- whether the program is built with `__APPLE__` defined -/
  apple : Bool

/-- The observable state outside the program.  Shader and program objects share one name
space, textures have their own; name 0 is never an object. -/
structure World where
  nextName : Nat
  shaders : Nat → Option ShaderObj
  programs : Nat → Option ProgramObj
  currentProgram : Nat
  nextTexture : Nat
  textures : Nat → Bool
  boundTexture2D : Nat
  windowShouldClose : Bool
  trace : List Call

/-- A fresh context: no objects, no current program, nothing recorded. -/
def World.init : World where
  nextName := 1
  shaders := fun _ => none
  programs := fun _ => none
  currentProgram := 0
  nextTexture := 1
  textures := fun _ => false
  boundTexture2D := 0
  windowShouldClose := false
  trace := []

/-- Record a call at the end of the trace. -/
def World.emit (w : World) (fn : String) (args : List Arg) : World :=
  { w with trace := w.trace ++ [⟨fn, args⟩] }

/-- The calls recorded between an earlier world `w` and a later world `w2`. -/
def issued (w w2 : World) : List Call :=
  w2.trace.drop w.trace.length

/-- Whether a name is a live shader or program object. -/
def World.live (w : World) (n : Nat) : Bool :=
  (w.shaders n).isSome || (w.programs n).isSome

/-- Whether a name is a program object whose last link succeeded. -/
def World.isLinked (w : World) (p : Nat) : Bool :=
  match w.programs p with
  | some o => o.linked
  | none => false

/-- Text written to `std::cout` by one output statement. -/
def cout (s : String) (w : World) : World :=
  w.emit "cout" [.text s]

/-- Text written to `std::cerr` by one output statement. -/
def cerr (s : String) (w : World) : World :=
  w.emit "cerr" [.text s]

/-! ## The OpenGL entry points used for shader programs -/

/-- Creates an empty program object under an unused name and returns the name. -/
def glCreateProgram (w : World) : Nat × World :=
  let id := w.nextName
  (id, { (w.emit "glCreateProgram" []) with
          nextName := id + 1
          programs := Function.update w.programs id (some ⟨[], false, false⟩) })

/-- The enumerant of a shader stage. -/
def ShaderType.sym : ShaderType → Arg
  | .GL_VERTEX_SHADER => .sym "GL_VERTEX_SHADER"
  | .GL_FRAGMENT_SHADER => .sym "GL_FRAGMENT_SHADER"

/-- Creates an empty shader object of a stage under an unused name and returns the name. -/
def glCreateShader (t : ShaderType) (w : World) : Nat × World :=
  let id := w.nextName
  (id, { (w.emit "glCreateShader" [t.sym]) with
          nextName := id + 1
          shaders := Function.update w.shaders id (some ⟨t, "", false⟩) })

/-- Replaces the source text of a shader object. -/
def glShaderSource (shader : Nat) (src : String) (w : World) : World :=
  let w1 := w.emit "glShaderSource" [.name shader, .text src]
  match w.shaders shader with
  | some o => { w1 with shaders := Function.update w.shaders shader (some { o with source := src }) }
  | none => w1

/-- Compiles the source of a shader object; the driver decides the status. -/
def glCompileShader (P : Platform) (shader : Nat) (w : World) : World :=
  let w1 := w.emit "glCompileShader" [.name shader]
  match w.shaders shader with
  | some o =>
    { w1 with shaders :=
        Function.update w.shaders shader (some { o with compiled := P.compileStatus o.type o.source }) }
  | none => w1

/-- The query `glGetShaderiv(shader, GL_COMPILE_STATUS, &success)`: the new value of `success`,
which is left as it was when `shader` is not a shader object. -/
def glGetShaderiv (shader : Nat) (success : Bool) (w : World) : Bool × World :=
  let w1 := w.emit "glGetShaderiv" [.name shader, .sym "GL_COMPILE_STATUS"]
  match w.shaders shader with
  | some o => (o.compiled, w1)
  | none => (success, w1)

/-- The call `glGetShaderInfoLog(shader, bufSize, NULL, infoLog)`: at most `bufSize - 1`
characters of the log are written to `infoLog`. -/
def glGetShaderInfoLog (P : Platform) (shader : Nat) (bufSize : Nat) (infoLog : String)
    (w : World) : String × World :=
  let w1 := w.emit "glGetShaderInfoLog" [.name shader, .int bufSize]
  match w.shaders shader with
  | some o => ((P.shaderInfoLog o.type o.source).take (bufSize - 1), w1)
  | none => (infoLog, w1)

/-- Attaches a shader object to a program object. -/
def glAttachShader (program shader : Nat) (w : World) : World :=
  let w1 := w.emit "glAttachShader" [.name program, .name shader]
  match w.programs program, w.shaders shader with
  | some o, some _ =>
    { w1 with programs :=
        Function.update w.programs program (some { o with attached := o.attached ++ [shader] }) }
  | _, _ => w1

/-- The shader objects attached to a program. -/
def World.attachedShaders (w : World) (o : ProgramObj) : List ShaderObj :=
  o.attached.filterMap w.shaders

/-- Links a program object; the driver decides the status from the attached shaders. -/
def glLinkProgram (P : Platform) (program : Nat) (w : World) : World :=
  let w1 := w.emit "glLinkProgram" [.name program]
  match w.programs program with
  | some o =>
    let o2 : ProgramObj := { o with linked := P.linkStatus (w.attachedShaders o) }
    { w1 with programs := Function.update w.programs program (some o2) }
  | none => w1

/-- The query `glGetProgramiv(program, GL_LINK_STATUS, &success)`. -/
def glGetProgramiv (program : Nat) (success : Bool) (w : World) : Bool × World :=
  let w1 := w.emit "glGetProgramiv" [.name program, .sym "GL_LINK_STATUS"]
  match w.programs program with
  | some o => (o.linked, w1)
  | none => (success, w1)

/-- The call `glGetProgramInfoLog(program, bufSize, NULL, infoLog)`. -/
def glGetProgramInfoLog (P : Platform) (program : Nat) (bufSize : Nat) (infoLog : String)
    (w : World) : String × World :=
  let w1 := w.emit "glGetProgramInfoLog" [.name program, .int bufSize]
  match w.programs program with
  | some o => ((P.programInfoLog (w.attachedShaders o)).take (bufSize - 1), w1)
  | none => (infoLog, w1)

/-- Makes a linked program (or 0) the current program; any other argument is an error that
leaves the current program as it was.  A program that was flagged for deletion is deleted
when it stops being current. -/
def glUseProgram (program : Nat) (w : World) : World :=
  let w1 := w.emit "glUseProgram" [.name program]
  if program = 0 ∨ w.isLinked program = true then
    let old := w.currentProgram
    { w1 with
      currentProgram := program
      programs := fun n =>
        if n = old ∧ n ≠ program ∧ (w.programs n).any (·.deleteFlag) = true then none
        else w.programs n }
  else w1

/-- Deletes a program object, or flags it for deletion while it is the current program. -/
def glDeleteProgram (program : Nat) (w : World) : World :=
  let w1 := w.emit "glDeleteProgram" [.name program]
  match w.programs program with
  | some o =>
    if program = w.currentProgram then
      { w1 with programs := Function.update w.programs program (some { o with deleteFlag := true }) }
    else
      { w1 with programs := Function.update w.programs program none }
  | none => w1

/-! ## `UCreateShaderProgram` and `UDestroyShaderProgram` -/

/-- What `UCreateShaderProgram` hands back: the returned `bool`, the value left in the
`programId` out-parameter, and the world afterwards. -/
structure CreateResult where
  ok : Bool
  programId : Nat
  world : World

/-- The function `UCreateShaderProgram(vtxShaderSource, fragShaderSource, programId)`. -/
def UCreateShaderProgram (P : Platform) (vtxShaderSource fragShaderSource : String)
    (w : World) : CreateResult :=
  let success := false
  let infoLog := ""
  let (programId, w) := glCreateProgram w
  let (vertexShaderId, w) := glCreateShader .GL_VERTEX_SHADER w
  let (fragmentShaderId, w) := glCreateShader .GL_FRAGMENT_SHADER w
  let w := glShaderSource vertexShaderId vtxShaderSource w
  let w := glShaderSource fragmentShaderId fragShaderSource w
  let w := glCompileShader P vertexShaderId w
  let (success, w) := glGetShaderiv vertexShaderId success w
  if !success then
    let (infoLog, w) := glGetShaderInfoLog P vertexShaderId 512 infoLog w
    let w := cout ("ERROR::SHADER::VERTEX::COMPILATION_FAILED\n" ++ infoLog ++ "\n") w
    ⟨false, programId, w⟩
  else
    let w := glCompileShader P fragmentShaderId w
    let (success, w) := glGetShaderiv fragmentShaderId success w
    if !success then
      let (infoLog, w) := glGetShaderInfoLog P fragmentShaderId 512 infoLog w
      let w := cout ("ERROR::SHADER::FRAGMENT::COMPILATION_FAILED\n" ++ infoLog ++ "\n") w
      ⟨false, programId, w⟩
    else
      let w := glAttachShader programId vertexShaderId w
      let w := glAttachShader programId fragmentShaderId w
      let w := glLinkProgram P programId w
      let (success, w) := glGetProgramiv programId success w
      if !success then
        let (infoLog, w) := glGetProgramInfoLog P programId 512 infoLog w
        let w := cout ("ERROR::SHADER::PROGRAM::LINKING_FAILED\n" ++ infoLog ++ "\n") w
        ⟨false, programId, w⟩
      else
        let w := glUseProgram programId w
        ⟨true, programId, w⟩

/-- The function `UDestroyShaderProgram(programId)`. -/
def UDestroyShaderProgram (programId : Nat) (w : World) : World :=
  glDeleteProgram programId w


/-! ## The shader sources -/

/-- The text of `vertexShaderSource` (lines 88-112), as the `GLSL` macro stringifies it. -/
def vertexShaderSource : String :=
  "#version 440 core \nlayout(location = 0) in vec3 vertexPosition; layout(location = 1) in vec3 vertexNormal; layout(location = 2) in vec2 textureCoordinate; out vec3 vertexFragmentNormal; out vec3 vertexFragmentPos; out vec2 vertexTextureCoordinate; uniform mat4 model; uniform mat4 view; uniform mat4 projection; void main() \x7b gl_Position = projection * view * model * vec4(vertexPosition, 1.0f); vertexFragmentPos = vec3(model * vec4(vertexPosition, 1.0f)); vertexFragmentNormal = mat3(transpose(inverse(model))) * vertexNormal; vertexTextureCoordinate = textureCoordinate; \x7d"

/-- The text of `fragmentShaderSource` (lines 116-192), as the `GLSL` macro stringifies it. -/
def fragmentShaderSource : String :=
  "#version 440 core \nin vec3 vertexFragmentNormal; in vec3 vertexFragmentPos; in vec2 vertexTextureCoordinate; out vec4 fragmentColor; uniform vec4 objectColor; uniform vec3 ambientColor; uniform vec3 light1Color; uniform vec3 light1Position; uniform vec3 light2Color; uniform vec3 light2Position; uniform vec3 viewPosition; uniform sampler2D uTexture; uniform bool ubHasTexture; uniform float ambientStrength = 0.1f; uniform float specularIntensity1 = 0.1f; uniform float highlightSize1 = 0.0f; uniform float specularIntensity2 = 0.1f; uniform float highlightSize2 = 0.0f; void main() \x7b vec3 ambient = ambientStrength * ambientColor; vec3 norm = normalize(vertexFragmentNormal); vec3 light1Direction = normalize(light1Position - vertexFragmentPos); float impact1 = max(dot(norm, light1Direction), 0.0); vec3 diffuse1 = impact1 * light1Color; vec3 light2Direction = normalize(light2Position - vertexFragmentPos); float impact2 = max(dot(norm, light2Direction), 0.0); vec3 diffuse2 = impact2 * light2Color; vec3 viewDir = normalize(viewPosition - vertexFragmentPos); vec3 reflectDir1 = reflect(-light1Direction, norm); float specularComponent1 = pow(max(dot(viewDir, reflectDir1), 0.0), highlightSize1); vec3 specular1 = specularIntensity1 * specularComponent1 * light1Color; vec3 reflectDir2 = reflect(-light2Direction, norm); float specularComponent2 = pow(max(dot(viewDir, reflectDir2), 0.0), highlightSize2); vec3 specular2 = specularIntensity2 * specularComponent2 * light2Color; vec4 textureColor = texture(uTexture, vertexTextureCoordinate); vec3 phong1; vec3 phong2; if (ubHasTexture == true) \x7b phong1 = (ambient + diffuse1 + specular1) * textureColor.xyz; phong2 = (ambient + diffuse2 + specular2) * textureColor.xyz; fragmentColor = texture(uTexture, vertexTextureCoordinate); \x7d else \x7b phong1 = (ambient + diffuse1 + specular1) * objectColor.xyz; phong2 = (ambient + diffuse2 + specular2) * objectColor.xyz; fragmentColor = objectColor; \x7d fragmentColor = vec4(phong1 + phong2, 1.0); \x7d"

/-! ## Textures -/

/-- The call `glGenTextures(1, &id)`: an unused texture name is written to `id`. -/
def glGenTextures (w : World) : Nat × World :=
  let id := w.nextTexture
  (id, { (w.emit "glGenTextures" [.int 1]) with
          nextTexture := id + 1
          textures := Function.update w.textures id true })

/-- The call `glBindTexture(GL_TEXTURE_2D, texture)`; in the core profile only 0 and names
that `glGenTextures` returned can be bound, anything else is an error without effect. -/
def glBindTexture (texture : Nat) (w : World) : World :=
  let w1 := w.emit "glBindTexture" [.sym "GL_TEXTURE_2D", .name texture]
  if texture = 0 ∨ w.textures texture = true then { w1 with boundTexture2D := texture } else w1

/-- What `UCreateTexture` hands back: the returned `bool`, the value left in the `textureId`
out-parameter, and the world afterwards. -/
structure TextureResult where
  ok : Bool
  textureId : Nat
  world : World

/-- The function `UCreateTexture(filename, textureId)`.  `flipImageVertically` only permutes
the pixel bytes, which this record of the image does not hold; its call is recorded. -/
def UCreateTexture (P : Platform) (filename : String) (textureId : Nat) (w : World) :
    TextureResult :=
  let w := w.emit "stbi_load" [.text filename]
  match P.stbi_load filename with
  | some image =>
    let w := w.emit "flipImageVertically" [.int image.width, .int image.height, .int image.channels]
    let (textureId, w) := glGenTextures w
    let w := glBindTexture textureId w
    let w := w.emit "glTexParameteri" [.sym "GL_TEXTURE_2D", .sym "GL_TEXTURE_WRAP_S", .sym "GL_REPEAT"]
    let w := w.emit "glTexParameteri" [.sym "GL_TEXTURE_2D", .sym "GL_TEXTURE_WRAP_T", .sym "GL_REPEAT"]
    let w := w.emit "glTexParameteri" [.sym "GL_TEXTURE_2D", .sym "GL_TEXTURE_MIN_FILTER", .sym "GL_LINEAR"]
    let w := w.emit "glTexParameteri" [.sym "GL_TEXTURE_2D", .sym "GL_TEXTURE_MAG_FILTER", .sym "GL_LINEAR"]
    if image.channels = 3 then
      let w := w.emit "glTexImage2D" [.sym "GL_TEXTURE_2D", .int 0, .sym "GL_RGB8", .int image.width,
        .int image.height, .int 0, .sym "GL_RGB", .sym "GL_UNSIGNED_BYTE"]
      let w := w.emit "glGenerateMipmap" [.sym "GL_TEXTURE_2D"]
      let w := w.emit "stbi_image_free" []
      let w := glBindTexture 0 w
      ⟨true, textureId, w⟩
    else if image.channels = 4 then
      let w := w.emit "glTexImage2D" [.sym "GL_TEXTURE_2D", .int 0, .sym "GL_RGBA8", .int image.width,
        .int image.height, .int 0, .sym "GL_RGBA", .sym "GL_UNSIGNED_BYTE"]
      let w := w.emit "glGenerateMipmap" [.sym "GL_TEXTURE_2D"]
      let w := w.emit "stbi_image_free" []
      let w := glBindTexture 0 w
      ⟨true, textureId, w⟩
    else
      let w := cout ("Not implemented to handle image with " ++ toString image.channels ++
        " channels\n") w
      ⟨false, textureId, w⟩
  | none => ⟨false, textureId, w⟩

/-- The function `UDestroyTexture(textureId)`: `textureId` is a by-value parameter. -/
def UDestroyTexture (_textureId : Nat) (w : World) : World :=
  let (_textureId, w) := glGenTextures w
  w

/-! ## The program's globals and its input -/

/-- The globals of the unnamed namespace that the modelled functions read or write. -/
structure Globals where
  gProgramId : Nat
  gTextureIdCase : Nat
  gTextureIdLogo : Nat
  gLastY : ℚ
  gLastX : ℚ
  gFirstMouse : Bool
  orthoViewToggle : Bool
  gDeltaTime : ℚ
  gLastFrame : ℚ

/-- The window width. -/
def WINDOW_WIDTH : Int := 800

/-- The window height. -/
def WINDOW_HEIGHT : Int := 600

/-- The initial values of the globals (lines 46-64). -/
def Globals.init : Globals where
  gProgramId := 0
  gTextureIdCase := 0
  gTextureIdLogo := 0
  gLastY := WINDOW_HEIGHT / 2
  gLastX := WINDOW_WIDTH / 2
  gFirstMouse := true
  orthoViewToggle := false
  gDeltaTime := 0
  gLastFrame := 0

/-- The program state: its globals and the world around it. -/
structure App where
  g : Globals
  w : World

/-- The keys `UProcessInput` polls. -/
inductive Key where
  | ESCAPE | W | S | A | D | Q | E | O | P
  deriving DecidableEq

/-- The GLFW identifier of a key. -/
def Key.sym : Key → Arg
  | .ESCAPE => .sym "GLFW_KEY_ESCAPE"
  | .W => .sym "GLFW_KEY_W"
  | .S => .sym "GLFW_KEY_S"
  | .A => .sym "GLFW_KEY_A"
  | .D => .sym "GLFW_KEY_D"
  | .Q => .sym "GLFW_KEY_Q"
  | .E => .sym "GLFW_KEY_E"
  | .O => .sym "GLFW_KEY_O"
  | .P => .sym "GLFW_KEY_P"

/-- An event the window system delivers to a registered callback during `glfwPollEvents`,
or the user's request to close the window. -/
inductive InputEvent where
  | resize (width height : Int)
  | cursor (xpos ypos : ℚ)
  | scroll (xoffset yoffset : ℚ)
  | button (button action mods : Int)
  | close

/-- What the environment supplies during one iteration of the render loop. -/
structure FrameInput where
  /-- the value of `glfwGetTime()` -/
  time : ℚ
  /-- the keys that are down when `UProcessInput` polls them -/
  keys : List Key
  /-- the events delivered by `glfwPollEvents` -/
  events : List InputEvent

/-! ## Window set-up and callbacks -/

/-- The function `UInitialize(argc, argv, &gWindow)`. -/
def UInitialize (P : Platform) (w : World) : Bool × World :=
  let w := w.emit "glfwInit" []
  let w := w.emit "glfwWindowHint" [.sym "GLFW_CONTEXT_VERSION_MAJOR", .int 4]
  let w := w.emit "glfwWindowHint" [.sym "GLFW_CONTEXT_VERSION_MINOR", .int 4]
  let w := w.emit "glfwWindowHint" [.sym "GLFW_OPENGL_PROFILE", .sym "GLFW_OPENGL_CORE_PROFILE"]
  let w := if P.apple then w.emit "glfwWindowHint" [.sym "GLFW_OPENGL_FORWARD_COMPAT", .sym "GL_TRUE"]
    else w
  let w := w.emit "glfwCreateWindow" [.int WINDOW_WIDTH, .int WINDOW_HEIGHT,
    .text "The Macintosh - Madison Tinsley"]
  if !P.windowCreated then
    let w := cout "Failed to create GLFW window\n" w
    let w := w.emit "glfwTerminate" []
    (false, w)
  else
    let w := w.emit "glfwMakeContextCurrent" []
    let w := w.emit "glfwSetFramebufferSizeCallback" [.sym "UResizeWindow"]
    let w := w.emit "glfwSetCursorPosCallback" [.sym "UMousePositionCallback"]
    let w := w.emit "glfwSetScrollCallback" [.sym "UMouseScrollCallback"]
    let w := w.emit "glfwSetMouseButtonCallback" [.sym "UMouseButtonCallback"]
    let w := w.emit "glfwSetInputMode" [.sym "GLFW_CURSOR", .sym "GLFW_CURSOR_DISABLED"]
    let w := w.emit "glewInit" []
    if !P.glewOk then
      let w := cerr (P.glewErrorString ++ "\n") w
      (false, w)
    else
      let w := cout ("INFO: OpenGL Version: " ++ P.glVersion ++ "\n") w
      (true, w)

/-- The callback `UResizeWindow(window, width, height)`. -/
def UResizeWindow (width height : Int) (a : App) : App :=
  { a with w := a.w.emit "glViewport" [.int 0, .int 0, .int width, .int height] }

/-- The integer nearest to `y`, the even one of the two when `y` is half-way between them. -/
def roundHalfEven (y : ℚ) : Int :=
  let f := ⌊y⌋
  if y - f < 1 / 2 then f
  else if y - f > 1 / 2 then f + 1
  else if f % 2 = 0 then f else f + 1

/-- The largest `float`. -/
def FLT_MAX : ℚ := (2 ^ 24 - 1) * 2 ^ 104

/-- The conversion of a `double` to `float` (IEEE 754 binary32): the nearest number with 24
significant bits, the one with an even last bit at a tie; below `2 ^ (-126)` the spacing stays
`2 ^ (-149)`.  Numbers of both types are rationals here.  Beyond `FLT_MAX` the conversion gives
no finite `float`; there this function keeps rounding to 24 bits, and the statements that use
it take their arguments within `FLT_MAX`. -/
def float (x : ℚ) : ℚ :=
  if x = 0 then 0
  else
    let e := max (Int.log 2 |x|) (-126)
    let quantum : ℚ := 2 ^ (e - 23)
    roundHalfEven (x / quantum) * quantum

/-- The callback `UMousePositionCallback(window, xpos, ypos)` (lines 346-362).  `xpos` and
`ypos` are `double`s, `gLastX`, `gLastY`, `xoffset` and `yoffset` are `float`s: each assignment
to one of them converts the `double` on its right-hand side.  The subtractions, done in
`double`, are exact here. -/
def UMousePositionCallback (xpos ypos : ℚ) (a : App) : App :=
  let g := a.g
  let g := if g.gFirstMouse then
      { g with gLastX := float xpos, gLastY := float ypos, gFirstMouse := false }
    else g
  let xoffset := float (xpos - g.gLastX)
  let yoffset := float (g.gLastY - ypos)
  let g := { g with gLastX := float xpos, gLastY := float ypos }
  ⟨g, a.w.emit "gCamera.ProcessMouseMovement" [.real xoffset, .real yoffset]⟩

/-- The callback `UMouseScrollCallback(window, xoffset, yoffset)`. -/
def UMouseScrollCallback (_xoffset yoffset : ℚ) (a : App) : App :=
  { a with w := a.w.emit "gCamera.ProcessMouseScroll" [.real yoffset] }

/-- The GLFW constant. -/
def GLFW_MOUSE_BUTTON_LEFT : Int := 0

/-- The GLFW constant. -/
def GLFW_MOUSE_BUTTON_RIGHT : Int := 1

/-- The GLFW constant. -/
def GLFW_MOUSE_BUTTON_MIDDLE : Int := 2

/-- The GLFW constant. -/
def GLFW_PRESS : Int := 1

/-- The callback `UMouseButtonCallback(window, button, action, mods)`. -/
def UMouseButtonCallback (button action _mods : Int) (a : App) : App :=
  let say (s : String) : App := { a with w := cout s a.w }
  if button = GLFW_MOUSE_BUTTON_LEFT then
    if action = GLFW_PRESS then say "Left mouse button pressed\n"
    else say "Left mouse button released\n"
  else if button = GLFW_MOUSE_BUTTON_MIDDLE then
    if action = GLFW_PRESS then say "Middle mouse button pressed\n"
    else say "Middle mouse button released\n"
  else if button = GLFW_MOUSE_BUTTON_RIGHT then
    if action = GLFW_PRESS then say "Right mouse button pressed\n"
    else say "Right mouse button released\n"
  else say "Unhandled mouse button event\n"

/-- One event of `glfwPollEvents`: the registered callback runs, a close request raises the
window's close flag. -/
def dispatch (a : App) : InputEvent → App
  | .resize width height => UResizeWindow width height a
  | .cursor xpos ypos => UMousePositionCallback xpos ypos a
  | .scroll xoffset yoffset => UMouseScrollCallback xoffset yoffset a
  | .button button action mods => UMouseButtonCallback button action mods a
  | .close => { a with w := { a.w with windowShouldClose := true } }

/-- The call `glfwPollEvents()`: the pending events are handled in order. -/
def glfwPollEvents (events : List InputEvent) (a : App) : App :=
  events.foldl dispatch { a with w := a.w.emit "glfwPollEvents" [] }

/-! ## `UProcessInput` -/

/-- The test `glfwGetKey(window, key) == GLFW_PRESS`. -/
def glfwGetKey (f : FrameInput) (key : Key) (w : World) : Bool × World :=
  (decide (key ∈ f.keys), w.emit "glfwGetKey" [key.sym])

/-- The statement `if (glfwGetKey(window, key) == GLFW_PRESS) gCamera.ProcessKeyboard(direction, gDeltaTime);`. -/
def moveOnKey (f : FrameInput) (key : Key) (direction : String) (a : App) : App :=
  let (pressed, w) := glfwGetKey f key a.w
  if pressed then { a with w := w.emit "gCamera.ProcessKeyboard" [.sym direction, .real a.g.gDeltaTime] }
  else { a with w := w }

/-- The function `UProcessInput(window)`. -/
def UProcessInput (f : FrameInput) (a : App) : App :=
  let (pressed, w) := glfwGetKey f .ESCAPE a.w
  let w := if pressed then
      { (w.emit "glfwSetWindowShouldClose" [.sym "true"]) with windowShouldClose := true }
    else w
  let a : App := { a with w := w }
  let a := moveOnKey f .W "FORWARD" a
  let a := moveOnKey f .S "BACKWARD" a
  let a := moveOnKey f .A "LEFT" a
  let a := moveOnKey f .D "RIGHT" a
  let a := moveOnKey f .Q "UP" a
  let a := moveOnKey f .E "DOWN" a
  let (pressed, w) := glfwGetKey f .O a.w
  let a : App := ⟨if pressed then { a.g with orthoViewToggle := true } else a.g, w⟩
  let (pressed, w) := glfwGetKey f .P a.w
  let a : App := ⟨if pressed then { a.g with orthoViewToggle := false } else a.g, w⟩
  a

/-! ## `URender` -/

/-- The meshes `URender` draws. -/
inductive Mesh where
  | gBoxMesh
  | gPlaneMesh
  deriving DecidableEq

/-- The vertex array object of a mesh. -/
def Mesh.vao : Mesh → Arg
  | .gBoxMesh => .sym "meshes.gBoxMesh.vao"
  | .gPlaneMesh => .sym "meshes.gPlaneMesh.vao"

/-- The index count of a mesh. -/
def Mesh.nIndices : Mesh → Arg
  | .gBoxMesh => .sym "meshes.gBoxMesh.nIndices"
  | .gPlaneMesh => .sym "meshes.gPlaneMesh.nIndices"

/-- The second argument of the `glBindTexture` calls of `URender`. -/
inductive TexRef where
  | zero
  | gTextureIdCase
  | gTextureIdLogo
  deriving DecidableEq

/-- The texture name such an argument denotes. -/
def TexRef.name (g : Globals) : TexRef → Nat
  | .zero => 0
  | .gTextureIdCase => g.gTextureIdCase
  | .gTextureIdLogo => g.gTextureIdLogo

/-- The statements of `URender` from line 503 to line 1982, the computations of the `scale`,
`rotation`, `translation` and `model` matrices apart (their values are not recorded).  The
colour components are kept as the source writes them. -/
inductive Stmt where
  /-- `glBindVertexArray(meshes.m.vao);`, or `glBindVertexArray(0);` -/
  | glBindVertexArray (m : Option Mesh)
  /-- `ubHasTextureVal = b;` -/
  | setHasTextureVal (b : Bool)
  /-- `glUniform1i(uHasTextureLoc, ubHasTextureVal);` -/
  | uploadHasTexture
  /-- `glActiveTexture(GL_TEXTURE0);` -/
  | glActiveTexture
  /-- `glBindTexture(GL_TEXTURE_2D, t);` -/
  | glBindTexture (t : TexRef)
  /-- `glEnable(GL_BLEND);` -/
  | glEnableBlend
  /-- `glBlendFunc(GL_SRC_ALPHA, GL_ONE_MINUS_SRC_ALPHA);` -/
  | glBlendFunc
  /-- `glUniformMatrix4fv(modelLoc, 1, GL_FALSE, glm::value_ptr(model));` -/
  | uploadModel
  /-- `glProgramUniform4f(gProgramId, objectColorLoc, r, g, b, a);` -/
  | programObjectColor (r g b a : String)
  /-- `glUniform1i(glGetUniformLocation(gProgramId, "useTexture"), v);` -/
  | useTexture (v : Int)
  /-- `glUniform4f(glGetUniformLocation(gProgramId, "objectColor"), r, g, b, a);` -/
  | objectColor (r g b a : String)
  /-- `glDrawElements(GL_TRIANGLES, meshes.m.nIndices, GL_UNSIGNED_INT, (void*)0);` -/
  | glDrawElements (m : Mesh)

/-- The local variable `ubHasTextureVal` of `URender` together with the world. -/
structure RenderState where
  ubHasTextureVal : Bool
  w : World

/-- The effect of one statement of `URender`. -/
def Stmt.exec (g : Globals) (s : RenderState) : Stmt → RenderState
  | .glBindVertexArray (some m) => { s with w := s.w.emit "glBindVertexArray" [m.vao] }
  | .glBindVertexArray none => { s with w := s.w.emit "glBindVertexArray" [.int 0] }
  | .setHasTextureVal b => { s with ubHasTextureVal := b }
  | .uploadHasTexture =>
    { s with w := s.w.emit "glUniform1i" [.loc "ubHasTexture", .int (if s.ubHasTextureVal then 1 else 0)] }
  | .glActiveTexture => { s with w := s.w.emit "glActiveTexture" [.sym "GL_TEXTURE0"] }
  | .glBindTexture t => { s with w := Mac.glBindTexture (t.name g) s.w }
  | .glEnableBlend => { s with w := s.w.emit "glEnable" [.sym "GL_BLEND"] }
  | .glBlendFunc =>
    { s with w := s.w.emit "glBlendFunc" [.sym "GL_SRC_ALPHA", .sym "GL_ONE_MINUS_SRC_ALPHA"] }
  | .uploadModel =>
    { s with w := s.w.emit "glUniformMatrix4fv" [.loc "model", .int 1, .sym "GL_FALSE", .sym "model"] }
  | .programObjectColor r g2 b a =>
    let args := [.name g.gProgramId, .loc "objectColor", .sym r, .sym g2, .sym b, .sym a]
    { s with w := s.w.emit "glProgramUniform4f" args }
  | .useTexture v =>
    let w := s.w.emit "glGetUniformLocation" [.name g.gProgramId, .text "useTexture"]
    { s with w := w.emit "glUniform1i" [.loc "useTexture", .int v] }
  | .objectColor r g2 b a =>
    let w := s.w.emit "glGetUniformLocation" [.name g.gProgramId, .text "objectColor"]
    { s with w := w.emit "glUniform4f" [.loc "objectColor", .sym r, .sym g2, .sym b, .sym a] }
  | .glDrawElements m =>
    let args := [.sym "GL_TRIANGLES", m.nIndices, .sym "GL_UNSIGNED_INT", .int 0]
    { s with w := s.w.emit "glDrawElements" args }

/-- The statements of the recurring section of `URender` that draws a box in a plain colour:
`glBindVertexArray(meshes.gBoxMesh.vao); glBindTexture(GL_TEXTURE_2D, 0);`, the upload of
`model`, the `useTexture` and `objectColor` statements and `glDrawElements`. -/
def boxSection (r g b a : String) : List Stmt :=
  [.glBindVertexArray (some .gBoxMesh), .glBindTexture .zero, .uploadModel, .useTexture 0,
   .objectColor r g b a, .glDrawElements .gBoxMesh]

/-- The statements of `URender` from line 503 on, one row per section of the source; the
number in front of a row is the line its first statement is on. -/
def URenderSections : List (List Stmt) := [
  /- 503 -/ [.setHasTextureVal true, .uploadHasTexture],
  /- 509 -/ [.glBindVertexArray (some .gPlaneMesh), .glActiveTexture, .glBindTexture .gTextureIdCase, .uploadModel, .useTexture 0, .objectColor "0.3f" "0.5f" "0.30f" "1.0f", .glDrawElements .gPlaneMesh],
  /- 529 -/ [.glBindVertexArray (some .gPlaneMesh), .setHasTextureVal true, .uploadHasTexture, .glActiveTexture, .glBindTexture .gTextureIdCase, .glEnableBlend, .glBlendFunc, .uploadModel, .useTexture 1, .glDrawElements .gPlaneMesh, .setHasTextureVal false, .uploadHasTexture],
  /- 568 -/ boxSection "0.9f" "0.9f" "0.7f" "1.0f",
  /- 592 -/ [.glBindVertexArray (some .gBoxMesh), .glBindTexture .zero, .uploadModel, .programObjectColor "0.0f" "0.22f" "0.0f" "1.0f", .useTexture 0, .objectColor "0.0f" "0.2f" "0.0f" "1.0f", .glDrawElements .gBoxMesh, .glBindVertexArray none],
  /- 617 -/ boxSection "0.9f" "0.9f" "0.7f" "1.0f" ++ [.glBindVertexArray none],
  /- 640 -/ boxSection "0.9f" "0.9f" "0.7f" "1.0f" ++ [.glBindVertexArray none],
  /- 666 -/ boxSection "0.9f" "0.9f" "0.7f" "1.0f" ++ [.glBindVertexArray none],
  /- 691 -/ boxSection "0.9f" "0.9f" "0.7f" "1.0f" ++ [.glBindVertexArray none],
  /- 714 -/ boxSection "0.0f" "0.0f" "0.0f" "1.0f" ++ [.glBindVertexArray none],
  /- 736 -/ boxSection "0.0f" "0.0f" "0.0f" "1.0f" ++ [.glBindVertexArray none],
  /- 758 -/ [.glBindVertexArray (some .gPlaneMesh), .setHasTextureVal true, .uploadHasTexture, .glActiveTexture, .glBindTexture .gTextureIdLogo, .glEnableBlend, .glBlendFunc, .uploadModel, .useTexture 1, .glDrawElements .gPlaneMesh, .glBindVertexArray none, .setHasTextureVal false, .uploadHasTexture],
  /- 796 -/ boxSection "0.9f" "0.9f" "0.7f" "1.0f" ++ [.glBindVertexArray none],
  /- 819 -/ boxSection "0.7f" "0.7f" "0.5f" "1.0f",
  /- 841 -/ boxSection "0.7f" "0.7f" "0.5f" "1.0f",
  /- 862 -/ boxSection "0.7f" "0.7f" "0.5f" "1.0f",
  /- 883 -/ boxSection "0.7f" "0.7f" "0.5f" "1.0f",
  /- 904 -/ boxSection "0.7f" "0.7f" "0.5f" "1.0f",
  /- 925 -/ boxSection "0.7f" "0.7f" "0.5f" "1.0f",
  /- 946 -/ boxSection "0.7f" "0.7f" "0.5f" "1.0f",
  /- 967 -/ boxSection "0.7f" "0.7f" "0.5f" "1.0f",
  /- 988 -/ boxSection "0.7f" "0.7f" "0.5f" "1.0f",
  /- 1010 -/ boxSection "0.7f" "0.7f" "0.5f" "1.0f",
  /- 1032 -/ boxSection "0.7f" "0.7f" "0.5f" "1.0f",
  /- 1053 -/ boxSection "0.7f" "0.7f" "0.5f" "1.0f",
  /- 1073 -/ boxSection "0.7f" "0.7f" "0.5f" "1.0f",
  /- 1092 -/ boxSection "0.7f" "0.7f" "0.5f" "1.0f",
  /- 1112 -/ boxSection "0.7f" "0.7f" "0.5f" "1.0f",
  /- 1132 -/ boxSection "0.7f" "0.7f" "0.5f" "1.0f",
  /- 1152 -/ boxSection "0.7f" "0.7f" "0.5f" "1.0f",
  /- 1173 -/ boxSection "0.7f" "0.7f" "0.5f" "1.0f",
  /- 1194 -/ boxSection "0.7f" "0.7f" "0.5f" "1.0f",
  /- 1215 -/ boxSection "0.7f" "0.7f" "0.5f" "1.0f",
  /- 1236 -/ boxSection "0.7f" "0.7f" "0.5f" "1.0f",
  /- 1257 -/ boxSection "0.7f" "0.7f" "0.5f" "1.0f",
  /- 1278 -/ boxSection "0.7f" "0.7f" "0.5f" "1.0f" ++ [.glBindVertexArray none],
  /- 1300 -/ boxSection "0.7f" "0.7f" "0.5f" "1.0f",
  /- 1321 -/ boxSection "0.7f" "0.7f" "0.5f" "1.0f",
  /- 1340 -/ boxSection "0.7f" "0.7f" "0.5f" "1.0f",
  /- 1361 -/ boxSection "0.7f" "0.7f" "0.5f" "1.0f",
  /- 1382 -/ boxSection "0.7f" "0.7f" "0.5f" "1.0f",
  /- 1403 -/ [.glBindVertexArray (some .gBoxMesh), .glBindTexture .zero, .uploadModel, .useTexture 0, .objectColor "0.7f" "0.7f" "0.5f" "1.0f"],
  /- 1421 -/ boxSection "0.7f" "0.7f" "0.5f" "1.0f",
  /- 1442 -/ boxSection "0.7f" "0.7f" "0.5f" "1.0f",
  /- 1463 -/ boxSection "0.7f" "0.7f" "0.5f" "1.0f",
  /- 1484 -/ boxSection "0.7f" "0.7f" "0.5f" "1.0f",
  /- 1505 -/ boxSection "0.7f" "0.7f" "0.5f" "1.0f" ++ [.glDrawElements .gBoxMesh],
  /- 1529 -/ boxSection "0.7f" "0.7f" "0.5f" "1.0f",
  /- 1551 -/ boxSection "0.7f" "0.7f" "0.5f" "1.0f",
  /- 1572 -/ boxSection "0.7f" "0.7f" "0.5f" "1.0f",
  /- 1593 -/ boxSection "0.7f" "0.7f" "0.5f" "1.0f",
  /- 1614 -/ boxSection "0.7f" "0.7f" "0.5f" "1.0f",
  /- 1635 -/ boxSection "0.7f" "0.7f" "0.5f" "1.0f",
  /- 1657 -/ boxSection "0.7f" "0.7f" "0.5f" "1.0f",
  /- 1678 -/ boxSection "0.7f" "0.7f" "0.5f" "1.0f",
  /- 1700 -/ boxSection "0.7f" "0.7f" "0.5f" "1.0f",
  /- 1721 -/ boxSection "0.7f" "0.7f" "0.5f" "1.0f",
  /- 1742 -/ boxSection "0.7f" "0.7f" "0.5f" "1.0f",
  /- 1762 -/ boxSection "0.7f" "0.7f" "0.5f" "1.0f",
  /- 1782 -/ boxSection "0.7f" "0.7f" "0.5f" "1.0f",
  /- 1802 -/ boxSection "0.7f" "0.7f" "0.5f" "1.0f",
  /- 1822 -/ boxSection "0.7f" "0.7f" "0.5f" "1.0f",
  /- 1842 -/ boxSection "0.7f" "0.7f" "0.5f" "1.0f",
  /- 1862 -/ boxSection "0.7f" "0.7f" "0.5f" "1.0f",
  /- 1883 -/ boxSection "0.7f" "0.7f" "0.5f" "1.0f",
  /- 1903 -/ boxSection "0.7f" "0.7f" "0.5f" "1.0f",
  /- 1923 -/ boxSection "0.7f" "0.7f" "0.5f" "1.0f",
  /- 1943 -/ boxSection "0.7f" "0.7f" "0.5f" "1.0f",
  /- 1963 -/ boxSection "0.7f" "0.7f" "0.5f" "1.0f" ++ [.glBindVertexArray none]
  ]

/-- The uniform names `URender` looks up in lines 464-480, in order. -/
def URenderLookups : List String :=
  ["model", "view", "projection", "viewPosition", "ambientStrength", "ambientColor",
   "light1Color", "light1Position", "light2Color", "light2Position", "objectColor",
   "specularIntensity1", "highlightSize1", "specularIntensity2", "highlightSize2",
   "ubHasTexture", "objectColor"]

/-- Record a list of calls, in order. -/
def World.emitAll (w : World) (cs : List Call) : World :=
  { w with trace := w.trace ++ cs }

/-- The function `URender()`. -/
def URender (a : App) : App :=
  let g := a.g
  let w := a.w.emit "glEnable" [.sym "GL_DEPTH_TEST"]
  let w := w.emit "glClearColor" [.real 0, .real 0, .real 0, .real 1]
  let w := w.emit "glClear" [.sym "GL_COLOR_BUFFER_BIT | GL_DEPTH_BUFFER_BIT"]
  let w := w.emit "gCamera.GetViewMatrix" []
  let w :=
    if g.orthoViewToggle then
      w.emit "glm::ortho" [.real (-5), .real 5, .real (-5), .real 5, .real 0.1, .real 100]
    else
      w.emit "glm::perspective" [.sym "glm::radians(gCamera.Zoom)",
        .real ((WINDOW_WIDTH : ℚ) / (WINDOW_HEIGHT : ℚ)), .real 0.1, .real 100]
  let w := glUseProgram g.gProgramId w
  let w := w.emitAll (URenderLookups.map fun n => ⟨"glGetUniformLocation", [.name g.gProgramId, .text n]⟩)
  let w := w.emit "glUniformMatrix4fv" [.loc "view", .int 1, .sym "GL_FALSE", .sym "view"]
  let w := w.emit "glUniformMatrix4fv" [.loc "projection", .int 1, .sym "GL_FALSE", .sym "projection"]
  let w := w.emit "glUniform3f" [.loc "viewPosition", .sym "gCamera.Position.x",
    .sym "gCamera.Position.y", .sym "gCamera.Position.z"]
  let w := w.emit "glUniform1f" [.loc "ambientStrength", .real 0.9]
  let w := w.emit "glUniform3f" [.loc "ambientColor", .real 0.2, .real 0.2, .real 0.2]
  let w := w.emit "glUniform3f" [.loc "light1Color", .real 0.2, .real 0.2, .real 0.2]
  let w := w.emit "glUniform3f" [.loc "light1Position", .real 2, .real 5, .real 5]
  let w := w.emit "glUniform3f" [.loc "light2Color", .real 0.2, .real 0.2, .real 0.2]
  let w := w.emit "glUniform3f" [.loc "light2Position", .real (-2), .real 5, .real 5]
  let w := w.emit "glUniform1f" [.loc "specularIntensity1", .real 0.1]
  let w := w.emit "glUniform1f" [.loc "specularIntensity2", .real 0]
  let w := w.emit "glUniform1f" [.loc "highlightSize1", .real 0.3]
  let w := w.emit "glUniform1f" [.loc "highlightSize2", .real 0.3]
  let s := URenderSections.flatten.foldl (Stmt.exec g) ⟨false, w⟩
  let w := s.w.emit "glfwSwapBuffers" []
  { a with w := w }

/-! ## `main` -/

/-- The value of `EXIT_FAILURE`. -/
def EXIT_FAILURE : Int := 1

/-- The value of `EXIT_SUCCESS`. -/
def EXIT_SUCCESS : Int := 0

/-- One iteration of the render loop of `main` (lines 257-269).  The calls of `UProcessInput`
and `URender` are recorded as such. -/
def frame (f : FrameInput) (a : App) : App :=
  let currentFrame := f.time
  let w := a.w.emit "glfwGetTime" []
  let g := { a.g with gDeltaTime := currentFrame - a.g.gLastFrame }
  let g := { g with gLastFrame := currentFrame }
  let a : App := ⟨g, w⟩
  let a := UProcessInput f { a with w := a.w.emit "UProcessInput" [] }
  let a := URender { a with w := a.w.emit "URender" [] }
  glfwPollEvents f.events a

/-- The loop `while (!glfwWindowShouldClose(gWindow))` of `main`, run on the input of the
frames that are given.  The `Bool` tells whether the loop was left; it is `false` when the
window is still open after the last given frame. -/
def renderLoop : List FrameInput → App → Bool × App
  | [], a =>
    let w := a.w.emit "glfwWindowShouldClose" []
    (w.windowShouldClose, { a with w := w })
  | f :: fs, a =>
    let w := a.w.emit "glfwWindowShouldClose" []
    if w.windowShouldClose then (true, { a with w := w })
    else renderLoop fs (frame f { a with w := w })

/-- How a run of `main` ends: the exit status (`none` while the render loop is still running
when the given frames are used up), the globals and the world. -/
structure MainResult where
  exit : Option Int
  g : Globals
  w : World

/-- The function `main`, started in world `w0` with globals `g0`. -/
def mainFrom (P : Platform) (frames : List FrameInput) (g0 : Globals) (w0 : World) : MainResult :=
  let (ok, w) := UInitialize P w0
  if !ok then ⟨some EXIT_FAILURE, g0, w⟩
  else
    let w := w.emit "meshes.CreateMeshes" []
    let r := UCreateShaderProgram P vertexShaderSource fragmentShaderSource w
    let g := { g0 with gProgramId := r.programId }
    if !r.ok then ⟨some EXIT_FAILURE, g, r.world⟩
    else
      let caseTexture := "casetexture.jpg"
      let t := UCreateTexture P caseTexture g.gTextureIdCase r.world
      let g := { g with gTextureIdCase := t.textureId }
      if !t.ok then
        ⟨some EXIT_FAILURE, g, cout ("Failed to load texture " ++ caseTexture ++ "\n") t.world⟩
      else
        let logoTexture := "applelogo.png"
        let t := UCreateTexture P logoTexture g.gTextureIdLogo t.world
        let g := { g with gTextureIdLogo := t.textureId }
        if !t.ok then
          ⟨some EXIT_FAILURE, g, cout ("Failed to load texture " ++ logoTexture ++ "\n") t.world⟩
        else
          let w := glUseProgram g.gProgramId t.world
          let w := w.emit "glGetUniformLocation" [.name g.gProgramId, .text "uTexture"]
          let w := w.emit "glUniform1i" [.loc "uTexture", .int 0]
          let w := w.emit "glClearColor" [.real 1, .real 1, .real 1, .real 1]
          match renderLoop frames ⟨g, w⟩ with
          | (false, a) => ⟨none, a.g, a.w⟩
          | (true, a) =>
            let w := a.w.emit "meshes.DestroyMeshes" []
            let w := UDestroyTexture a.g.gTextureIdCase w
            let w := UDestroyTexture a.g.gTextureIdLogo w
            let w := UDestroyShaderProgram a.g.gProgramId w
            ⟨some EXIT_SUCCESS, a.g, w.emit "exit" [.int EXIT_SUCCESS]⟩

/-- The program: `main` started with the initial globals in a fresh world. -/
def main (P : Platform) (frames : List FrameInput) : MainResult :=
  mainFrom P frames Globals.init World.init

/-- The uniform names the specification recognises. -/
def recognizedUniforms : List String :=
  ["model", "view", "projection", "viewPosition", "ambientStrength", "ambientColor",
   "light1Color", "light1Position", "light2Color", "light2Position", "objectColor",
   "specularIntensity1", "specularIntensity2", "highlightSize1", "highlightSize2",
   "uTexture", "ubHasTexture"]

/-- The uniforms declared by the vertex shader source (lines 99-101). -/
def vertexShaderUniforms : List String :=
  ["model", "view", "projection"]

/-- The uniforms declared by the fragment shader source (lines 125-138). -/
def fragmentShaderUniforms : List String :=
  ["objectColor", "ambientColor", "light1Color", "light1Position", "light2Color",
   "light2Position", "viewPosition", "uTexture", "ubHasTexture", "ambientStrength",
   "specularIntensity1", "highlightSize1", "specularIntensity2", "highlightSize2"]

/-- The uniform names passed to `glGetUniformLocation` in a list of calls. -/
def uniformNamesQueried (cs : List Call) : List String :=
  cs.filterMap fun c =>
    match c.fn, c.args with
    | "glGetUniformLocation", [_, .text n] => some n
    | _, _ => none

/-! ## Notions the statements below use -/

/-- The line `UCreateShaderProgram` prints when the vertex stage fails to compile. -/
def vertexReport (P : Platform) (vs : String) : Call :=
  ⟨"cout", [.text ("ERROR::SHADER::VERTEX::COMPILATION_FAILED\n" ++
    (P.shaderInfoLog .GL_VERTEX_SHADER vs).take 511 ++ "\n")]⟩

/-- The line `UCreateShaderProgram` prints when the fragment stage fails to compile. -/
def fragmentReport (P : Platform) (fs : String) : Call :=
  ⟨"cout", [.text ("ERROR::SHADER::FRAGMENT::COMPILATION_FAILED\n" ++
    (P.shaderInfoLog .GL_FRAGMENT_SHADER fs).take 511 ++ "\n")]⟩

/-- The two compiled stages, as the linker sees them. -/
def compiledStages (vs fs : String) : List ShaderObj :=
  [⟨.GL_VERTEX_SHADER, vs, true⟩, ⟨.GL_FRAGMENT_SHADER, fs, true⟩]

/-- The line `UCreateShaderProgram` prints when linking fails. -/
def linkReport (P : Platform) (vs fs : String) : Call :=
  ⟨"cout", [.text ("ERROR::SHADER::PROGRAM::LINKING_FAILED\n" ++
    (P.programInfoLog (compiledStages vs fs)).take 511 ++ "\n")]⟩

/-- No shader or program object that did not exist in `w` is live in `w2`. -/
def NoLeak (w w2 : World) : Prop :=
  ∀ n, w.live n = false → w2.live n = false

/-- World `w2` comes after `w`: its trace is that of `w` followed by calls that all satisfy `Q`. -/
def Extends (Q : Call → Prop) (w w2 : World) : Prop :=
  ∃ l, w2.trace = w.trace ++ l ∧ ∀ c ∈ l, Q c

/-- The functions that are called while the render loop runs. -/
def loopFunctions : List String :=
  ["glfwWindowShouldClose", "glfwGetTime", "UProcessInput", "glfwGetKey",
   "glfwSetWindowShouldClose", "gCamera.ProcessKeyboard", "URender", "glEnable", "glClearColor",
   "glClear", "gCamera.GetViewMatrix", "glm::ortho", "glm::perspective", "glUseProgram",
   "glGetUniformLocation", "glUniformMatrix4fv", "glUniform3f", "glUniform1f", "glUniform1i",
   "glUniform4f", "glProgramUniform4f", "glBindVertexArray", "glActiveTexture", "glBindTexture",
   "glBlendFunc", "glDrawElements", "glfwSwapBuffers", "glfwPollEvents", "glViewport",
   "gCamera.ProcessMouseMovement", "gCamera.ProcessMouseScroll", "cout"]

/-- A call of the kind the render loop issues when the shader program is `pid`: one of the
functions above, and `pid` is the argument when the function is `glUseProgram`. -/
def LoopCall (pid : Nat) (c : Call) : Prop :=
  c.fn ∈ loopFunctions ∧ (c.fn = "glUseProgram" → c.args = [.name pid])

/-- A step of the program that keeps `gProgramId` at `pid` and issues only loop calls. -/
def LoopStep (pid : Nat) (F : App → App) : Prop :=
  ∀ a, a.g.gProgramId = pid → (F a).g.gProgramId = pid ∧ Extends (LoopCall pid) a.w (F a).w

/-- Whether `UCreateShaderProgram` returns `true` for the two sources (the world it is called in
has no influence on that). -/
def shaderProgramCreated (P : Platform) (vs fs : String) : Bool :=
  (UCreateShaderProgram P vs fs World.init).ok

/-- Whether `UCreateTexture` returns `true` for a file (the world it is called in and the
former value of `textureId` have no influence on that). -/
def textureCreated (P : Platform) (filename : String) : Bool :=
  (UCreateTexture P filename 0 World.init).ok

/-- The line `main` prints when `UCreateTexture` fails for a file. -/
def textureReport (filename : String) : Call :=
  ⟨"cout", [.text ("Failed to load texture " ++ filename ++ "\n")]⟩

/-- The world in which `main` calls `UCreateShaderProgram` (after `UInitialize` returned `true`
and the meshes were created). -/
def startWorld (P : Platform) : World :=
  (UInitialize P World.init).2.emit "meshes.CreateMeshes" []

/-- The call of `UCreateShaderProgram` in `main`. -/
def shaderStage (P : Platform) : CreateResult :=
  UCreateShaderProgram P vertexShaderSource fragmentShaderSource (startWorld P)

/-- The call of `UCreateTexture` for `casetexture.jpg` in `main`. -/
def caseStage (P : Platform) : TextureResult :=
  UCreateTexture P "casetexture.jpg" Globals.init.gTextureIdCase (shaderStage P).world

/-- The call of `UCreateTexture` for `applelogo.png` in `main`. -/
def logoStage (P : Platform) : TextureResult :=
  UCreateTexture P "applelogo.png" Globals.init.gTextureIdLogo (caseStage P).world

/-- The globals when `main` reaches its render loop. -/
def loopGlobals (P : Platform) : Globals :=
  { Globals.init with
    gProgramId := (shaderStage P).programId
    gTextureIdCase := (caseStage P).textureId
    gTextureIdLogo := (logoStage P).textureId }

/-- The world when `main` reaches its render loop (lines 246-251 done). -/
def loopWorld (P : Platform) : World :=
  World.emit
    (World.emit
      (World.emit (glUseProgram (shaderStage P).programId (logoStage P).world)
        "glGetUniformLocation" [.name (shaderStage P).programId, .text "uTexture"])
      "glUniform1i" [.loc "uTexture", .int 0])
    "glClearColor" [.real 1, .real 1, .real 1, .real 1]

/-- The world after the statements of `main` that follow the render loop (lines 274-282). -/
def shutdownWorld (a : App) : World :=
  World.emit
    (UDestroyShaderProgram a.g.gProgramId
      (UDestroyTexture a.g.gTextureIdLogo
        (UDestroyTexture a.g.gTextureIdCase (a.w.emit "meshes.DestroyMeshes" []))))
    "exit" [.int EXIT_SUCCESS]

/-- The functions `UInitialize` calls. -/
def initFunctions : List String :=
  ["glfwInit", "glfwWindowHint", "glfwCreateWindow", "cout", "glfwTerminate",
   "glfwMakeContextCurrent", "glfwSetFramebufferSizeCallback", "glfwSetCursorPosCallback",
   "glfwSetScrollCallback", "glfwSetMouseButtonCallback", "glfwSetInputMode", "glewInit", "cerr"]

/-- The functions `UCreateShaderProgram` calls. -/
def createFunctions : List String :=
  ["glCreateProgram", "glCreateShader", "glShaderSource", "glCompileShader", "glGetShaderiv",
   "glGetShaderInfoLog", "cout", "glAttachShader", "glLinkProgram", "glGetProgramiv",
   "glGetProgramInfoLog", "glUseProgram"]

/-- A call of the kind `UCreateShaderProgram` issues when it returns `ok` with `pid` in
`programId`: `glUseProgram` only when `ok` is `true`, and then on `pid`. -/
def CreateCall (ok : Bool) (pid : Nat) (c : Call) : Prop :=
  c.fn ∈ createFunctions ∧ (c.fn = "glUseProgram" → ok = true ∧ c.args = [.name pid])

/-- The functions `UCreateTexture` calls. -/
def textureFunctions : List String :=
  ["stbi_load", "flipImageVertically", "glGenTextures", "glBindTexture", "glTexParameteri",
   "glTexImage2D", "glGenerateMipmap", "stbi_image_free", "cout"]

/-- A call of the kind `UCreateTexture` issues for a file: `stbi_load` only on that file. -/
def TextureCall (filename : String) (c : Call) : Prop :=
  c.fn ∈ textureFunctions ∧ (c.fn = "stbi_load" → c.args = [.text filename])

/-- The functions called by the statements of `main` that follow the render loop. -/
def shutdownFunctions : List String :=
  ["meshes.DestroyMeshes", "glGenTextures", "glDeleteProgram", "exit"]

/-- Where a call in the trace of `main` can come from: `UInitialize`, the creation of the
meshes, `UCreateShaderProgram`, the two calls of `UCreateTexture` and the reports of their
failure, the render loop with the statements in front of it, or the statements after the
loop.  Each origin comes with what must have succeeded or failed before. -/
def CallOrigin (P : Platform) (c : Call) : Prop :=
  c.fn ∈ initFunctions ∨
  c = ⟨"meshes.CreateMeshes", []⟩ ∨
  CreateCall (shaderProgramCreated P vertexShaderSource fragmentShaderSource)
    (shaderStage P).programId c ∨
  (shaderProgramCreated P vertexShaderSource fragmentShaderSource = true ∧
    TextureCall "casetexture.jpg" c) ∨
  (shaderProgramCreated P vertexShaderSource fragmentShaderSource = true ∧
    textureCreated P "casetexture.jpg" = false ∧ c = textureReport "casetexture.jpg") ∨
  (shaderProgramCreated P vertexShaderSource fragmentShaderSource = true ∧
    textureCreated P "casetexture.jpg" = true ∧ TextureCall "applelogo.png" c) ∨
  (shaderProgramCreated P vertexShaderSource fragmentShaderSource = true ∧
    textureCreated P "casetexture.jpg" = true ∧
    textureCreated P "applelogo.png" = false ∧ c = textureReport "applelogo.png") ∨
  (shaderProgramCreated P vertexShaderSource fragmentShaderSource = true ∧
    textureCreated P "casetexture.jpg" = true ∧
    textureCreated P "applelogo.png" = true ∧
    (LoopCall (shaderStage P).programId c ∨
      (c.fn ∈ shutdownFunctions ∧
        (c.fn = "glDeleteProgram" → c.args = [.name (shaderStage P).programId]))))

/-! ## Concrete environments -/

/-- A 2 x 2 image with the given number of channels. -/
def sampleImage (channels : Int) : Image :=
  ⟨2, 2, channels⟩

/-- An environment in which the window and GLEW come up, and the outcome of the two
compilations, of the link and of the two image loads is as given. -/
def samplePlatform (vertexOk fragmentOk linkOk : Bool) (caseImage logoImage : Option Image) :
    Platform where
  compileStatus := fun t _ =>
    match t with
    | .GL_VERTEX_SHADER => vertexOk
    | .GL_FRAGMENT_SHADER => fragmentOk
  shaderInfoLog := fun t _ =>
    match t with
    | .GL_VERTEX_SHADER => "0(1) : error C0000: vertex stage"
    | .GL_FRAGMENT_SHADER => "0(1) : error C0000: fragment stage"
  linkStatus := fun _ => linkOk
  programInfoLog := fun _ => "error: link"
  stbi_load := fun filename =>
    if filename = "casetexture.jpg" then caseImage
    else if filename = "applelogo.png" then logoImage
    else none
  windowCreated := true
  glewOk := true
  glewErrorString := "Unknown error"
  glVersion := "4.4.0"
  apple := true

/-- An environment in which everything succeeds. -/
def goodPlatform : Platform :=
  samplePlatform true true true (some (sampleImage 3)) (some (sampleImage 4))

/-- A frame without input at time `t`. -/
def quietFrame (t : ℚ) : FrameInput :=
  ⟨t, [], []⟩

/-- A frame at time `t` during which the user asks to close the window. -/
def closingFrame (t : ℚ) : FrameInput :=
  ⟨t, [], [.close]⟩

/-! ## Notions for the claims about one frame of the render loop -/

/-- The state in which `frame` calls `URender`: the time stamp is taken, the frame time is
updated and `UProcessInput` has run. -/
def renderEntry (f : FrameInput) (a : App) : App :=
  let g := { a.g with gDeltaTime := f.time - a.g.gLastFrame }
  let g := { g with gLastFrame := f.time }
  let a : App := ⟨g, a.w.emit "glfwGetTime" []⟩
  let a := UProcessInput f { a with w := a.w.emit "UProcessInput" [] }
  { a with w := a.w.emit "URender" [] }

/-- The iterations of the render loop that `renderLoop` executes on the given frames, each with
the state in which its body starts (the loop condition has just been tested). -/
def loopFrames : List FrameInput → App → List (FrameInput × App)
  | [], _ => []
  | f :: fs, a =>
    let w := a.w.emit "glfwWindowShouldClose" []
    if w.windowShouldClose then []
    else (f, { a with w := w }) :: loopFrames fs (frame f { a with w := w })

/-- The call by which `URender` builds the projection (lines 451-458). -/
def projectionCall (orthoViewToggle : Bool) : Call :=
  if orthoViewToggle then
    ⟨"glm::ortho", [.real (-5), .real 5, .real (-5), .real 5, .real 0.1, .real 100]⟩
  else
    ⟨"glm::perspective", [.sym "glm::radians(gCamera.Zoom)",
      .real ((WINDOW_WIDTH : ℚ) / (WINDOW_HEIGHT : ℚ)), .real 0.1, .real 100]⟩

/-- The upload of the view matrix (line 482). -/
def viewUpload : Call :=
  ⟨"glUniformMatrix4fv", [.loc "view", .int 1, .sym "GL_FALSE", .sym "view"]⟩

/-- The upload of the projection matrix (line 483). -/
def projectionUpload : Call :=
  ⟨"glUniformMatrix4fv", [.loc "projection", .int 1, .sym "GL_FALSE", .sym "projection"]⟩

/-- The calls of `URender` up to the read of the view matrix and the choice of the projection
(lines 442-458). -/
def URenderSetupCalls (g : Globals) : List Call :=
  [⟨"glEnable", [.sym "GL_DEPTH_TEST"]⟩,
   ⟨"glClearColor", [.real 0, .real 0, .real 0, .real 1]⟩,
   ⟨"glClear", [.sym "GL_COLOR_BUFFER_BIT | GL_DEPTH_BUFFER_BIT"]⟩,
   ⟨"gCamera.GetViewMatrix", []⟩,
   projectionCall g.orthoViewToggle]

/-- The calls of `URender` from `glUseProgram` to the last of the 17 look-ups
(lines 461-480). -/
def URenderLookupCalls (g : Globals) : List Call :=
  ⟨"glUseProgram", [.name g.gProgramId]⟩ ::
    URenderLookups.map fun n => ⟨"glGetUniformLocation", [.name g.gProgramId, .text n]⟩

/-- The uniform uploads of `URender` that follow those of the view and the projection
(lines 486-501). -/
def URenderLightCalls : List Call :=
  [⟨"glUniform3f", [.loc "viewPosition", .sym "gCamera.Position.x", .sym "gCamera.Position.y",
      .sym "gCamera.Position.z"]⟩,
   ⟨"glUniform1f", [.loc "ambientStrength", .real 0.9]⟩,
   ⟨"glUniform3f", [.loc "ambientColor", .real 0.2, .real 0.2, .real 0.2]⟩,
   ⟨"glUniform3f", [.loc "light1Color", .real 0.2, .real 0.2, .real 0.2]⟩,
   ⟨"glUniform3f", [.loc "light1Position", .real 2, .real 5, .real 5]⟩,
   ⟨"glUniform3f", [.loc "light2Color", .real 0.2, .real 0.2, .real 0.2]⟩,
   ⟨"glUniform3f", [.loc "light2Position", .real (-2), .real 5, .real 5]⟩,
   ⟨"glUniform1f", [.loc "specularIntensity1", .real 0.1]⟩,
   ⟨"glUniform1f", [.loc "specularIntensity2", .real 0]⟩,
   ⟨"glUniform1f", [.loc "highlightSize1", .real 0.3]⟩,
   ⟨"glUniform1f", [.loc "highlightSize2", .real 0.3]⟩]

/-- The functions the statements of `URender` from line 503 on call. -/
def bodyFunctions : List String :=
  ["glBindVertexArray", "glUniform1i", "glActiveTexture", "glBindTexture", "glEnable",
   "glBlendFunc", "glUniformMatrix4fv", "glProgramUniform4f", "glGetUniformLocation",
   "glUniform4f", "glDrawElements"]

/-- A call of the kind the statements of `URender` from line 503 on issue: one of the functions
above, a matrix upload is that of `model`, and the texture unit selected is `GL_TEXTURE0`. -/
def BodyCall (c : Call) : Prop :=
  c.fn ∈ bodyFunctions ∧
  (c.fn = "glUniformMatrix4fv" →
    c.args = [.loc "model", .int 1, .sym "GL_FALSE", .sym "model"]) ∧
  (c.fn = "glActiveTexture" → c.args = [.sym "GL_TEXTURE0"])

/-- The functions `UProcessInput` calls. -/
def inputFunctions : List String :=
  ["glfwGetKey", "glfwSetWindowShouldClose", "gCamera.ProcessKeyboard"]

/-- A call of the kind `UProcessInput` issues when `gDeltaTime` is `dt`: the camera is moved with
`dt` as its `deltaTime`. -/
def InputCall (dt : ℚ) (c : Call) : Prop :=
  c.fn ∈ inputFunctions ∧
  (c.fn = "gCamera.ProcessKeyboard" → ∃ direction, c.args = [.sym direction, .real dt])

/-- The functions called during `glfwPollEvents`, by the callbacks. -/
def pollFunctions : List String :=
  ["glfwPollEvents", "glViewport", "gCamera.ProcessMouseMovement", "gCamera.ProcessMouseScroll",
   "cout"]

/-- A call of the kind issued during `glfwPollEvents`. -/
def PollCall (c : Call) : Prop :=
  c.fn ∈ pollFunctions

/-- The methods of `gCamera` that change the camera. -/
def cameraUpdates : List String :=
  ["gCamera.ProcessKeyboard", "gCamera.ProcessMouseMovement", "gCamera.ProcessMouseScroll"]

/-- What `UProcessInput`, `URender` and `glfwPollEvents` leave as it is: the program and
texture names in the globals, the frame time, and the set of generated texture names. -/
def Kept (a b : App) : Prop :=
  b.g.gProgramId = a.g.gProgramId ∧
  b.g.gTextureIdCase = a.g.gTextureIdCase ∧
  b.g.gTextureIdLogo = a.g.gTextureIdLogo ∧
  b.g.gDeltaTime = a.g.gDeltaTime ∧
  b.g.gLastFrame = a.g.gLastFrame ∧
  b.w.textures = a.w.textures

/-- Step from `a` to `b` that keeps what `Kept` lists and issues calls satisfying `Q` only. -/
def During (Q : Call → Prop) (a b : App) : Prop :=
  Kept a b ∧ Extends Q a.w b.w

/-- The world `URender` has built when it reaches line 503 (lines 442-501 done). -/
def URenderHeaderWorld (a : App) : World :=
  let g := a.g
  let w := a.w.emit "glEnable" [.sym "GL_DEPTH_TEST"]
  let w := w.emit "glClearColor" [.real 0, .real 0, .real 0, .real 1]
  let w := w.emit "glClear" [.sym "GL_COLOR_BUFFER_BIT | GL_DEPTH_BUFFER_BIT"]
  let w := w.emit "gCamera.GetViewMatrix" []
  let w :=
    if g.orthoViewToggle then
      w.emit "glm::ortho" [.real (-5), .real 5, .real (-5), .real 5, .real 0.1, .real 100]
    else
      w.emit "glm::perspective" [.sym "glm::radians(gCamera.Zoom)",
        .real ((WINDOW_WIDTH : ℚ) / (WINDOW_HEIGHT : ℚ)), .real 0.1, .real 100]
  let w := glUseProgram g.gProgramId w
  let w := w.emitAll (URenderLookups.map fun n => ⟨"glGetUniformLocation", [.name g.gProgramId, .text n]⟩)
  let w := w.emit "glUniformMatrix4fv" [.loc "view", .int 1, .sym "GL_FALSE", .sym "view"]
  let w := w.emit "glUniformMatrix4fv" [.loc "projection", .int 1, .sym "GL_FALSE", .sym "projection"]
  let w := w.emit "glUniform3f" [.loc "viewPosition", .sym "gCamera.Position.x",
    .sym "gCamera.Position.y", .sym "gCamera.Position.z"]
  let w := w.emit "glUniform1f" [.loc "ambientStrength", .real 0.9]
  let w := w.emit "glUniform3f" [.loc "ambientColor", .real 0.2, .real 0.2, .real 0.2]
  let w := w.emit "glUniform3f" [.loc "light1Color", .real 0.2, .real 0.2, .real 0.2]
  let w := w.emit "glUniform3f" [.loc "light1Position", .real 2, .real 5, .real 5]
  let w := w.emit "glUniform3f" [.loc "light2Color", .real 0.2, .real 0.2, .real 0.2]
  let w := w.emit "glUniform3f" [.loc "light2Position", .real (-2), .real 5, .real 5]
  let w := w.emit "glUniform1f" [.loc "specularIntensity1", .real 0.1]
  let w := w.emit "glUniform1f" [.loc "specularIntensity2", .real 0]
  let w := w.emit "glUniform1f" [.loc "highlightSize1", .real 0.3]
  w.emit "glUniform1f" [.loc "highlightSize2", .real 0.3]

/-- The methods of `gCamera` that the program calls (lines 361, 369, 449, 1998-2008). -/
def cameraMethods : List String :=
  ["gCamera.GetViewMatrix", "gCamera.ProcessKeyboard", "gCamera.ProcessMouseMovement",
   "gCamera.ProcessMouseScroll"]

/-! ## Notions for the claim about textured draws -/

/-- What holds at the moment a `glDrawElements` call is issued. -/
structure DrawRecord where
  /-- the value of the uniform `ubHasTexture` -/
  hasTexture : Bool
  /-- the selected texture unit -/
  activeTexture : String
  /-- the texture bound to `GL_TEXTURE_2D` -/
  boundTexture2D : Nat
  deriving DecidableEq

/-- The state of `URender` with what the draws see: the value of the uniform `ubHasTexture`,
the selected texture unit, and the record of each draw issued so far. -/
structure RenderObs where
  s : RenderState
  ubHasTexture : Bool
  activeTexture : String
  draws : List DrawRecord

/-- The effect of one statement of `URender`, as `Stmt.exec` gives it, with the observation of
the uniform, of the texture unit and of the draws.  The upload `glUniform1i(uHasTextureLoc, ..)`
is taken to reach the uniform (the program is current and declares `ubHasTexture`). -/
def Stmt.observe (g : Globals) (o : RenderObs) (stmt : Stmt) : RenderObs :=
  let s := stmt.exec g o.s
  match stmt with
  | .uploadHasTexture => { o with s := s, ubHasTexture := o.s.ubHasTextureVal }
  | .glActiveTexture => { o with s := s, activeTexture := "GL_TEXTURE0" }
  | .glDrawElements _ =>
    let d : DrawRecord := ⟨o.ubHasTexture, o.activeTexture, o.s.w.boundTexture2D⟩
    { o with s := s, draws := o.draws ++ [d] }
  | _ => { o with s := s }

/-- The draws of one call of `URender` in state `a`, in order, when the uniform `ubHasTexture`
and the selected texture unit have the given values on entry. -/
def URenderDraws (a : App) (ubHasTexture : Bool) (activeTexture : String) : List DrawRecord :=
  (URenderSections.flatten.foldl (Stmt.observe a.g)
    ⟨⟨false, URenderHeaderWorld a⟩, ubHasTexture, activeTexture, []⟩).draws

/-- What is known of a draw from the statements alone: the value of the uniform if it was
uploaded, whether `GL_TEXTURE0` was selected, and the texture argument of the last
`glBindTexture`. -/
structure AbsDraw where
  uniform : Option Bool
  unit0 : Bool
  bound : Option TexRef
  deriving DecidableEq

/-- What is known of the state of `URender` from the statements alone. -/
structure AbsState where
  ubHasTextureVal : Bool
  uniform : Option Bool
  unit0 : Bool
  bound : Option TexRef

/-- The effect of a statement on what is known. -/
def AbsState.step (s : AbsState) : Stmt → AbsState
  | .setHasTextureVal b => { s with ubHasTextureVal := b }
  | .uploadHasTexture => { s with uniform := some s.ubHasTextureVal }
  | .glActiveTexture => { s with unit0 := true }
  | .glBindTexture t => { s with bound := some t }
  | _ => s

/-- What is known of the draws of a list of statements. -/
def absDraws : AbsState → List Stmt → List AbsDraw
  | _, [] => []
  | s, .glDrawElements _ :: rest => ⟨s.uniform, s.unit0, s.bound⟩ :: absDraws s rest
  | s, stmt :: rest => absDraws (s.step stmt) rest

/-- Nothing is known on entry, but that `ubHasTextureVal` is not yet set. -/
def AbsState.entry : AbsState :=
  ⟨false, none, false, none⟩

/-- A draw whose uniform is known to be false, or known to be true with `GL_TEXTURE0` selected
and `gTextureIdCase` or `gTextureIdLogo` bound. -/
def AbsDraw.good (r : AbsDraw) : Bool :=
  r.uniform == some false ||
    (r.uniform == some true && r.unit0 &&
      (r.bound == some .gTextureIdCase || r.bound == some .gTextureIdLogo))

/-- The observed draw agrees with what is known of it. -/
def Matches (g : Globals) (r : AbsDraw) (d : DrawRecord) : Prop :=
  (∀ b, r.uniform = some b → d.hasTexture = b) ∧
  (r.unit0 = true → d.activeTexture = "GL_TEXTURE0") ∧
  (∀ t, r.bound = some t → d.boundTexture2D = t.name g)

/-- The observed state agrees with what is known of it, and the two texture names of the
globals are generated textures. -/
def Agrees (g : Globals) (s : AbsState) (o : RenderObs) : Prop :=
  o.s.ubHasTextureVal = s.ubHasTextureVal ∧
  (∀ b, s.uniform = some b → o.ubHasTexture = b) ∧
  (s.unit0 = true → o.activeTexture = "GL_TEXTURE0") ∧
  (∀ t, s.bound = some t → o.s.w.boundTexture2D = t.name g) ∧
  o.s.w.textures g.gTextureIdCase = true ∧
  o.s.w.textures g.gTextureIdLogo = true

/-! ## The camera

`camera.h` is not among the sources; the camera is modelled from section 4.1 of the
specification.  Its scalars are taken in a field `K` (exact arithmetic), and the functions of the
math library it uses are a parameter. -/

/-- A vector of three scalars. -/
@[ext]
structure Vec3 (K : Type) where
  x : K
  y : K
  z : K

/-- The sum of two vectors. -/
def Vec3.add {K : Type} [Field K] (u v : Vec3 K) : Vec3 K :=
  ⟨u.x + v.x, u.y + v.y, u.z + v.z⟩

/-- The difference of two vectors. -/
def Vec3.sub {K : Type} [Field K] (u v : Vec3 K) : Vec3 K :=
  ⟨u.x - v.x, u.y - v.y, u.z - v.z⟩

/-- A vector times a scalar. -/
def Vec3.scale {K : Type} [Field K] (v : Vec3 K) (k : K) : Vec3 K :=
  ⟨v.x * k, v.y * k, v.z * k⟩

/-- The dot product. -/
def Vec3.dot {K : Type} [Field K] (u v : Vec3 K) : K :=
  u.x * v.x + u.y * v.y + u.z * v.z

/-- The cross product. -/
def Vec3.cross {K : Type} [Field K] (u v : Vec3 K) : Vec3 K :=
  ⟨u.y * v.z - u.z * v.y, u.z * v.x - u.x * v.z, u.x * v.y - u.y * v.x⟩

/-- The functions of the math library that the camera uses: cosine and sine of an angle in
radians, the conversion of degrees to radians, and the square root. -/
structure MathLib (K : Type) where
  cos : K → K
  sin : K → K
  radians : K → K
  sqrt : K → K

/-- The length of a vector. -/
def Vec3.length {K : Type} [Field K] (M : MathLib K) (v : Vec3 K) : K :=
  M.sqrt (v.dot v)

/-- The vector divided by its length. -/
def Vec3.normalize {K : Type} [Field K] (M : MathLib K) (v : Vec3 K) : Vec3 K :=
  v.scale (1 / v.length M)

/-- Modelled from the spec: the state of the `Camera` class of `camera.h`, which is not among
the sources (section 3, data model). -/
structure Camera (K : Type) where
  Position : Vec3 K
  Front : Vec3 K
  Up : Vec3 K
  Right : Vec3 K
  WorldUp : Vec3 K
  Yaw : K
  Pitch : K
  MovementSpeed : K
  MouseSensitivity : K
  Zoom : K

/-- Modelled from the spec: the directions of `processKeyboard` of the `Camera` class of
`camera.h`, which is not among the sources. -/
inductive Camera_Movement where
  | FORWARD | BACKWARD | LEFT | RIGHT | UP | DOWN
  deriving DecidableEq

/-- Modelled from the spec: the vector recomputation of the `Camera` class of `camera.h`, which
is not among the sources (section 4.1, "Vector recomputation algorithm"). -/
def Camera.updateCameraVectors {K : Type} [Field K] (M : MathLib K) (c : Camera K) : Camera K :=
  let front : Vec3 K :=
    ⟨M.cos (M.radians c.Yaw) * M.cos (M.radians c.Pitch),
     M.sin (M.radians c.Pitch),
     M.sin (M.radians c.Yaw) * M.cos (M.radians c.Pitch)⟩
  let front := front.normalize M
  let right := (front.cross c.WorldUp).normalize M
  let up := (right.cross front).normalize M
  { c with Front := front, Right := right, Up := up }

/-- Modelled from the spec: the constructor of the `Camera` class of `camera.h`, which is not
among the sources: an initial position, optionally yaw and pitch, `worldUp` the +Y axis; the
vectors are computed from the angles.  The tuning parameters are arguments. -/
def Camera.new {K : Type} [Field K] (M : MathLib K) (position : Vec3 K) (yaw pitch : K)
    (movementSpeed mouseSensitivity zoom : K) : Camera K :=
  Camera.updateCameraVectors M
    { Position := position
      Front := ⟨0, 0, -1⟩
      Up := ⟨0, 1, 0⟩
      Right := ⟨1, 0, 0⟩
      WorldUp := ⟨0, 1, 0⟩
      Yaw := yaw
      Pitch := pitch
      MovementSpeed := movementSpeed
      MouseSensitivity := mouseSensitivity
      Zoom := zoom }

/-- Modelled from the spec: the camera of the application,
`Camera gCamera(glm::vec3(0.0f, 3.0f, 20.0f))` (line 51).  The default arguments of the
constructor are in `camera.h`, which is not among the sources: the yaw of -90 degrees and the pitch
of 0 degrees are the initial values the specification gives. -/
def gCamera {K : Type} [Field K] (M : MathLib K) (movementSpeed mouseSensitivity zoom : K) :
    Camera K :=
  Camera.new M ⟨0, 3, 20⟩ (-90) 0 movementSpeed mouseSensitivity zoom

/-- Modelled from the spec: `getViewMatrix` of the `Camera` class of `camera.h`, which is not
among the sources: the look-at transform of `position`, `position + front` and `up`.  The
look-at function of the math library is the argument `lookAt`. -/
def Camera.GetViewMatrix {K Mat : Type} [Field K] (lookAt : Vec3 K → Vec3 K → Vec3 K → Mat)
    (c : Camera K) : Mat :=
  lookAt c.Position (c.Position.add c.Front) c.Up

/-- Modelled from the spec: `processKeyboard` of the `Camera` class of `camera.h`, which is not
among the sources: the position moves by `movementSpeed * deltaTime` along `front` (FORWARD,
BACKWARD), `right` (LEFT, RIGHT) or `worldUp` (UP, DOWN); FORWARD, RIGHT and UP move along
the vector, BACKWARD, LEFT and DOWN against it. -/
def Camera.ProcessKeyboard {K : Type} [Field K] (c : Camera K) (direction : Camera_Movement)
    (deltaTime : K) : Camera K :=
  let velocity := c.MovementSpeed * deltaTime
  match direction with
  | .FORWARD => { c with Position := c.Position.add (c.Front.scale velocity) }
  | .BACKWARD => { c with Position := c.Position.sub (c.Front.scale velocity) }
  | .LEFT => { c with Position := c.Position.sub (c.Right.scale velocity) }
  | .RIGHT => { c with Position := c.Position.add (c.Right.scale velocity) }
  | .UP => { c with Position := c.Position.add (c.WorldUp.scale velocity) }
  | .DOWN => { c with Position := c.Position.sub (c.WorldUp.scale velocity) }

/-- Modelled from the spec: `processMouseMovement` of the `Camera` class of `camera.h`, which is
not among the sources: both offsets are scaled by `mouseSensitivity` and added to yaw and pitch,
the pitch is clamped to -89 and 89 degrees when `constrainPitch` is set, and the vectors are
recomputed. -/
def Camera.ProcessMouseMovement {K : Type} [LinearOrderedField K] (M : MathLib K) (c : Camera K)
    (xoffset yoffset : K) (constrainPitch : Bool) : Camera K :=
  let xoffset := xoffset * c.MouseSensitivity
  let yoffset := yoffset * c.MouseSensitivity
  let yaw := c.Yaw + xoffset
  let pitch := c.Pitch + yoffset
  let pitch := if constrainPitch then (if pitch > 89 then 89 else if pitch < -89 then -89 else pitch)
    else pitch
  Camera.updateCameraVectors M { c with Yaw := yaw, Pitch := pitch }

/-- Modelled from the spec: `processMouseScroll` of the `Camera` class of `camera.h`, which is
not among the sources: `yoffset` is subtracted from the zoom and the result is clamped to 1 and
45 degrees. -/
def Camera.ProcessMouseScroll {K : Type} [LinearOrderedField K] (c : Camera K) (yoffset : K) :
    Camera K :=
  let zoom := c.Zoom - yoffset
  let zoom := if zoom < 1 then 1 else if zoom > 45 then 45 else zoom
  { c with Zoom := zoom }

/-- The direction an identifier of `UProcessInput` names. -/
def Camera_Movement.ofName : String → Option Camera_Movement
  | "FORWARD" => some .FORWARD
  | "BACKWARD" => some .BACKWARD
  | "LEFT" => some .LEFT
  | "RIGHT" => some .RIGHT
  | "UP" => some .UP
  | "DOWN" => some .DOWN
  | _ => none

/-- Modelled from the spec: the effect on the camera of a recorded call.  The three updating
methods of `gCamera` act as modelled above (`camera.h` is not among the sources);
`ProcessMouseMovement` gets the default `constrainPitch = true` of the specification, since
line 361 passes two arguments; every other call leaves the camera as it is. -/
def Camera.apply {K : Type} [LinearOrderedField K] (M : MathLib K) (c : Camera K) (call : Call) :
    Camera K :=
  match call.fn, call.args with
  | "gCamera.ProcessKeyboard", [.sym direction, .real deltaTime] =>
    match Camera_Movement.ofName direction with
    | some d => c.ProcessKeyboard d (deltaTime : K)
    | none => c
  | "gCamera.ProcessMouseMovement", [.real xoffset, .real yoffset] =>
    c.ProcessMouseMovement M (xoffset : K) (yoffset : K) true
  | "gCamera.ProcessMouseScroll", [.real yoffset] => c.ProcessMouseScroll (yoffset : K)
  | _, _ => c

/-- The camera after a sequence of recorded calls. -/
def Camera.replay {K : Type} [LinearOrderedField K] (M : MathLib K) (c : Camera K)
    (calls : List Call) : Camera K :=
  calls.foldl (Camera.apply M) c

/-- The math library computes the real functions exactly: cosine, sine and square root are the
real ones and `radians` multiplies by π / 180.  Floating-point rounding is not modelled. -/
def MathLib.exact (M : MathLib ℝ) : Prop :=
  M.cos = Real.cos ∧ M.sin = Real.sin ∧ M.radians = (fun d => d * (Real.pi / 180)) ∧
    M.sqrt = Real.sqrt

/-- The vectors `Front`, `Right` and `Up` of the camera are each of unit length and pairwise
orthogonal. -/
def Camera.Orthonormal {K : Type} [Field K] (M : MathLib K) (c : Camera K) : Prop :=
  c.Front.length M = 1 ∧ c.Right.length M = 1 ∧ c.Up.length M = 1 ∧
    c.Front.dot c.Right = 0 ∧ c.Front.dot c.Up = 0 ∧ c.Right.dot c.Up = 0

/-- The vectors of the camera are those of its angles: `Front` is the spherical-to-Cartesian
image of yaw and pitch. -/
def Camera.Consistent {K : Type} [Field K] (M : MathLib K) (c : Camera K) : Prop :=
  c.Front = ⟨M.cos (M.radians c.Yaw) * M.cos (M.radians c.Pitch), M.sin (M.radians c.Pitch),
    M.sin (M.radians c.Yaw) * M.cos (M.radians c.Pitch)⟩

/-- The invariant of the application's camera: `WorldUp` is the +Y axis and the pitch lies
between -89 and 89 degrees. -/
def Camera.Upright {K : Type} [LinearOrderedField K] (c : Camera K) : Prop :=
  c.WorldUp = ⟨0, 1, 0⟩ ∧ -89 ≤ c.Pitch ∧ c.Pitch ≤ 89

/-- The calls of the statement
`if (glfwGetKey(window, key) == GLFW_PRESS) gCamera.ProcessKeyboard(direction, gDeltaTime);`. -/
def moveOnKeyCalls (f : FrameInput) (key : Key) (direction : String) (deltaTime : ℚ) :
    List Call :=
  ⟨"glfwGetKey", [key.sym]⟩ ::
    (if key ∈ f.keys then [⟨"gCamera.ProcessKeyboard", [.sym direction, .real deltaTime]⟩]
     else [])

/-- The calls of `UProcessInput` (lines 1991-2014) when `gDeltaTime` is `deltaTime`. -/
def UProcessInputCalls (f : FrameInput) (deltaTime : ℚ) : List Call :=
  ⟨"glfwGetKey", [Key.ESCAPE.sym]⟩ ::
    (if Key.ESCAPE ∈ f.keys then [⟨"glfwSetWindowShouldClose", [.sym "true"]⟩] else []) ++
  moveOnKeyCalls f .W "FORWARD" deltaTime ++
  moveOnKeyCalls f .S "BACKWARD" deltaTime ++
  moveOnKeyCalls f .A "LEFT" deltaTime ++
  moveOnKeyCalls f .D "RIGHT" deltaTime ++
  moveOnKeyCalls f .Q "UP" deltaTime ++
  moveOnKeyCalls f .E "DOWN" deltaTime ++
  [⟨"glfwGetKey", [Key.O.sym]⟩, ⟨"glfwGetKey", [Key.P.sym]⟩]

/-- The keys that `UProcessInput` turns into a movement of the camera. -/
def movementKeys : List Key :=
  [.W, .S, .A, .D, .Q, .E]

/-! ## `flipImageVertically`

The image is a buffer of bytes.  The parameters and the loop variables are C `int`s: a result
that does not fit in 32 bits is a signed overflow, which is undefined behaviour, and so is an
access outside the buffer; the model stops with `none` at either. -/

/-- An `unsigned char`. -/
abbrev Byte := Fin 256

/-- The largest `int`. -/
def INT_MAX : Int := 2147483647

/-- The smallest `int`. -/
def INT_MIN : Int := -2147483648

/-- The result of an `int` operation whose mathematical value is `x`: `none` is signed
overflow. -/
def int (x : Int) : Option Int :=
  if INT_MIN ≤ x ∧ x ≤ INT_MAX then some x else none

/-- The read `image[index]`: `none` outside the buffer. -/
def load (image : List Byte) (index : Int) : Option Byte :=
  if 0 ≤ index then image[index.toNat]? else none

/-- The write `image[index] = value`: `none` outside the buffer. -/
def store (image : List Byte) (index : Int) (value : Byte) : Option (List Byte) :=
  if 0 ≤ index ∧ index.toNat < image.length then some (image.set index.toNat value) else none

/-- The inner loop of `flipImageVertically` (lines 202-209), entered with the current values of
`index1`, `index2` and `i`: `for (...; i > 0; --i)` swaps `image[index1]` and `image[index2]`
and increments both indices.  The decrement of a positive `i` cannot overflow. -/
def flipImageVertically.swapLoop (image : List Byte) (index1 index2 i : Int) :
    Option (List Byte) :=
  if i > 0 then do
    let tmp ← load image index1
    let value ← load image index2
    let image ← store image index1 value
    let image ← store image index2 tmp
    let index1 ← int (index1 + 1)
    let index2 ← int (index2 + 1)
    flipImageVertically.swapLoop image index1 index2 (i - 1)
  else some image
termination_by i.toNat
decreasing_by omega

/-- The outer loop of `flipImageVertically` (lines 197-210), entered with the current value of
`j`: `for (...; j < height / 2; ++j)`.  The division truncates towards zero; the increment of a
`j` below `height / 2` cannot overflow. -/
def flipImageVertically.rowLoop (image : List Byte) (width height channels j : Int) :
    Option (List Byte) :=
  if j < Int.tdiv height 2 then do
    let index1 ← int (j * width)
    let index1 ← int (index1 * channels)
    let index2 ← int (height - 1)
    let index2 ← int (index2 - j)
    let index2 ← int (index2 * width)
    let index2 ← int (index2 * channels)
    let i ← int (width * channels)
    let image ← flipImageVertically.swapLoop image index1 index2 i
    flipImageVertically.rowLoop image width height channels (j + 1)
  else some image
termination_by (Int.tdiv height 2 - j).toNat
decreasing_by omega

/-- The function `flipImageVertically(image, width, height, channels)` (lines 195-211); the
result is the content of the buffer afterwards. -/
def flipImageVertically (image : List Byte) (width height channels : Int) :
    Option (List Byte) :=
  flipImageVertically.rowLoop image width height channels 0

/-! ## Notions for the claims about keyboard and mouse input -/

/-- The movement keys in the order in which `UProcessInput` polls them, each with the direction
it passes to `ProcessKeyboard` (lines 1997-2008). -/
def movementBindings : List (Key × String) :=
  [(.W, "FORWARD"), (.S, "BACKWARD"), (.A, "LEFT"), (.D, "RIGHT"), (.Q, "UP"), (.E, "DOWN")]

/-- The call `gCamera.ProcessKeyboard(direction, deltaTime)`. -/
def processKeyboardCall (direction : String) (deltaTime : ℚ) : Call :=
  ⟨"gCamera.ProcessKeyboard", [.sym direction, .real deltaTime]⟩

/-- The call `gCamera.ProcessMouseMovement(xoffset, yoffset)`. -/
def processMouseMovementCall (xoffset yoffset : ℚ) : Call :=
  ⟨"gCamera.ProcessMouseMovement", [.real xoffset, .real yoffset]⟩

/-- The value of `orthoViewToggle` after lines 2009-2012 when it was `before`. -/
def toggleAfter (keys : List Key) (before : Bool) : Bool :=
  if Key.P ∈ keys then false else if Key.O ∈ keys then true else before

/-- The offsets of the calls of `ProcessMouseMovement` among recorded calls, in order. -/
def mouseOffsets (calls : List Call) : List (ℚ × ℚ) :=
  calls.filterMap fun c =>
    match c.fn, c.args with
    | "gCamera.ProcessMouseMovement", [.real xoffset, .real yoffset] => some (xoffset, yoffset)
    | _, _ => none

/-- The cursor callback run on a sequence of cursor positions, one event after the other. -/
def cursorEvents (positions : List (ℚ × ℚ)) (a : App) : App :=
  positions.foldl (fun a p => UMousePositionCallback p.1 p.2 a) a

/-- Whether a number is a value of type `float`: the conversion leaves it as it is, and it is
within the range. -/
def isFloat (x : ℚ) : Prop :=
  float x = x ∧ |x| ≤ FLT_MAX

/-- The cursor position `q` follows `p` with nothing lost in `float`: both coordinates of `q`
and the two differences that `UMousePositionCallback` forms are `float`s. -/
def floatStep (p q : ℚ × ℚ) : Prop :=
  isFloat q.1 ∧ isFloat q.2 ∧ isFloat (q.1 - p.1) ∧ isFloat (p.2 - q.2)

/-- The `double` nearest to 0.1. -/
def tenth : ℚ := 3602879701896397 / 36028797018963968

/-- The `double` nearest to 0.2. -/
def fifth : ℚ := 3602879701896397 / 18014398509481984

/-! ## The fragment shader

The function `main` of `fragmentShaderSource` (lines 116-192), over a field of scalars.  The
built-in functions `normalize`, `pow` and `texture` are parameters; `max`, `dot` and `reflect`
are computed. -/

/-- A `vec4`. -/
@[ext]
structure Vec4 (K : Type) where
  x : K
  y : K
  z : K
  w : K

/-- The swizzle `.xyz`. -/
def Vec4.xyz {K : Type} (v : Vec4 K) : Vec3 K :=
  ⟨v.x, v.y, v.z⟩

/-- The constructor `vec4(v, w)`. -/
def vec4 {K : Type} (v : Vec3 K) (w : K) : Vec4 K :=
  ⟨v.x, v.y, v.z, w⟩

/-- The component-wise product of two `vec3`. -/
def Vec3.mul {K : Type} [Field K] (u v : Vec3 K) : Vec3 K :=
  ⟨u.x * v.x, u.y * v.y, u.z * v.z⟩

/-- The negation of a `vec3`. -/
def Vec3.neg {K : Type} [Field K] (v : Vec3 K) : Vec3 K :=
  ⟨-v.x, -v.y, -v.z⟩

/-- The built-in `reflect(I, N) = I - 2 * dot(N, I) * N`. -/
def reflect {K : Type} [Field K] (I N : Vec3 K) : Vec3 K :=
  I.sub (N.scale (2 * N.dot I))

/-- The built-in functions of GLSL that the shader calls and this model leaves open. -/
structure GLSL (K : Type) where
  normalize : Vec3 K → Vec3 K
  pow : K → K → K

/-- The inputs of one invocation of the fragment shader: the interpolated outputs of the vertex
shader and the uniforms; `uTexture` is the content of the sampler, as a function of the texture
coordinate. -/
structure FragmentInput (K : Type) where
  vertexFragmentNormal : Vec3 K
  vertexFragmentPos : Vec3 K
  vertexTextureCoordinate : K × K
  objectColor : Vec4 K
  ambientColor : Vec3 K
  light1Color : Vec3 K
  light1Position : Vec3 K
  light2Color : Vec3 K
  light2Position : Vec3 K
  viewPosition : Vec3 K
  uTexture : K × K → Vec4 K
  ubHasTexture : Bool
  ambientStrength : K
  specularIntensity1 : K
  highlightSize1 : K
  specularIntensity2 : K
  highlightSize2 : K

/-- The local `ambient` (line 145). -/
def FragmentInput.ambient {K : Type} [LinearOrderedField K] (v : FragmentInput K) : Vec3 K :=
  v.ambientColor.scale v.ambientStrength

/-- The local `norm` (line 148). -/
def FragmentInput.norm {K : Type} [LinearOrderedField K] (G : GLSL K) (v : FragmentInput K) :
    Vec3 K :=
  G.normalize v.vertexFragmentNormal

/-- The local `light1Direction` (line 149). -/
def FragmentInput.light1Direction {K : Type} [LinearOrderedField K] (G : GLSL K)
    (v : FragmentInput K) : Vec3 K :=
  G.normalize (v.light1Position.sub v.vertexFragmentPos)

/-- The local `diffuse1` (lines 150-151). -/
def FragmentInput.diffuse1 {K : Type} [LinearOrderedField K] (G : GLSL K)
    (v : FragmentInput K) : Vec3 K :=
  let impact1 := max ((v.norm G).dot (v.light1Direction G)) 0
  v.light1Color.scale impact1

/-- The local `light2Direction` (line 152). -/
def FragmentInput.light2Direction {K : Type} [LinearOrderedField K] (G : GLSL K)
    (v : FragmentInput K) : Vec3 K :=
  G.normalize (v.light2Position.sub v.vertexFragmentPos)

/-- The local `diffuse2` (lines 153-154). -/
def FragmentInput.diffuse2 {K : Type} [LinearOrderedField K] (G : GLSL K)
    (v : FragmentInput K) : Vec3 K :=
  let impact2 := max ((v.norm G).dot (v.light2Direction G)) 0
  v.light2Color.scale impact2

/-- The local `viewDir` (line 157). -/
def FragmentInput.viewDir {K : Type} [LinearOrderedField K] (G : GLSL K)
    (v : FragmentInput K) : Vec3 K :=
  G.normalize (v.viewPosition.sub v.vertexFragmentPos)

/-- The local `specular1` (lines 158-161). -/
def FragmentInput.specular1 {K : Type} [LinearOrderedField K] (G : GLSL K)
    (v : FragmentInput K) : Vec3 K :=
  let reflectDir1 := reflect (v.light1Direction G).neg (v.norm G)
  let specularComponent1 := G.pow (max ((v.viewDir G).dot reflectDir1) 0) v.highlightSize1
  v.light1Color.scale (v.specularIntensity1 * specularComponent1)

/-- The local `specular2` (lines 162-165). -/
def FragmentInput.specular2 {K : Type} [LinearOrderedField K] (G : GLSL K)
    (v : FragmentInput K) : Vec3 K :=
  let reflectDir2 := reflect (v.light2Direction G).neg (v.norm G)
  let specularComponent2 := G.pow (max ((v.viewDir G).dot reflectDir2) 0) v.highlightSize2
  v.light2Color.scale (v.specularIntensity2 * specularComponent2)

/-- The values of `phong1`, `phong2` and `fragmentColor` after the `if`/`else` of lines
169-186. -/
def FragmentInput.branch {K : Type} [LinearOrderedField K] (G : GLSL K)
    (v : FragmentInput K) : Vec3 K × Vec3 K × Vec4 K :=
  let textureColor := v.uTexture v.vertexTextureCoordinate
  if v.ubHasTexture = true then
    (((v.ambient.add (v.diffuse1 G)).add (v.specular1 G)).mul textureColor.xyz,
     ((v.ambient.add (v.diffuse2 G)).add (v.specular2 G)).mul textureColor.xyz,
     v.uTexture v.vertexTextureCoordinate)
  else
    (((v.ambient.add (v.diffuse1 G)).add (v.specular1 G)).mul v.objectColor.xyz,
     ((v.ambient.add (v.diffuse2 G)).add (v.specular2 G)).mul v.objectColor.xyz,
     v.objectColor)

/-- The function `main` of the fragment shader: the value of the output `fragmentColor` when it
returns.  The value assigned in the branch is overwritten by the last statement (line 188). -/
def fragmentShaderMain {K : Type} [LinearOrderedField K] (G : GLSL K) (v : FragmentInput K) :
    Vec4 K :=
  let (phong1, phong2, _fragmentColor) := v.branch G
  let fragmentColor := vec4 (phong1.add phong2) 1
  fragmentColor

/-- The colour that the lighting multiplies: the rgb of the texture sample when `ubHasTexture`
is true, the rgb of `objectColor` otherwise. -/
def FragmentInput.baseColor {K : Type} (v : FragmentInput K) : Vec3 K :=
  if v.ubHasTexture = true then (v.uTexture v.vertexTextureCoordinate).xyz else v.objectColor.xyz

/-! ## `UCreateShaderProgram`: the calls it issues on each of its four paths -/

theorem create_programId (P : Platform) (vs fs : String) (w : World) :
    (UCreateShaderProgram P vs fs w).programId = w.nextName := by
  simp only [UCreateShaderProgram, glCreateProgram]
  split <;> [rfl; (split <;> [rfl; (split <;> rfl)])]

theorem issued_vertex_failure (P : Platform) (vs fs : String) (w : World)
    (h : P.compileStatus .GL_VERTEX_SHADER vs = false) :
    issued w (UCreateShaderProgram P vs fs w).world =
      [⟨"glCreateProgram", []⟩,
       ⟨"glCreateShader", [.sym "GL_VERTEX_SHADER"]⟩,
       ⟨"glCreateShader", [.sym "GL_FRAGMENT_SHADER"]⟩,
       ⟨"glShaderSource", [.name (w.nextName + 1), .text vs]⟩,
       ⟨"glShaderSource", [.name (w.nextName + 2), .text fs]⟩,
       ⟨"glCompileShader", [.name (w.nextName + 1)]⟩,
       ⟨"glGetShaderiv", [.name (w.nextName + 1), .sym "GL_COMPILE_STATUS"]⟩,
       ⟨"glGetShaderInfoLog", [.name (w.nextName + 1), .int 512]⟩,
       vertexReport P vs] := by
  simp [UCreateShaderProgram, glCreateProgram, glCreateShader, glShaderSource, glCompileShader,
    glGetShaderiv, glGetShaderInfoLog, cout, World.emit, issued, h, vertexReport, ShaderType.sym]

theorem issued_fragment_failure (P : Platform) (vs fs : String) (w : World)
    (hv : P.compileStatus .GL_VERTEX_SHADER vs = true)
    (hf : P.compileStatus .GL_FRAGMENT_SHADER fs = false) :
    issued w (UCreateShaderProgram P vs fs w).world =
      [⟨"glCreateProgram", []⟩,
       ⟨"glCreateShader", [.sym "GL_VERTEX_SHADER"]⟩,
       ⟨"glCreateShader", [.sym "GL_FRAGMENT_SHADER"]⟩,
       ⟨"glShaderSource", [.name (w.nextName + 1), .text vs]⟩,
       ⟨"glShaderSource", [.name (w.nextName + 2), .text fs]⟩,
       ⟨"glCompileShader", [.name (w.nextName + 1)]⟩,
       ⟨"glGetShaderiv", [.name (w.nextName + 1), .sym "GL_COMPILE_STATUS"]⟩,
       ⟨"glCompileShader", [.name (w.nextName + 2)]⟩,
       ⟨"glGetShaderiv", [.name (w.nextName + 2), .sym "GL_COMPILE_STATUS"]⟩,
       ⟨"glGetShaderInfoLog", [.name (w.nextName + 2), .int 512]⟩,
       fragmentReport P fs] := by
  simp [UCreateShaderProgram, glCreateProgram, glCreateShader, glShaderSource, glCompileShader,
    glGetShaderiv, glGetShaderInfoLog, cout, World.emit, issued, hv, hf, fragmentReport,
    ShaderType.sym, Function.update]

theorem issued_link_failure (P : Platform) (vs fs : String) (w : World)
    (hv : P.compileStatus .GL_VERTEX_SHADER vs = true)
    (hf : P.compileStatus .GL_FRAGMENT_SHADER fs = true)
    (hl : P.linkStatus (compiledStages vs fs) = false) :
    issued w (UCreateShaderProgram P vs fs w).world =
      [⟨"glCreateProgram", []⟩,
       ⟨"glCreateShader", [.sym "GL_VERTEX_SHADER"]⟩,
       ⟨"glCreateShader", [.sym "GL_FRAGMENT_SHADER"]⟩,
       ⟨"glShaderSource", [.name (w.nextName + 1), .text vs]⟩,
       ⟨"glShaderSource", [.name (w.nextName + 2), .text fs]⟩,
       ⟨"glCompileShader", [.name (w.nextName + 1)]⟩,
       ⟨"glGetShaderiv", [.name (w.nextName + 1), .sym "GL_COMPILE_STATUS"]⟩,
       ⟨"glCompileShader", [.name (w.nextName + 2)]⟩,
       ⟨"glGetShaderiv", [.name (w.nextName + 2), .sym "GL_COMPILE_STATUS"]⟩,
       ⟨"glAttachShader", [.name w.nextName, .name (w.nextName + 1)]⟩,
       ⟨"glAttachShader", [.name w.nextName, .name (w.nextName + 2)]⟩,
       ⟨"glLinkProgram", [.name w.nextName]⟩,
       ⟨"glGetProgramiv", [.name w.nextName, .sym "GL_LINK_STATUS"]⟩,
       ⟨"glGetProgramInfoLog", [.name w.nextName, .int 512]⟩,
       linkReport P vs fs] := by
  simp [compiledStages] at hl
  simp [UCreateShaderProgram, glCreateProgram, glCreateShader, glShaderSource, glCompileShader,
    glGetShaderiv, glGetShaderInfoLog, cout, World.emit, issued, hv, hf, hl, linkReport,
    ShaderType.sym, Function.update, glAttachShader, glLinkProgram, glGetProgramiv,
    glGetProgramInfoLog, World.attachedShaders, compiledStages]

theorem issued_success (P : Platform) (vs fs : String) (w : World)
    (hv : P.compileStatus .GL_VERTEX_SHADER vs = true)
    (hf : P.compileStatus .GL_FRAGMENT_SHADER fs = true)
    (hl : P.linkStatus (compiledStages vs fs) = true) :
    issued w (UCreateShaderProgram P vs fs w).world =
      [⟨"glCreateProgram", []⟩,
       ⟨"glCreateShader", [.sym "GL_VERTEX_SHADER"]⟩,
       ⟨"glCreateShader", [.sym "GL_FRAGMENT_SHADER"]⟩,
       ⟨"glShaderSource", [.name (w.nextName + 1), .text vs]⟩,
       ⟨"glShaderSource", [.name (w.nextName + 2), .text fs]⟩,
       ⟨"glCompileShader", [.name (w.nextName + 1)]⟩,
       ⟨"glGetShaderiv", [.name (w.nextName + 1), .sym "GL_COMPILE_STATUS"]⟩,
       ⟨"glCompileShader", [.name (w.nextName + 2)]⟩,
       ⟨"glGetShaderiv", [.name (w.nextName + 2), .sym "GL_COMPILE_STATUS"]⟩,
       ⟨"glAttachShader", [.name w.nextName, .name (w.nextName + 1)]⟩,
       ⟨"glAttachShader", [.name w.nextName, .name (w.nextName + 2)]⟩,
       ⟨"glLinkProgram", [.name w.nextName]⟩,
       ⟨"glGetProgramiv", [.name w.nextName, .sym "GL_LINK_STATUS"]⟩,
       ⟨"glUseProgram", [.name w.nextName]⟩] := by
  simp [compiledStages] at hl
  simp [UCreateShaderProgram, glCreateProgram, glCreateShader, glShaderSource, glCompileShader,
    glGetShaderiv, glGetShaderInfoLog, cout, World.emit, issued, hv, hf, hl,
    ShaderType.sym, Function.update, glAttachShader, glLinkProgram, glGetProgramiv,
    glUseProgram, World.attachedShaders, compiledStages, World.isLinked]

theorem create_ok_iff (P : Platform) (vs fs : String) (w : World) :
    (UCreateShaderProgram P vs fs w).ok = true ↔
      P.compileStatus .GL_VERTEX_SHADER vs = true ∧
      P.compileStatus .GL_FRAGMENT_SHADER fs = true ∧
      P.linkStatus (compiledStages vs fs) = true := by
  cases hv : P.compileStatus .GL_VERTEX_SHADER vs <;>
  cases hf : P.compileStatus .GL_FRAGMENT_SHADER fs <;>
  cases hl : P.linkStatus (compiledStages vs fs) <;>
  simp [compiledStages] at hl <;>
  simp [UCreateShaderProgram, glCreateProgram, glCreateShader, glShaderSource, glCompileShader,
    glGetShaderiv, glGetShaderInfoLog, cout, World.emit, hv, hf, hl,
    Function.update, glAttachShader, glLinkProgram, glGetProgramiv,
    glGetProgramInfoLog, glUseProgram, World.attachedShaders]

theorem create_state_fragment_failure (P : Platform) (vs fs : String) (w : World)
    (hv : P.compileStatus .GL_VERTEX_SHADER vs = true)
    (hf : P.compileStatus .GL_FRAGMENT_SHADER fs = false) :
    (UCreateShaderProgram P vs fs w).world.programs w.nextName = some ⟨[], false, false⟩ ∧
    (UCreateShaderProgram P vs fs w).world.currentProgram = w.currentProgram := by
  simp [UCreateShaderProgram, glCreateProgram, glCreateShader, glShaderSource, glCompileShader,
    glGetShaderiv, glGetShaderInfoLog, cout, World.emit, hv, hf, Function.update]

theorem create_state_linked (P : Platform) (vs fs : String) (w : World)
    (hv : P.compileStatus .GL_VERTEX_SHADER vs = true)
    (hf : P.compileStatus .GL_FRAGMENT_SHADER fs = true) :
    (UCreateShaderProgram P vs fs w).world.programs w.nextName =
      some ⟨[w.nextName + 1, w.nextName + 2], P.linkStatus (compiledStages vs fs), false⟩ ∧
    (UCreateShaderProgram P vs fs w).world.shaders (w.nextName + 1) =
      some ⟨.GL_VERTEX_SHADER, vs, true⟩ ∧
    (UCreateShaderProgram P vs fs w).world.shaders (w.nextName + 2) =
      some ⟨.GL_FRAGMENT_SHADER, fs, true⟩ ∧
    (UCreateShaderProgram P vs fs w).world.currentProgram =
      if P.linkStatus (compiledStages vs fs) = true then w.nextName else w.currentProgram := by
  cases hl : P.linkStatus (compiledStages vs fs) <;>
  simp [compiledStages] at hl <;>
  simp [UCreateShaderProgram, glCreateProgram, glCreateShader, glShaderSource, glCompileShader,
    glGetShaderiv, glGetShaderInfoLog, cout, World.emit, hv, hf, hl,
    Function.update, glAttachShader, glLinkProgram, glGetProgramiv,
    glGetProgramInfoLog, glUseProgram, World.attachedShaders, World.isLinked]

theorem create_ok_state (P : Platform) (vs fs : String) (w : World)
    (hok : (UCreateShaderProgram P vs fs w).ok = true) :
    (UCreateShaderProgram P vs fs w).world.isLinked (UCreateShaderProgram P vs fs w).programId
      = true ∧
    (UCreateShaderProgram P vs fs w).world.currentProgram
      = (UCreateShaderProgram P vs fs w).programId := by
  obtain ⟨hv, hf, hl⟩ := (create_ok_iff P vs fs w).1 hok
  have hs := create_state_linked P vs fs w hv hf
  rw [create_programId]
  refine ⟨?_, ?_⟩
  · simp [World.isLinked, hs.1, hl]
  · rw [hs.2.2.2, hl]; simp

theorem create_trace (P : Platform) (vs fs : String) (w : World) :
    (UCreateShaderProgram P vs fs w).world.trace =
      w.trace ++ issued w (UCreateShaderProgram P vs fs w).world := by
  cases hv : P.compileStatus .GL_VERTEX_SHADER vs <;>
  cases hf : P.compileStatus .GL_FRAGMENT_SHADER fs <;>
  cases hl : P.linkStatus (compiledStages vs fs) <;>
  simp [compiledStages] at hl <;>
  simp [UCreateShaderProgram, glCreateProgram, glCreateShader, glShaderSource, glCompileShader,
    glGetShaderiv, glGetShaderInfoLog, cout, World.emit, hv, hf, hl, issued,
    Function.update, glAttachShader, glLinkProgram, glGetProgramiv,
    glGetProgramInfoLog, glUseProgram, World.attachedShaders, World.isLinked]

/-! ## Claims about `UCreateShaderProgram` and `UDestroyShaderProgram` -/

/-- C1: when the vertex stage fails to compile, `UCreateShaderProgram` returns `false`, prints the
vertex-compilation diagnostic (and nothing else, so no fragment diagnostic, whatever the
fragment source is), and issues no `glAttachShader`, `glLinkProgram` or `glUseProgram` call. -/
theorem vertex_failure_reported_without_linking (P : Platform) (vs fs : String) (w : World)
    (h : P.compileStatus .GL_VERTEX_SHADER vs = false) :
    (UCreateShaderProgram P vs fs w).ok = false ∧
    vertexReport P vs ∈ issued w (UCreateShaderProgram P vs fs w).world ∧
    (∀ c ∈ issued w (UCreateShaderProgram P vs fs w).world,
      c.fn ≠ "glAttachShader" ∧ c.fn ≠ "glLinkProgram" ∧ c.fn ≠ "glUseProgram") ∧
    (∀ c ∈ issued w (UCreateShaderProgram P vs fs w).world,
      c.fn = "cout" → c = vertexReport P vs) := by
  have hok : (UCreateShaderProgram P vs fs w).ok = false := by
    have := create_ok_iff P vs fs w
    cases hr : (UCreateShaderProgram P vs fs w).ok
    · rfl
    · rw [hr] at this; simp [h] at this
  refine ⟨hok, ?_, ?_, ?_⟩
  · rw [issued_vertex_failure P vs fs w h]; simp
  · rw [issued_vertex_failure P vs fs w h]; simp [vertexReport]
  · rw [issued_vertex_failure P vs fs w h]; simp [vertexReport]

/-- C1, at an instance: only the vertex stage is reported with both sources invalid. -/
theorem vertex_failure_reported_without_linking_witness :
    (samplePlatform false false true none none).compileStatus .GL_VERTEX_SHADER "bad" = false ∧
    (UCreateShaderProgram (samplePlatform false false true none none) "bad" "bad" World.init).ok
      = false :=
  ⟨rfl, (vertex_failure_reported_without_linking (samplePlatform false false true none none)
    "bad" "bad" World.init rfl).1⟩

/-- C2: with a vertex source that compiles and a fragment source that does not,
`UCreateShaderProgram` returns `false` and prints the fragment-compilation diagnostic with the
log (and nothing else); the name left in `programId` is not that of a linked program, the call
issued no `glLinkProgram` or `glUseProgram`, and the current program is the one it was. -/
theorem fragment_failure_reported_no_usable_handle (P : Platform) (vs fs : String) (w : World)
    (hv : P.compileStatus .GL_VERTEX_SHADER vs = true)
    (hf : P.compileStatus .GL_FRAGMENT_SHADER fs = false) :
    (UCreateShaderProgram P vs fs w).ok = false ∧
    fragmentReport P fs ∈ issued w (UCreateShaderProgram P vs fs w).world ∧
    (∀ c ∈ issued w (UCreateShaderProgram P vs fs w).world,
      c.fn = "cout" → c = fragmentReport P fs) ∧
    (UCreateShaderProgram P vs fs w).world.isLinked (UCreateShaderProgram P vs fs w).programId
      = false ∧
    (∀ c ∈ issued w (UCreateShaderProgram P vs fs w).world,
      c.fn ≠ "glLinkProgram" ∧ c.fn ≠ "glUseProgram") ∧
    (UCreateShaderProgram P vs fs w).world.currentProgram = w.currentProgram := by
  have hok : (UCreateShaderProgram P vs fs w).ok = false := by
    have := create_ok_iff P vs fs w
    cases hr : (UCreateShaderProgram P vs fs w).ok
    · rfl
    · rw [hr] at this; simp [hf] at this
  have hs := create_state_fragment_failure P vs fs w hv hf
  refine ⟨hok, ?_, ?_, ?_, ?_, hs.2⟩
  · rw [issued_fragment_failure P vs fs w hv hf]; simp
  · rw [issued_fragment_failure P vs fs w hv hf]; simp [fragmentReport]
  · rw [create_programId]; simp [World.isLinked, hs.1]
  · rw [issued_fragment_failure P vs fs w hv hf]; simp [fragmentReport]

/-- C2, at an instance. -/
theorem fragment_failure_reported_no_usable_handle_witness :
    (UCreateShaderProgram (samplePlatform true false true none none) vertexShaderSource "bad"
      World.init).ok = false ∧
    fragmentReport (samplePlatform true false true none none) "bad" ∈
      issued World.init (UCreateShaderProgram (samplePlatform true false true none none)
        vertexShaderSource "bad" World.init).world :=
  ⟨(fragment_failure_reported_no_usable_handle (samplePlatform true false true none none)
      vertexShaderSource "bad" World.init rfl rfl).1,
   (fragment_failure_reported_no_usable_handle (samplePlatform true false true none none)
      vertexShaderSource "bad" World.init rfl rfl).2.1⟩

/-- C3: when both stages compile, the two compiled shader objects are attached to the program
object (vertex first) and `glLinkProgram` is called on it afterwards; when the link status is
failure the call returns `false`, prints the linking diagnostic, issues no `glUseProgram` and
leaves the current program as it was. -/
theorem stages_attached_linked_and_link_failure_reported (P : Platform) (vs fs : String)
    (w : World)
    (hv : P.compileStatus .GL_VERTEX_SHADER vs = true)
    (hf : P.compileStatus .GL_FRAGMENT_SHADER fs = true) :
    ((issued w (UCreateShaderProgram P vs fs w).world).filter
        (fun c => c.fn = "glAttachShader" ∨ c.fn = "glLinkProgram") =
      [⟨"glAttachShader", [.name w.nextName, .name (w.nextName + 1)]⟩,
       ⟨"glAttachShader", [.name w.nextName, .name (w.nextName + 2)]⟩,
       ⟨"glLinkProgram", [.name w.nextName]⟩]) ∧
    (UCreateShaderProgram P vs fs w).programId = w.nextName ∧
    (∃ o, (UCreateShaderProgram P vs fs w).world.programs w.nextName = some o ∧
      o.attached = [w.nextName + 1, w.nextName + 2] ∧
      o.linked = P.linkStatus (compiledStages vs fs)) ∧
    (UCreateShaderProgram P vs fs w).world.shaders (w.nextName + 1) =
      some ⟨.GL_VERTEX_SHADER, vs, true⟩ ∧
    (UCreateShaderProgram P vs fs w).world.shaders (w.nextName + 2) =
      some ⟨.GL_FRAGMENT_SHADER, fs, true⟩ ∧
    (P.linkStatus (compiledStages vs fs) = false →
      (UCreateShaderProgram P vs fs w).ok = false ∧
      linkReport P vs fs ∈ issued w (UCreateShaderProgram P vs fs w).world ∧
      (∀ c ∈ issued w (UCreateShaderProgram P vs fs w).world, c.fn ≠ "glUseProgram") ∧
      (UCreateShaderProgram P vs fs w).world.currentProgram = w.currentProgram) := by
  have hs := create_state_linked P vs fs w hv hf
  refine ⟨?_, create_programId P vs fs w, ⟨_, hs.1, rfl, rfl⟩, hs.2.1, hs.2.2.1, ?_⟩
  · cases hl : P.linkStatus (compiledStages vs fs)
    · rw [issued_link_failure P vs fs w hv hf hl]; simp [linkReport]
    · rw [issued_success P vs fs w hv hf hl]; simp
  · intro hl
    have hok : (UCreateShaderProgram P vs fs w).ok = false := by
      have := create_ok_iff P vs fs w
      cases hr : (UCreateShaderProgram P vs fs w).ok
      · rfl
      · rw [hr] at this; simp [hl] at this
    refine ⟨hok, ?_, ?_, ?_⟩
    · rw [issued_link_failure P vs fs w hv hf hl]; simp
    · rw [issued_link_failure P vs fs w hv hf hl]; simp [linkReport]
    · rw [hs.2.2.2, hl]; simp

/-- C3, at an instance: both stages compile and the link fails. -/
theorem stages_attached_linked_and_link_failure_reported_witness :
    (UCreateShaderProgram (samplePlatform true true false none none) vertexShaderSource
      fragmentShaderSource World.init).ok = false ∧
    linkReport (samplePlatform true true false none none) vertexShaderSource fragmentShaderSource
      ∈ issued World.init (UCreateShaderProgram (samplePlatform true true false none none)
        vertexShaderSource fragmentShaderSource World.init).world :=
  ⟨((stages_attached_linked_and_link_failure_reported (samplePlatform true true false none none)
      vertexShaderSource fragmentShaderSource World.init rfl rfl).2.2.2.2.2 rfl).1,
   ((stages_attached_linked_and_link_failure_reported (samplePlatform true true false none none)
      vertexShaderSource fragmentShaderSource World.init rfl rfl).2.2.2.2.2 rfl).2.1⟩

/-- C4: `UCreateShaderProgram` returns `true` exactly when the vertex compilation, the fragment
compilation and the link all report success; then `programId` holds the name that
`glCreateProgram` returned, that program is linked (and is the current program). -/
theorem create_true_iff_all_succeed (P : Platform) (vs fs : String) (w : World) :
    ((UCreateShaderProgram P vs fs w).ok = true ↔
      P.compileStatus .GL_VERTEX_SHADER vs = true ∧
      P.compileStatus .GL_FRAGMENT_SHADER fs = true ∧
      P.linkStatus (compiledStages vs fs) = true) ∧
    ((UCreateShaderProgram P vs fs w).ok = true →
      (UCreateShaderProgram P vs fs w).programId = (glCreateProgram w).1 ∧
      (UCreateShaderProgram P vs fs w).world.isLinked (UCreateShaderProgram P vs fs w).programId
        = true ∧
      (UCreateShaderProgram P vs fs w).world.currentProgram
        = (UCreateShaderProgram P vs fs w).programId) := by
  refine ⟨create_ok_iff P vs fs w, ?_⟩
  intro hok
  obtain ⟨hv, hf, hl⟩ := (create_ok_iff P vs fs w).1 hok
  have hs := create_state_linked P vs fs w hv hf
  rw [create_programId]
  refine ⟨rfl, ?_, ?_⟩
  · simp [World.isLinked, hs.1, hl]
  · rw [hs.2.2.2, hl]; simp

/-- C4, at an instance: everything succeeds and program 1 is linked and current. -/
theorem create_true_iff_all_succeed_witness :
    (UCreateShaderProgram goodPlatform vertexShaderSource fragmentShaderSource World.init).programId
      = (glCreateProgram World.init).1 ∧
    (UCreateShaderProgram goodPlatform vertexShaderSource fragmentShaderSource
      World.init).world.isLinked
        (UCreateShaderProgram goodPlatform vertexShaderSource fragmentShaderSource
          World.init).programId = true ∧
    (UCreateShaderProgram goodPlatform vertexShaderSource fragmentShaderSource
      World.init).world.currentProgram =
        (UCreateShaderProgram goodPlatform vertexShaderSource fragmentShaderSource
          World.init).programId :=
  (create_true_iff_all_succeed goodPlatform vertexShaderSource fragmentShaderSource World.init).2
    (((create_true_iff_all_succeed goodPlatform vertexShaderSource fragmentShaderSource
      World.init).1).2 ⟨rfl, rfl, rfl⟩)

/-- C6, as stated, fails: after `UCreateShaderProgram` on valid sources and `UDestroyShaderProgram`
on the returned handle, in a fresh context, the vertex shader object (name 2) that the pair of
calls created is still live, and the pair issued no `glDeleteShader`. -/
theorem create_destroy_leaks_shader :
    (UCreateShaderProgram goodPlatform vertexShaderSource fragmentShaderSource World.init).ok
      = true ∧
    ¬ NoLeak World.init
      (UDestroyShaderProgram
        (UCreateShaderProgram goodPlatform vertexShaderSource fragmentShaderSource
          World.init).programId
        (UCreateShaderProgram goodPlatform vertexShaderSource fragmentShaderSource
          World.init).world) := by
  refine ⟨(create_ok_iff _ _ _ _).2 ⟨rfl, rfl, rfl⟩, ?_⟩
  intro h
  have h2 := h 2 rfl
  have hs := (create_state_linked goodPlatform vertexShaderSource fragmentShaderSource World.init
    rfl rfl).2.1
  have hlive : (UDestroyShaderProgram
        (UCreateShaderProgram goodPlatform vertexShaderSource fragmentShaderSource
          World.init).programId
        (UCreateShaderProgram goodPlatform vertexShaderSource fragmentShaderSource
          World.init).world).shaders 2 = some ⟨.GL_VERTEX_SHADER, vertexShaderSource, true⟩ := by
    rw [← hs]
    simp only [UDestroyShaderProgram, glDeleteProgram, World.emit]
    split <;> [split; skip] <;> rfl
  simp [World.live, hlive] at h2

/-- C6, amended: for sources that compile and link, `UCreateShaderProgram` followed immediately by
`UDestroyShaderProgram` on the returned handle issues exactly one `glDeleteProgram`, on that
handle, as the only call of `UDestroyShaderProgram`, and no `glDeleteShader`: the program object
is flagged for deletion (it is the current program) and the two shader objects stay live. -/
theorem create_destroy_releases_program_only (P : Platform) (vs fs : String) (w : World)
    (hok : (UCreateShaderProgram P vs fs w).ok = true) :
    issued (UCreateShaderProgram P vs fs w).world
      (UDestroyShaderProgram (UCreateShaderProgram P vs fs w).programId
        (UCreateShaderProgram P vs fs w).world) =
      [⟨"glDeleteProgram", [.name (UCreateShaderProgram P vs fs w).programId]⟩] ∧
    (∀ c ∈ issued w (UDestroyShaderProgram (UCreateShaderProgram P vs fs w).programId
        (UCreateShaderProgram P vs fs w).world), c.fn ≠ "glDeleteShader") ∧
    (UDestroyShaderProgram (UCreateShaderProgram P vs fs w).programId
        (UCreateShaderProgram P vs fs w).world).programs (UCreateShaderProgram P vs fs w).programId
      = some ⟨[w.nextName + 1, w.nextName + 2], true, true⟩ ∧
    (UDestroyShaderProgram (UCreateShaderProgram P vs fs w).programId
        (UCreateShaderProgram P vs fs w).world).shaders (w.nextName + 1)
      = some ⟨.GL_VERTEX_SHADER, vs, true⟩ ∧
    (UDestroyShaderProgram (UCreateShaderProgram P vs fs w).programId
        (UCreateShaderProgram P vs fs w).world).shaders (w.nextName + 2)
      = some ⟨.GL_FRAGMENT_SHADER, fs, true⟩ := by
  obtain ⟨hv, hf, hl⟩ := (create_ok_iff P vs fs w).1 hok
  obtain ⟨hp, hsv, hsf, hc⟩ := create_state_linked P vs fs w hv hf
  have hi := issued_success P vs fs w hv hf hl
  rw [hl] at hp
  simp only [hl, if_true] at hc
  rw [create_programId]
  have ht := create_trace P vs fs w
  rw [hi] at ht
  generalize (UCreateShaderProgram P vs fs w).world = w2 at *
  have hd : (UDestroyShaderProgram w.nextName w2).trace
      = w2.trace ++ [⟨"glDeleteProgram", [.name w.nextName]⟩] := by
    simp only [UDestroyShaderProgram, glDeleteProgram, World.emit]
    split <;> [split; skip] <;> rfl
  refine ⟨?_, ?_, ?_, ?_, ?_⟩
  · simp [issued, hd]
  · simp [issued, hd, ht]
  · simp [UDestroyShaderProgram, glDeleteProgram, hp, hc, World.emit]
  · rw [← hsv]
    simp only [UDestroyShaderProgram, glDeleteProgram, World.emit]
    split <;> [split; skip] <;> rfl
  · rw [← hsf]
    simp only [UDestroyShaderProgram, glDeleteProgram, World.emit]
    split <;> [split; skip] <;> rfl

/-- C6 amended, at an instance: in a fresh context the only call of the destroy step is
`glDeleteProgram(1)`. -/
theorem create_destroy_releases_program_only_witness :
    issued (UCreateShaderProgram goodPlatform vertexShaderSource fragmentShaderSource
        World.init).world
      (UDestroyShaderProgram
        (UCreateShaderProgram goodPlatform vertexShaderSource fragmentShaderSource
          World.init).programId
        (UCreateShaderProgram goodPlatform vertexShaderSource fragmentShaderSource
          World.init).world) =
      [⟨"glDeleteProgram", [.name (UCreateShaderProgram goodPlatform vertexShaderSource
        fragmentShaderSource World.init).programId]⟩] :=
  (create_destroy_releases_program_only goodPlatform vertexShaderSource fragmentShaderSource
    World.init ((create_ok_iff _ _ _ _).2 ⟨rfl, rfl, rfl⟩)).1

/-! ## Traces grow: how the steps of the program extend the trace -/

theorem Extends.refl (Q : Call → Prop) (w : World) : Extends Q w w :=
  ⟨[], by simp, by simp⟩

theorem Extends.trans {Q : Call → Prop} {w w2 w3 : World}
    (h1 : Extends Q w w2) (h2 : Extends Q w2 w3) : Extends Q w w3 := by
  obtain ⟨l1, e1, q1⟩ := h1
  obtain ⟨l2, e2, q2⟩ := h2
  refine ⟨l1 ++ l2, by rw [e2, e1, List.append_assoc], ?_⟩
  intro c hc
  rcases List.mem_append.1 hc with h | h
  · exact q1 c h
  · exact q2 c h

theorem Extends.mono {Q R : Call → Prop} {w w2 : World} (h : ∀ c, Q c → R c)
    (e : Extends Q w w2) : Extends R w w2 := by
  obtain ⟨l, e1, q1⟩ := e
  exact ⟨l, e1, fun c hc => h c (q1 c hc)⟩

theorem Extends.of_trace {Q : Call → Prop} {w w2 : World} (l : List Call)
    (h : w2.trace = w.trace ++ l) (q : ∀ c ∈ l, Q c) : Extends Q w w2 :=
  ⟨l, h, q⟩

theorem Extends.of_issued {Q : Call → Prop} {w w2 : World}
    (h : w2.trace = w.trace ++ issued w w2) (q : ∀ c ∈ issued w w2, Q c) : Extends Q w w2 :=
  ⟨_, h, q⟩

theorem Extends.emit_call {Q : Call → Prop} (w : World) (fn : String) (args : List Arg)
    (q : Q ⟨fn, args⟩) : Extends Q w (w.emit fn args) :=
  ⟨[⟨fn, args⟩], rfl, by simpa using q⟩

theorem Extends.mem {Q : Call → Prop} {w w2 : World} (e : Extends Q w w2) {c : Call}
    (hc : c ∈ w2.trace) : c ∈ w.trace ∨ Q c := by
  obtain ⟨l, e1, q1⟩ := e
  rw [e1] at hc
  rcases List.mem_append.1 hc with h | h
  · exact Or.inl h
  · exact Or.inr (q1 c h)

theorem Extends.subset {Q : Call → Prop} {w w2 : World} (e : Extends Q w w2) {c : Call}
    (hc : c ∈ w.trace) : c ∈ w2.trace := by
  obtain ⟨l, e1, _⟩ := e
  rw [e1]
  exact List.mem_append.2 (Or.inl hc)

theorem glBindTexture_trace (t : Nat) (w : World) :
    (glBindTexture t w).trace = w.trace ++ [⟨"glBindTexture", [.sym "GL_TEXTURE_2D", .name t]⟩] := by
  simp only [glBindTexture, World.emit]
  split <;> rfl

theorem glUseProgram_trace (p : Nat) (w : World) :
    (glUseProgram p w).trace = w.trace ++ [⟨"glUseProgram", [.name p]⟩] := by
  simp only [glUseProgram, World.emit]
  split <;> rfl

theorem glDeleteProgram_trace (p : Nat) (w : World) :
    (glDeleteProgram p w).trace = w.trace ++ [⟨"glDeleteProgram", [.name p]⟩] := by
  simp only [glDeleteProgram, World.emit]
  split <;> [split; skip] <;> rfl

theorem glGenTextures_trace (w : World) :
    (glGenTextures w).2.trace = w.trace ++ [⟨"glGenTextures", [.int 1]⟩] := rfl

/-! ## The render loop issues loop calls only -/

theorem LoopStep.comp {pid : Nat} {F G : App → App} (hF : LoopStep pid F) (hG : LoopStep pid G) :
    LoopStep pid (fun a => G (F a)) := by
  intro a ha
  obtain ⟨h1, e1⟩ := hF a ha
  obtain ⟨h2, e2⟩ := hG (F a) h1
  exact ⟨h2, e1.trans e2⟩

theorem LoopStep.emit_step (pid : Nat) (fn : String) (args : List Arg)
    (q : LoopCall pid ⟨fn, args⟩) :
    LoopStep pid (fun a => { a with w := a.w.emit fn args }) :=
  fun a ha => ⟨ha, Extends.emit_call a.w fn args q⟩

theorem loopStep_UResizeWindow (pid : Nat) (width height : Int) :
    LoopStep pid (UResizeWindow width height) :=
  fun a ha => ⟨ha, Extends.emit_call _ _ _ (by simp [LoopCall, loopFunctions])⟩

theorem loopStep_UMousePositionCallback (pid : Nat) (xpos ypos : ℚ) :
    LoopStep pid (UMousePositionCallback xpos ypos) := by
  intro a ha
  refine ⟨?_, Extends.emit_call _ _ _ (by simp [LoopCall, loopFunctions])⟩
  simp only [UMousePositionCallback]
  split <;> exact ha

theorem loopStep_UMouseScrollCallback (pid : Nat) (xoffset yoffset : ℚ) :
    LoopStep pid (UMouseScrollCallback xoffset yoffset) :=
  fun a ha => ⟨ha, Extends.emit_call _ _ _ (by simp [LoopCall, loopFunctions])⟩

theorem loopStep_UMouseButtonCallback (pid : Nat) (button action mods : Int) :
    LoopStep pid (UMouseButtonCallback button action mods) := by
  intro a ha
  simp only [UMouseButtonCallback, cout]
  repeat' split
  all_goals exact ⟨ha, Extends.emit_call _ _ _ (by simp [LoopCall, loopFunctions])⟩

theorem loopStep_dispatch (pid : Nat) (e : InputEvent) :
    LoopStep pid (fun a => dispatch a e) := by
  cases e with
  | resize width height => exact loopStep_UResizeWindow pid width height
  | cursor xpos ypos => exact loopStep_UMousePositionCallback pid xpos ypos
  | scroll xoffset yoffset => exact loopStep_UMouseScrollCallback pid xoffset yoffset
  | button button action mods => exact loopStep_UMouseButtonCallback pid button action mods
  | close => exact fun a ha => ⟨ha, ⟨[], by simp [dispatch], by simp⟩⟩

theorem loopStep_foldl_dispatch (pid : Nat) (events : List InputEvent) :
    LoopStep pid (fun a => events.foldl dispatch a) := by
  induction events with
  | nil => exact fun a ha => ⟨ha, Extends.refl _ _⟩
  | cons e es ih => exact LoopStep.comp (loopStep_dispatch pid e) ih

theorem loopStep_glfwPollEvents (pid : Nat) (events : List InputEvent) :
    LoopStep pid (glfwPollEvents events) := by
  intro a ha
  have h1 := LoopStep.emit_step pid "glfwPollEvents" [] (by simp [LoopCall, loopFunctions]) a ha
  have h2 := loopStep_foldl_dispatch pid events _ h1.1
  exact ⟨h2.1, h1.2.trans h2.2⟩

theorem loopStep_moveOnKey (pid : Nat) (f : FrameInput) (key : Key) (direction : String) :
    LoopStep pid (moveOnKey f key direction) := by
  intro a ha
  simp only [moveOnKey, glfwGetKey]
  split
  · exact ⟨ha, (Extends.emit_call _ _ _ (by simp [LoopCall, loopFunctions])).trans
      (Extends.emit_call _ _ _ (by simp [LoopCall, loopFunctions]))⟩
  · exact ⟨ha, Extends.emit_call _ _ _ (by simp [LoopCall, loopFunctions])⟩

theorem loopStep_UProcessInput (pid : Nat) (f : FrameInput) :
    LoopStep pid (UProcessInput f) := by
  intro a ha
  have h0 : LoopStep pid (fun a : App =>
      (⟨a.g, if decide (Key.ESCAPE ∈ f.keys) = true then
        { (World.emit (a.w.emit "glfwGetKey" [Key.ESCAPE.sym]) "glfwSetWindowShouldClose"
            [.sym "true"]) with windowShouldClose := true }
        else a.w.emit "glfwGetKey" [Key.ESCAPE.sym]⟩ : App)) := by
    intro a ha
    refine ⟨ha, ?_⟩
    show Extends _ _ (if _ then _ else _)
    split
    · exact Extends.of_trace [⟨"glfwGetKey", [Key.ESCAPE.sym]⟩,
        ⟨"glfwSetWindowShouldClose", [.sym "true"]⟩] (by simp [World.emit])
        (by simp [LoopCall, loopFunctions])
    · exact Extends.emit_call _ _ _ (by simp [LoopCall, loopFunctions])
  have hO : LoopStep pid (fun a : App =>
      (⟨if decide (Key.O ∈ f.keys) = true then { a.g with orthoViewToggle := true } else a.g,
        a.w.emit "glfwGetKey" [Key.O.sym]⟩ : App)) := by
    intro a ha
    refine ⟨?_, Extends.emit_call _ _ _ (by simp [LoopCall, loopFunctions])⟩
    show Globals.gProgramId (if _ then _ else _) = pid
    split <;> exact ha
  have hP : LoopStep pid (fun a : App =>
      (⟨if decide (Key.P ∈ f.keys) = true then { a.g with orthoViewToggle := false } else a.g,
        a.w.emit "glfwGetKey" [Key.P.sym]⟩ : App)) := by
    intro a ha
    refine ⟨?_, Extends.emit_call _ _ _ (by simp [LoopCall, loopFunctions])⟩
    show Globals.gProgramId (if _ then _ else _) = pid
    split <;> exact ha
  have h1 := h0 a ha
  have h2 := loopStep_moveOnKey pid f .W "FORWARD" _ h1.1
  have h3 := loopStep_moveOnKey pid f .S "BACKWARD" _ h2.1
  have h4 := loopStep_moveOnKey pid f .A "LEFT" _ h3.1
  have h5 := loopStep_moveOnKey pid f .D "RIGHT" _ h4.1
  have h6 := loopStep_moveOnKey pid f .Q "UP" _ h5.1
  have h7 := loopStep_moveOnKey pid f .E "DOWN" _ h6.1
  have h8 := hO _ h7.1
  have h9 := hP _ h8.1
  exact ⟨h9.1, h1.2.trans (h2.2.trans (h3.2.trans (h4.2.trans (h5.2.trans (h6.2.trans
    (h7.2.trans (h8.2.trans h9.2)))))))⟩

theorem extends_Stmt_exec (pid : Nat) (g : Globals) (s : RenderState)
    (stmt : Stmt) : Extends (LoopCall pid) s.w (stmt.exec g s).w := by
  cases stmt with
  | glBindVertexArray m =>
    cases m <;> exact Extends.emit_call _ _ _ (by simp [LoopCall, loopFunctions])
  | setHasTextureVal b => exact Extends.refl _ _
  | uploadHasTexture => exact Extends.emit_call _ _ _ (by simp [LoopCall, loopFunctions])
  | glActiveTexture => exact Extends.emit_call _ _ _ (by simp [LoopCall, loopFunctions])
  | glBindTexture t =>
    exact Extends.of_trace _ (glBindTexture_trace _ _) (by simp [LoopCall, loopFunctions])
  | glEnableBlend => exact Extends.emit_call _ _ _ (by simp [LoopCall, loopFunctions])
  | glBlendFunc => exact Extends.emit_call _ _ _ (by simp [LoopCall, loopFunctions])
  | uploadModel => exact Extends.emit_call _ _ _ (by simp [LoopCall, loopFunctions])
  | programObjectColor r g2 b a => exact Extends.emit_call _ _ _ (by simp [LoopCall, loopFunctions])
  | useTexture v =>
    exact (Extends.emit_call _ _ _ (by simp [LoopCall, loopFunctions])).trans
      (Extends.emit_call _ _ _ (by simp [LoopCall, loopFunctions]))
  | objectColor r g2 b a =>
    exact (Extends.emit_call _ _ _ (by simp [LoopCall, loopFunctions])).trans
      (Extends.emit_call _ _ _ (by simp [LoopCall, loopFunctions]))
  | glDrawElements m => exact Extends.emit_call _ _ _ (by simp [LoopCall, loopFunctions])

theorem extends_foldl_exec (pid : Nat) (g : Globals)
    (stmts : List Stmt) (s : RenderState) :
    Extends (LoopCall pid) s.w (stmts.foldl (Stmt.exec g) s).w := by
  induction stmts generalizing s with
  | nil => exact Extends.refl _ _
  | cons stmt rest ih => exact (extends_Stmt_exec pid g s stmt).trans (ih _)

theorem loopStep_URender (pid : Nat) : LoopStep pid URender := by
  intro a ha
  refine ⟨ha, ?_⟩
  simp only [URender]
  refine Extends.trans ?_ (Extends.emit_call _ _ _ (by simp [LoopCall, loopFunctions]))
  refine Extends.trans ?_ (extends_foldl_exec pid a.g _ _)
  cases ho : a.g.orthoViewToggle <;>
  · refine Extends.of_issued ?_ ?_ <;>
    simp [ho, issued, World.emit, World.emitAll, glUseProgram_trace, URenderLookups, LoopCall,
      loopFunctions, ha]

theorem loopStep_frame (pid : Nat) (f : FrameInput) : LoopStep pid (frame f) := by
  intro a ha
  simp only [frame]
  have h1 : Extends (LoopCall pid) a.w
      (World.emit (a.w.emit "glfwGetTime" []) "UProcessInput" []) :=
    (Extends.emit_call _ _ _ (by simp [LoopCall, loopFunctions])).trans
      (Extends.emit_call _ _ _ (by simp [LoopCall, loopFunctions]))
  have h2 := loopStep_UProcessInput pid f
    ⟨{ a.g with gDeltaTime := f.time - a.g.gLastFrame, gLastFrame := f.time },
      World.emit (a.w.emit "glfwGetTime" []) "UProcessInput" []⟩ ha
  have h3 := LoopStep.emit_step pid "URender" [] (by simp [LoopCall, loopFunctions]) _ h2.1
  have h4 := loopStep_URender pid _ h3.1
  have h5 := loopStep_glfwPollEvents pid f.events _ h4.1
  exact ⟨h5.1, h1.trans (h2.2.trans (h3.2.trans (h4.2.trans h5.2)))⟩

theorem renderLoop_extends (pid : Nat) (frames : List FrameInput) (a : App)
    (ha : a.g.gProgramId = pid) :
    (renderLoop frames a).2.g.gProgramId = pid ∧
      Extends (LoopCall pid) a.w (renderLoop frames a).2.w := by
  induction frames generalizing a with
  | nil =>
    simp only [renderLoop]
    exact ⟨ha, Extends.emit_call _ _ _ (by simp [LoopCall, loopFunctions])⟩
  | cons f fs ih =>
    simp only [renderLoop]
    have h1 : Extends (LoopCall pid) a.w (a.w.emit "glfwWindowShouldClose" []) :=
      Extends.emit_call _ _ _ (by simp [LoopCall, loopFunctions])
    split
    · exact ⟨ha, h1⟩
    · have h2 := loopStep_frame pid f ⟨a.g, a.w.emit "glfwWindowShouldClose" []⟩ ha
      have h3 := ih _ h2.1
      exact ⟨h3.1, h1.trans (h2.2.trans h3.2)⟩

/-! ## The paths of `main` -/

theorem main_eq (P : Platform) (frames : List FrameInput) :
    main P frames =
      if (UInitialize P World.init).1 = false then
        ⟨some EXIT_FAILURE, Globals.init, (UInitialize P World.init).2⟩
      else if (shaderStage P).ok = false then
        ⟨some EXIT_FAILURE, { Globals.init with gProgramId := (shaderStage P).programId },
          (shaderStage P).world⟩
      else if (caseStage P).ok = false then
        ⟨some EXIT_FAILURE,
          { Globals.init with
            gProgramId := (shaderStage P).programId
            gTextureIdCase := (caseStage P).textureId },
          cout ("Failed to load texture " ++ "casetexture.jpg" ++ "\n") (caseStage P).world⟩
      else if (logoStage P).ok = false then
        ⟨some EXIT_FAILURE, loopGlobals P,
          cout ("Failed to load texture " ++ "applelogo.png" ++ "\n") (logoStage P).world⟩
      else
        match renderLoop frames ⟨loopGlobals P, loopWorld P⟩ with
        | (false, a) => ⟨none, a.g, a.w⟩
        | (true, a) => ⟨some EXIT_SUCCESS, a.g, shutdownWorld a⟩ := by
  cases h1 : (UInitialize P World.init).1
  · simp [main, mainFrom, h1]
  · cases h2 : (shaderStage P).ok
    · have h2b := h2
      simp only [shaderStage, startWorld] at h2b
      simp [main, mainFrom, h1, h2, h2b, shaderStage, startWorld]
    · have h2b := h2
      simp only [shaderStage, startWorld] at h2b
      cases h3 : (caseStage P).ok
      · have h3b := h3
        simp only [caseStage, shaderStage, startWorld] at h3b
        simp [main, mainFrom, h1, h2, h2b, h3, h3b, shaderStage, startWorld, caseStage]
      · have h3b := h3
        simp only [caseStage, shaderStage, startWorld] at h3b
        cases h4 : (logoStage P).ok
        · have h4b := h4
          simp only [logoStage, caseStage, shaderStage, startWorld] at h4b
          simp [main, mainFrom, h1, h2, h2b, h3, h3b, h4, h4b, shaderStage, startWorld, caseStage,
            logoStage, loopGlobals]
        · have h4b := h4
          simp only [logoStage, caseStage, shaderStage, startWorld] at h4b
          simp [main, mainFrom, h1, h2, h2b, h3, h3b, h4, h4b]
          rfl

theorem create_ok_eq (P : Platform) (vs fs : String) (w : World) :
    (UCreateShaderProgram P vs fs w).ok = shaderProgramCreated P vs fs := by
  have h1 := create_ok_iff P vs fs w
  have h2 := create_ok_iff P vs fs World.init
  unfold shaderProgramCreated
  cases ha : (UCreateShaderProgram P vs fs w).ok <;>
  cases hb : (UCreateShaderProgram P vs fs World.init).ok <;>
  simp_all

theorem texture_ok_eq (P : Platform) (filename : String) (id : Nat) (w : World) :
    (UCreateTexture P filename id w).ok = textureCreated P filename := by
  unfold textureCreated UCreateTexture
  cases P.stbi_load filename with
  | none => rfl
  | some image =>
    simp only
    split <;> [rfl; (split <;> rfl)]

theorem texture_fails_of_null (P : Platform) (filename : String) (id : Nat) (w : World)
    (h : P.stbi_load filename = none) : (UCreateTexture P filename id w).ok = false := by
  simp [UCreateTexture, h]

theorem init_extends (P : Platform) (w : World) :
    Extends (fun c => c.fn ∈ initFunctions) w (UInitialize P w).2 := by
  cases ha : P.apple <;> cases hw : P.windowCreated <;> cases hg : P.glewOk <;>
  · refine Extends.of_issued ?_ ?_ <;>
    simp [UInitialize, ha, hw, hg, issued, World.emit, cout, cerr, initFunctions]

theorem create_extends (P : Platform) (vs fs : String) (w : World) :
    Extends (CreateCall (UCreateShaderProgram P vs fs w).ok (UCreateShaderProgram P vs fs w).programId)
      w (UCreateShaderProgram P vs fs w).world := by
  refine ⟨_, create_trace P vs fs w, ?_⟩
  rw [create_programId]
  cases hv : P.compileStatus .GL_VERTEX_SHADER vs
  · rw [issued_vertex_failure P vs fs w hv]
    simp [CreateCall, createFunctions, vertexReport]
  · cases hf : P.compileStatus .GL_FRAGMENT_SHADER fs
    · rw [issued_fragment_failure P vs fs w hv hf]
      simp [CreateCall, createFunctions, fragmentReport]
    · cases hl : P.linkStatus (compiledStages vs fs)
      · rw [issued_link_failure P vs fs w hv hf hl]
        simp [CreateCall, createFunctions, linkReport]
      · rw [issued_success P vs fs w hv hf hl, (create_ok_iff P vs fs w).2 ⟨hv, hf, hl⟩]
        simp [CreateCall, createFunctions]

theorem texture_extends (P : Platform) (filename : String) (id : Nat) (w : World) :
    Extends (TextureCall filename) w (UCreateTexture P filename id w).world := by
  unfold UCreateTexture
  cases P.stbi_load filename with
  | none => exact Extends.emit_call _ _ _ (by simp [TextureCall, textureFunctions])
  | some image =>
    simp only
    split
    · refine Extends.of_issued ?_ ?_ <;>
      simp [issued, World.emit, glBindTexture_trace, glGenTextures, TextureCall, textureFunctions]
    · split
      · refine Extends.of_issued ?_ ?_ <;>
        simp [issued, World.emit, glBindTexture_trace, glGenTextures, TextureCall,
          textureFunctions]
      · refine Extends.of_issued ?_ ?_ <;>
        simp [issued, World.emit, glBindTexture_trace, glGenTextures, TextureCall,
          textureFunctions, cout]

theorem shutdown_extends (a : App) :
    Extends (fun c => c.fn ∈ shutdownFunctions ∧
        (c.fn = "glDeleteProgram" → c.args = [.name a.g.gProgramId]))
      a.w (shutdownWorld a) := by
  refine Extends.of_issued ?_ ?_ <;>
  simp [shutdownWorld, issued, World.emit, UDestroyShaderProgram, UDestroyTexture,
    glDeleteProgram_trace, glGenTextures, shutdownFunctions]

theorem loopWorld_extends (P : Platform) :
    Extends (LoopCall (shaderStage P).programId) (logoStage P).world (loopWorld P) := by
  refine Extends.of_issued ?_ ?_ <;>
  simp [loopWorld, issued, World.emit, glUseProgram_trace, LoopCall, loopFunctions]

theorem main_call_origin (P : Platform) (frames : List FrameInput) (c : Call)
    (hc : c ∈ (main P frames).w.trace) : CallOrigin P c := by
  have hcr : (shaderStage P).ok = shaderProgramCreated P vertexShaderSource fragmentShaderSource :=
    create_ok_eq _ _ _ _
  have hca : (caseStage P).ok = textureCreated P "casetexture.jpg" := texture_ok_eq _ _ _ _
  have hlo : (logoStage P).ok = textureCreated P "applelogo.png" := texture_ok_eq _ _ _ _
  have m0 : ∀ c ∈ (UInitialize P World.init).2.trace, CallOrigin P c := by
    intro c h
    rcases (init_extends P World.init).mem h with h | h
    · simp [World.init] at h
    · exact Or.inl h
  have m1 : ∀ c ∈ (startWorld P).trace, CallOrigin P c := by
    intro c h
    have e : Extends (fun c => c = ⟨"meshes.CreateMeshes", []⟩) (UInitialize P World.init).2
        (startWorld P) := Extends.emit_call _ _ _ rfl
    rcases e.mem h with h | h
    · exact m0 c h
    · exact Or.inr (Or.inl h)
  have m2 : ∀ c ∈ (shaderStage P).world.trace, CallOrigin P c := by
    intro c h
    have e := create_extends P vertexShaderSource fragmentShaderSource (startWorld P)
    rcases e.mem h with h | h
    · exact m1 c h
    · rw [create_ok_eq] at h
      exact Or.inr (Or.inr (Or.inl h))
  have m3 : (shaderStage P).ok = true → ∀ c ∈ (caseStage P).world.trace, CallOrigin P c := by
    intro ok c h
    rcases (texture_extends P "casetexture.jpg" Globals.init.gTextureIdCase
      (shaderStage P).world).mem h with h | h
    · exact m2 c h
    · exact Or.inr (Or.inr (Or.inr (Or.inl ⟨hcr ▸ ok, h⟩)))
  have m4 : (shaderStage P).ok = true → (caseStage P).ok = true →
      ∀ c ∈ (logoStage P).world.trace, CallOrigin P c := by
    intro ok1 ok2 c h
    rcases (texture_extends P "applelogo.png" Globals.init.gTextureIdLogo
      (caseStage P).world).mem h with h | h
    · exact m3 ok1 c h
    · exact Or.inr (Or.inr (Or.inr (Or.inr (Or.inr (Or.inl ⟨hcr ▸ ok1, hca ▸ ok2, h⟩)))))
  have m5 : (shaderStage P).ok = true → (caseStage P).ok = true → (logoStage P).ok = true →
      ∀ c ∈ (renderLoop frames ⟨loopGlobals P, loopWorld P⟩).2.w.trace, CallOrigin P c := by
    intro ok1 ok2 ok3 c h
    have e := (loopWorld_extends P).trans
      (renderLoop_extends (shaderStage P).programId frames ⟨loopGlobals P, loopWorld P⟩ rfl).2
    rcases e.mem h with h | h
    · exact m4 ok1 ok2 c h
    · exact Or.inr (Or.inr (Or.inr (Or.inr (Or.inr (Or.inr (Or.inr
        ⟨hcr ▸ ok1, hca ▸ ok2, hlo ▸ ok3, Or.inl h⟩))))))
  rw [main_eq] at hc
  split at hc
  · exact m0 c hc
  · rename_i h1
    split at hc
    · exact m2 c hc
    · rename_i h2
      have ok1 : (shaderStage P).ok = true := by simpa using h2
      split at hc
      · rename_i h3
        simp only [cout, World.emit, List.mem_append, List.mem_singleton] at hc
        rcases hc with hc | hc
        · exact m3 ok1 c hc
        · exact Or.inr (Or.inr (Or.inr (Or.inr (Or.inl ⟨hcr ▸ ok1, hca ▸ h3, hc⟩))))
      · rename_i h3
        have ok2 : (caseStage P).ok = true := by simpa using h3
        split at hc
        · rename_i h4
          simp only [cout, World.emit, List.mem_append, List.mem_singleton] at hc
          rcases hc with hc | hc
          · exact m4 ok1 ok2 c hc
          · exact Or.inr (Or.inr (Or.inr (Or.inr (Or.inr (Or.inr (Or.inl
              ⟨hcr ▸ ok1, hca ▸ ok2, hlo ▸ h4, hc⟩))))))
        · rename_i h4
          have ok3 : (logoStage P).ok = true := by simpa using h4
          have hpid := (renderLoop_extends (shaderStage P).programId frames
            ⟨loopGlobals P, loopWorld P⟩ rfl).1
          cases hr : renderLoop frames ⟨loopGlobals P, loopWorld P⟩ with
          | mk left a =>
            rw [hr] at hc
            have m5b := m5 ok1 ok2 ok3
            rw [hr] at m5b hpid
            cases left
            · exact m5b c hc
            · rcases (shutdown_extends a).mem hc with hc | hc
              · exact m5b c hc
              · simp only at hpid
                rw [hpid] at hc
                exact Or.inr (Or.inr (Or.inr (Or.inr (Or.inr (Or.inr (Or.inr
                  ⟨hcr ▸ ok1, hca ▸ ok2, hlo ▸ ok3, Or.inr hc⟩))))))

theorem main_after_shaderStage (P : Platform) (frames : List FrameInput)
    (h1 : (UInitialize P World.init).1 = true) :
    (main P frames).g.gProgramId = (shaderStage P).programId ∧
      Extends (fun _ => True) (shaderStage P).world (main P frames).w := by
  have t : ∀ c : Call, True := fun _ => trivial
  have e3 : Extends (fun _ => True) (shaderStage P).world (caseStage P).world :=
    (texture_extends P _ _ _).mono (fun c _ => t c)
  have e4 : Extends (fun _ => True) (caseStage P).world (logoStage P).world :=
    (texture_extends P _ _ _).mono (fun c _ => t c)
  have e5 : Extends (fun _ => True) (logoStage P).world (loopWorld P) :=
    (loopWorld_extends P).mono (fun c _ => t c)
  rw [main_eq]
  simp only [h1, Bool.true_eq_false, if_false]
  split
  · exact ⟨rfl, Extends.refl _ _⟩
  · split
    · exact ⟨rfl, e3.trans (Extends.emit_call _ _ _ trivial)⟩
    · split
      · exact ⟨rfl, (e3.trans e4).trans (Extends.emit_call _ _ _ trivial)⟩
      · have hl := renderLoop_extends (shaderStage P).programId frames
          ⟨loopGlobals P, loopWorld P⟩ rfl
        have e6 := hl.2.mono (fun c _ => t c)
        cases hr : renderLoop frames ⟨loopGlobals P, loopWorld P⟩ with
        | mk left a =>
          rw [hr] at hl e6
          cases left
          · exact ⟨hl.1, ((e3.trans e4).trans e5).trans e6⟩
          · exact ⟨hl.1, (((e3.trans e4).trans e5).trans e6).trans
              ((shutdown_extends a).mono (fun c _ => t c))⟩

theorem main_init_failure (P : Platform) (frames : List FrameInput)
    (h1 : (UInitialize P World.init).1 = false) :
    main P frames = ⟨some EXIT_FAILURE, Globals.init, (UInitialize P World.init).2⟩ := by
  rw [main_eq]; simp [h1]

theorem startWorld_no_glUseProgram (P : Platform) :
    ∀ c ∈ (startWorld P).trace, c.fn ≠ "glUseProgram" := by
  intro c h hfn
  have e : Extends (fun c => c = ⟨"meshes.CreateMeshes", []⟩) (UInitialize P World.init).2
      (startWorld P) := Extends.emit_call _ _ _ rfl
  rcases e.mem h with h | h
  · rcases (init_extends P World.init).mem h with h | h
    · simp [World.init] at h
    · have h : c.fn ∈ initFunctions := h
      rw [hfn] at h
      simp [initFunctions] at h
  · rw [h] at hfn
    simp at hfn

/-! ## Claims about `main` -/

/-- C5: in every run of `main`, whatever the environment answers and however many frames are
rendered, each `glUseProgram` call in the trace (the one inside `UCreateShaderProgram`, the one
in `main`, those in `URender`) belongs to a run in which `UCreateShaderProgram` returned `true`;
its argument is `gProgramId`, the program that call created and linked, and it comes after the
`glLinkProgram` call and the link-status query on that program.  So a program whose
construction failed is never activated. -/
theorem glUseProgram_only_after_successful_creation (P : Platform) (frames : List FrameInput)
    (pre post : List Call) (c : Call)
    (ht : (main P frames).w.trace = pre ++ c :: post) (hu : c.fn = "glUseProgram") :
    (shaderStage P).ok = true ∧
    (shaderStage P).world.isLinked (shaderStage P).programId = true ∧
    (main P frames).g.gProgramId = (shaderStage P).programId ∧
    c.args = [.name (main P frames).g.gProgramId] ∧
    ⟨"glLinkProgram", [.name (main P frames).g.gProgramId]⟩ ∈ pre ∧
    ⟨"glGetProgramiv", [.name (main P frames).g.gProgramId, .sym "GL_LINK_STATUS"]⟩ ∈ pre := by
  have hc : c ∈ (main P frames).w.trace := by rw [ht]; simp
  have h1 : (UInitialize P World.init).1 = true := by
    cases h : (UInitialize P World.init).1
    · rw [main_init_failure P frames h] at hc
      rcases (init_extends P World.init).mem hc with h | h
      · simp [World.init] at h
      · have h : c.fn ∈ initFunctions := h
        rw [hu] at h
        simp [initFunctions] at h
    · rfl
  obtain ⟨hg, rest, hrest, _⟩ := main_after_shaderStage P frames h1
  have hcr := create_ok_eq P vertexShaderSource fragmentShaderSource (startWorld P)
  have hok : (shaderStage P).ok = true ∧ c.args = [.name (shaderStage P).programId] := by
    rcases main_call_origin P frames c hc with h | h | h | h | h | h | h | h
    · rw [hu] at h; simp [initFunctions] at h
    · rw [h] at hu; simp at hu
    · have := h.2 hu
      exact ⟨by rw [← this.1]; exact hcr, this.2⟩
    · have := h.2.1; rw [hu] at this; simp [textureFunctions] at this
    · rw [h.2.2] at hu; simp [textureReport] at hu
    · have := h.2.2.1; rw [hu] at this; simp [textureFunctions] at this
    · rw [h.2.2.2] at hu; simp [textureReport] at hu
    · rcases h.2.2.2 with h4 | h4
      · exact ⟨by rw [← h.1]; exact hcr, h4.2 hu⟩
      · have := h4.1; rw [hu] at this; simp [shutdownFunctions] at this
  obtain ⟨hv, hf, hl⟩ := (create_ok_iff _ _ _ _).1 hok.1
  have hi := issued_success P vertexShaderSource fragmentShaderSource (startWorld P) hv hf hl
  have hct := create_trace P vertexShaderSource fragmentShaderSource (startWorld P)
  rw [hi] at hct
  have hpid : (shaderStage P).programId = (startWorld P).nextName := create_programId _ _ _ _
  have hlinked : (shaderStage P).world.isLinked (shaderStage P).programId = true :=
    (create_ok_state P vertexShaderSource fragmentShaderSource (startWorld P) hok.1).1
  refine ⟨hok.1, hlinked, hg, by rw [hg]; exact hok.2, ?_⟩
  rw [hg, hpid]
  have hA : pre ++ c :: post =
      ((startWorld P).trace ++
        [⟨"glCreateProgram", []⟩,
         ⟨"glCreateShader", [.sym "GL_VERTEX_SHADER"]⟩,
         ⟨"glCreateShader", [.sym "GL_FRAGMENT_SHADER"]⟩,
         ⟨"glShaderSource", [.name ((startWorld P).nextName + 1), .text vertexShaderSource]⟩,
         ⟨"glShaderSource", [.name ((startWorld P).nextName + 2), .text fragmentShaderSource]⟩,
         ⟨"glCompileShader", [.name ((startWorld P).nextName + 1)]⟩,
         ⟨"glGetShaderiv", [.name ((startWorld P).nextName + 1), .sym "GL_COMPILE_STATUS"]⟩,
         ⟨"glCompileShader", [.name ((startWorld P).nextName + 2)]⟩,
         ⟨"glGetShaderiv", [.name ((startWorld P).nextName + 2), .sym "GL_COMPILE_STATUS"]⟩,
         ⟨"glAttachShader", [.name (startWorld P).nextName, .name ((startWorld P).nextName + 1)]⟩,
         ⟨"glAttachShader", [.name (startWorld P).nextName, .name ((startWorld P).nextName + 2)]⟩,
         ⟨"glLinkProgram", [.name (startWorld P).nextName]⟩,
         ⟨"glGetProgramiv", [.name (startWorld P).nextName, .sym "GL_LINK_STATUS"]⟩]) ++
      (⟨"glUseProgram", [.name (startWorld P).nextName]⟩ :: rest) := by
    rw [← ht, hrest]
    show (UCreateShaderProgram P vertexShaderSource fragmentShaderSource
      (startWorld P)).world.trace ++ rest = _
    rw [hct]
    simp
  have hno := startWorld_no_glUseProgram P
  rcases List.append_eq_append_iff.1 hA with ⟨a, h1, h2⟩ | ⟨a, h1, h2⟩
  · cases a with
    | nil =>
      rw [List.append_nil] at h1
      rw [← h1]
      simp
    | cons x xs =>
      exfalso
      have hx : c = x := by
        have := congrArg List.head? h2
        simpa using this
      have hmem : c ∈ (startWorld P).trace ++
        [⟨"glCreateProgram", []⟩,
         ⟨"glCreateShader", [.sym "GL_VERTEX_SHADER"]⟩,
         ⟨"glCreateShader", [.sym "GL_FRAGMENT_SHADER"]⟩,
         ⟨"glShaderSource", [.name ((startWorld P).nextName + 1), .text vertexShaderSource]⟩,
         ⟨"glShaderSource", [.name ((startWorld P).nextName + 2), .text fragmentShaderSource]⟩,
         ⟨"glCompileShader", [.name ((startWorld P).nextName + 1)]⟩,
         ⟨"glGetShaderiv", [.name ((startWorld P).nextName + 1), .sym "GL_COMPILE_STATUS"]⟩,
         ⟨"glCompileShader", [.name ((startWorld P).nextName + 2)]⟩,
         ⟨"glGetShaderiv", [.name ((startWorld P).nextName + 2), .sym "GL_COMPILE_STATUS"]⟩,
         ⟨"glAttachShader", [.name (startWorld P).nextName, .name ((startWorld P).nextName + 1)]⟩,
         ⟨"glAttachShader", [.name (startWorld P).nextName, .name ((startWorld P).nextName + 2)]⟩,
         ⟨"glLinkProgram", [.name (startWorld P).nextName]⟩,
         ⟨"glGetProgramiv", [.name (startWorld P).nextName, .sym "GL_LINK_STATUS"]⟩] := by
        rw [h1, hx]; simp
      rcases List.mem_append.1 hmem with hm | hm
      · exact hno c hm hu
      · simp only [List.mem_cons, List.mem_singleton, List.not_mem_nil, or_false] at hm
        rcases hm with h | h | h | h | h | h | h | h | h | h | h | h | h <;>
        · rw [h] at hu; simp at hu
  · rw [h1]
    simp

/-- C5, at an instance: a run in which everything succeeds and the loop has not started yet
contains `glUseProgram(1)`, and the creation of program 1 had returned `true`. -/
theorem glUseProgram_only_after_successful_creation_witness :
    (shaderStage goodPlatform).ok = true ∧
    (main goodPlatform []).g.gProgramId = (shaderStage goodPlatform).programId := by
  obtain ⟨s, t, h⟩ := List.append_of_mem
    (show (⟨"glUseProgram", [.name 1]⟩ : Call) ∈ (main goodPlatform []).w.trace by decide)
  exact ⟨(glUseProgram_only_after_successful_creation goodPlatform [] s t _ h rfl).1,
    (glUseProgram_only_after_successful_creation goodPlatform [] s t _ h rfl).2.2.1⟩

theorem startup_call_not_frame_call (c : Call)
    (h : c.fn ∈ initFunctions ∨ c.fn ∈ createFunctions ∨ c.fn ∈ textureFunctions ∨
      c.fn = "meshes.CreateMeshes" ∨ c.fn = "cout") :
    c.fn ≠ "UProcessInput" ∧ c.fn ≠ "URender" ∧ c.fn ≠ "glfwGetTime" ∧
      c.fn ≠ "glDrawElements" := by
  rcases h with h | h | h | h | h <;>
  · refine ⟨?_, ?_, ?_, ?_⟩ <;>
    · intro hfn
      rw [hfn] at h
      simp [initFunctions, createFunctions, textureFunctions] at h

/-- C8: when `UCreateShaderProgram` returns `false`, or `UCreateTexture` returns `false` for
`casetexture.jpg` or for `applelogo.png`, `main` returns `EXIT_FAILURE` and its trace holds no
call of `UProcessInput` or `URender` (nor a `glfwGetTime` or a `glDrawElements`): no iteration
of the render loop is executed, however many frames of input are on offer. -/
theorem startup_failure_exits_before_render_loop (P : Platform) (frames : List FrameInput)
    (h : shaderProgramCreated P vertexShaderSource fragmentShaderSource = false ∨
      textureCreated P "casetexture.jpg" = false ∨ textureCreated P "applelogo.png" = false) :
    (main P frames).exit = some EXIT_FAILURE ∧
    ∀ c ∈ (main P frames).w.trace,
      c.fn ≠ "UProcessInput" ∧ c.fn ≠ "URender" ∧ c.fn ≠ "glfwGetTime" ∧
        c.fn ≠ "glDrawElements" := by
  have hcr : (shaderStage P).ok = shaderProgramCreated P vertexShaderSource fragmentShaderSource :=
    create_ok_eq _ _ _ _
  have hca : (caseStage P).ok = textureCreated P "casetexture.jpg" := texture_ok_eq _ _ _ _
  have hlo : (logoStage P).ok = textureCreated P "applelogo.png" := texture_ok_eq _ _ _ _
  constructor
  · rw [main_eq]
    split
    · rfl
    · split
      · rfl
      · split
        · rfl
        · split
          · rfl
          · rename_i h2 h3 h4
            rw [hcr] at h2
            rw [hca] at h3
            rw [hlo] at h4
            rcases h with h | h | h
            · exact absurd h h2
            · exact absurd h h3
            · exact absurd h h4
  · intro c hc
    rcases main_call_origin P frames c hc with o | o | o | o | o | o | o | o
    · exact startup_call_not_frame_call c (Or.inl o)
    · exact startup_call_not_frame_call c (Or.inr (Or.inr (Or.inr (Or.inl (by rw [o])))))
    · exact startup_call_not_frame_call c (Or.inr (Or.inl o.1))
    · exact startup_call_not_frame_call c (Or.inr (Or.inr (Or.inl o.2.1)))
    · exact startup_call_not_frame_call c
        (Or.inr (Or.inr (Or.inr (Or.inr (by rw [o.2.2]; rfl)))))
    · exact startup_call_not_frame_call c (Or.inr (Or.inr (Or.inl o.2.2.1)))
    · exact startup_call_not_frame_call c
        (Or.inr (Or.inr (Or.inr (Or.inr (by rw [o.2.2.2]; rfl)))))
    · exfalso
      rcases h with h | h | h
      · rw [o.1] at h; exact absurd h (by decide)
      · rw [o.2.1] at h; exact absurd h (by decide)
      · rw [o.2.2.1] at h; exact absurd h (by decide)

/-- C8, at an instance: the logo texture cannot be decoded and three frames of input are on
offer. -/
theorem startup_failure_exits_before_render_loop_witness :
    (main (samplePlatform true true true (some (sampleImage 3)) none)
      [quietFrame 1, quietFrame 2, closingFrame 3]).exit = some EXIT_FAILURE :=
  (startup_failure_exits_before_render_loop
    (samplePlatform true true true (some (sampleImage 3)) none)
    [quietFrame 1, quietFrame 2, closingFrame 3] (Or.inr (Or.inr (by decide)))).1

theorem main_reports_case_failure (P : Platform) (frames : List FrameInput)
    (h1 : (UInitialize P World.init).1 = true)
    (h2 : shaderProgramCreated P vertexShaderSource fragmentShaderSource = true)
    (h3 : textureCreated P "casetexture.jpg" = false) :
    textureReport "casetexture.jpg" ∈ (main P frames).w.trace := by
  have hcr : (shaderStage P).ok = shaderProgramCreated P vertexShaderSource fragmentShaderSource :=
    create_ok_eq _ _ _ _
  have hca : (caseStage P).ok = textureCreated P "casetexture.jpg" := texture_ok_eq _ _ _ _
  rw [main_eq]
  simp [h1, hcr, hca, h2, h3, cout, World.emit, textureReport]

theorem main_reports_logo_failure (P : Platform) (frames : List FrameInput)
    (h1 : (UInitialize P World.init).1 = true)
    (h2 : shaderProgramCreated P vertexShaderSource fragmentShaderSource = true)
    (h3 : textureCreated P "casetexture.jpg" = true)
    (h4 : textureCreated P "applelogo.png" = false) :
    textureReport "applelogo.png" ∈ (main P frames).w.trace := by
  have hcr : (shaderStage P).ok = shaderProgramCreated P vertexShaderSource fragmentShaderSource :=
    create_ok_eq _ _ _ _
  have hca : (caseStage P).ok = textureCreated P "casetexture.jpg" := texture_ok_eq _ _ _ _
  have hlo : (logoStage P).ok = textureCreated P "applelogo.png" := texture_ok_eq _ _ _ _
  rw [main_eq]
  simp [h1, hcr, hca, hlo, h2, h3, h4, cout, World.emit, textureReport]

/-- C9: `UCreateTexture` returns `false` whenever `stbi_load` returns null; and in every run of
`main`, for each file on which `main` called `UCreateTexture` (the `stbi_load` call on the file
is in the trace) and for which `UCreateTexture` returns `false`, the trace holds the line
`Failed to load texture <filename>` for that file. -/
theorem texture_failure_is_false_and_reported (P : Platform) (frames : List FrameInput)
    (filename : String) (id : Nat) (w : World) :
    (P.stbi_load filename = none → (UCreateTexture P filename id w).ok = false) ∧
    (⟨"stbi_load", [.text filename]⟩ ∈ (main P frames).w.trace →
      (UCreateTexture P filename id w).ok = false →
      textureReport filename ∈ (main P frames).w.trace) := by
  refine ⟨texture_fails_of_null P filename id w, ?_⟩
  intro hc hfalse
  rw [texture_ok_eq] at hfalse
  have h1 : (UInitialize P World.init).1 = true := by
    cases h : (UInitialize P World.init).1
    · rw [main_init_failure P frames h] at hc
      rcases (init_extends P World.init).mem hc with h | h
      · simp [World.init] at h
      · have h : (⟨"stbi_load", [.text filename]⟩ : Call).fn ∈ initFunctions := h
        simp [initFunctions] at h
    · rfl
  rcases main_call_origin P frames _ hc with o | o | o | o | o | o | o | o
  · simp [initFunctions] at o
  · simp at o
  · have := o.1; simp [createFunctions] at this
  · have := o.2.2 rfl
    simp only [List.cons.injEq, Arg.text.injEq, and_true] at this
    subst this
    exact main_reports_case_failure P frames h1 o.1 hfalse
  · have := o.2.2; simp [textureReport] at this
  · have := o.2.2.2 rfl
    simp only [List.cons.injEq, Arg.text.injEq, and_true] at this
    subst this
    exact main_reports_logo_failure P frames h1 o.1 o.2.1 hfalse
  · have := o.2.2.2; simp [textureReport] at this
  · rcases o.2.2.2 with o4 | o4
    · have := o4.1; simp [loopFunctions] at this
    · have := o4.1; simp [shutdownFunctions] at this

/-- C9, at an instance: neither image can be decoded; the case texture is reported. -/
theorem texture_failure_is_false_and_reported_witness :
    textureReport "casetexture.jpg" ∈
      (main (samplePlatform true true true none none) []).w.trace :=
  (texture_failure_is_false_and_reported (samplePlatform true true true none none) []
    "casetexture.jpg" 0 World.init).2 (by decide)
    ((texture_failure_is_false_and_reported (samplePlatform true true true none none) []
      "casetexture.jpg" 0 World.init).1 rfl)

theorem failure_exit_never_releases (P : Platform) (frames : List FrameInput)
    (he : (main P frames).exit = some EXIT_FAILURE) :
    ∀ c ∈ (main P frames).w.trace, c.fn ≠ "glDeleteProgram" := by
  have hcr : (shaderStage P).ok = shaderProgramCreated P vertexShaderSource fragmentShaderSource :=
    create_ok_eq _ _ _ _
  have hca : (caseStage P).ok = textureCreated P "casetexture.jpg" := texture_ok_eq _ _ _ _
  have hlo : (logoStage P).ok = textureCreated P "applelogo.png" := texture_ok_eq _ _ _ _
  intro c hc hfn
  cases h1 : (UInitialize P World.init).1
  · rw [main_init_failure P frames h1] at hc
    rcases (init_extends P World.init).mem hc with h | h
    · simp [World.init] at h
    · have h : c.fn ∈ initFunctions := h
      rw [hfn] at h
      simp [initFunctions] at h
  · rcases main_call_origin P frames c hc with o | o | o | o | o | o | o | o
    · rw [hfn] at o; simp [initFunctions] at o
    · rw [o] at hfn; simp at hfn
    · have := o.1; rw [hfn] at this; simp [createFunctions] at this
    · have := o.2.1; rw [hfn] at this; simp [textureFunctions] at this
    · rw [o.2.2] at hfn; simp [textureReport] at hfn
    · have := o.2.2.1; rw [hfn] at this; simp [textureFunctions] at this
    · rw [o.2.2.2] at hfn; simp [textureReport] at hfn
    · rw [main_eq] at he
      simp only [h1, hcr, hca, hlo, o.1, o.2.1, o.2.2.1, Bool.true_eq_false, if_false] at he
      cases hr : renderLoop frames ⟨loopGlobals P, loopWorld P⟩ with
      | mk left a =>
        rw [hr] at he
        cases left <;> simp [EXIT_FAILURE, EXIT_SUCCESS] at he

/-- C7 fails on the code: with shaders that compile and link and a `casetexture.jpg` that cannot
be decoded, `main` returns `EXIT_FAILURE` after `glCreateProgram` created the program object,
and no `glDeleteProgram` is issued; the program object (name 1) is still live at exit. -/
theorem early_exit_leaves_program_unreleased :
    (main (samplePlatform true true true none none) []).exit = some EXIT_FAILURE ∧
    (⟨"glCreateProgram", []⟩ : Call) ∈ (main (samplePlatform true true true none none) []).w.trace ∧
    (∀ c ∈ (main (samplePlatform true true true none none) []).w.trace,
      c.fn ≠ "glDeleteProgram") ∧
    (main (samplePlatform true true true none none) []).g.gProgramId = 1 ∧
    (main (samplePlatform true true true none none) []).w.live 1 = true := by
  refine ⟨by decide, by decide, ?_, by decide, by decide⟩
  exact failure_exit_never_releases _ _ (by decide)

/-! ## Claims about the uniform names -/

theorem foldl_exec_subset (g : Globals) (stmts : List Stmt) (s : RenderState) (c : Call)
    (hc : c ∈ s.w.trace) : c ∈ (stmts.foldl (Stmt.exec g) s).w.trace :=
  (extends_foldl_exec g.gProgramId g stmts s).subset hc

theorem useTexture_lookup_in_foldl (g : Globals) (v : Int) (stmts : List Stmt)
    (h : Stmt.useTexture v ∈ stmts) (s : RenderState) :
    ⟨"glGetUniformLocation", [.name g.gProgramId, .text "useTexture"]⟩ ∈
      (stmts.foldl (Stmt.exec g) s).w.trace := by
  induction stmts generalizing s with
  | nil => simp at h
  | cons stmt rest ih =>
    rcases List.mem_cons.1 h with h | h
    · subst h
      exact foldl_exec_subset g rest _ _ (by simp [Stmt.exec, World.emit])
    · exact ih h _

/-- C10 fails on the code: whatever the state, `URender` passes the name `useTexture` to
`glGetUniformLocation`, and `useTexture` is neither one of the recognized uniform names nor
declared by the vertex or the fragment shader source. -/
theorem URender_looks_up_undeclared_useTexture (a : App) :
    "useTexture" ∈ uniformNamesQueried (URender a).w.trace ∧
    "useTexture" ∉ recognizedUniforms ∧
    "useTexture" ∉ vertexShaderUniforms ++ fragmentShaderUniforms := by
  refine ⟨?_, by decide, by decide⟩
  have hmem : Stmt.useTexture 0 ∈ URenderSections.flatten :=
    List.mem_flatten.2 ⟨boxSection "0.9f" "0.9f" "0.7f" "1.0f",
      by simp [URenderSections], by simp [boxSection]⟩
  have hcall : (⟨"glGetUniformLocation", [.name a.g.gProgramId, .text "useTexture"]⟩ : Call) ∈
      (URender a).w.trace := by
    simp only [URender, World.emit, List.mem_append]
    exact Or.inl (useTexture_lookup_in_foldl a.g 0 _ hmem _)
  exact List.mem_filterMap.2 ⟨_, hcall, rfl⟩

/-! ## The parts of one frame -/

theorem kept_refl (a : App) : Kept a a :=
  ⟨rfl, rfl, rfl, rfl, rfl, rfl⟩

theorem kept_trans {a b c : App} (h1 : Kept a b) (h2 : Kept b c) : Kept a c :=
  ⟨h2.1.trans h1.1, h2.2.1.trans h1.2.1, h2.2.2.1.trans h1.2.2.1,
    h2.2.2.2.1.trans h1.2.2.2.1, h2.2.2.2.2.1.trans h1.2.2.2.2.1,
    h2.2.2.2.2.2.trans h1.2.2.2.2.2⟩

theorem During.rfl_step (Q : Call → Prop) (a : App) : During Q a a :=
  ⟨kept_refl a, Extends.refl Q a.w⟩

theorem During.then {Q : Call → Prop} {a b c : App} (h1 : During Q a b) (h2 : During Q b c) :
    During Q a c :=
  ⟨kept_trans h1.1 h2.1, h1.2.trans h2.2⟩

theorem During.weaken {Q R : Call → Prop} {a b : App} (h : ∀ c, Q c → R c)
    (d : During Q a b) : During R a b :=
  ⟨d.1, d.2.mono h⟩

theorem during_emit (Q : Call → Prop) (a : App) (fn : String) (args : List Arg)
    (q : Q ⟨fn, args⟩) : During Q a { a with w := a.w.emit fn args } :=
  ⟨kept_refl a, Extends.emit_call a.w fn args q⟩

theorem during_moveOnKey (f : FrameInput) (key : Key) (direction : String) (a : App) :
    During (InputCall a.g.gDeltaTime) a (moveOnKey f key direction a) := by
  simp only [moveOnKey, glfwGetKey]
  split
  · exact ⟨kept_refl a, (Extends.emit_call _ _ _ (by simp [InputCall, inputFunctions])).trans
      (Extends.emit_call _ _ _ (by simp [InputCall, inputFunctions]))⟩
  · exact ⟨kept_refl a, Extends.emit_call _ _ _ (by simp [InputCall, inputFunctions])⟩

theorem input_chain (a b : App) (F : App → App)
    (h1 : During (InputCall a.g.gDeltaTime) a b)
    (hF : ∀ x, During (InputCall x.g.gDeltaTime) x (F x)) :
    During (InputCall a.g.gDeltaTime) a (F b) := by
  have h := hF b
  rw [h1.1.2.2.2.1] at h
  exact h1.then h

theorem during_UProcessInput (f : FrameInput) (a : App) :
    During (InputCall a.g.gDeltaTime) a (UProcessInput f a) := by
  have h0 : ∀ a : App, During (InputCall a.g.gDeltaTime) a
      (⟨a.g, if decide (Key.ESCAPE ∈ f.keys) = true then
        { (World.emit (a.w.emit "glfwGetKey" [Key.ESCAPE.sym]) "glfwSetWindowShouldClose"
            [.sym "true"]) with windowShouldClose := true }
        else a.w.emit "glfwGetKey" [Key.ESCAPE.sym]⟩ : App) := by
    intro a
    refine ⟨⟨rfl, rfl, rfl, rfl, rfl, ?_⟩, ?_⟩
    · show World.textures (if _ then _ else _) = _
      split <;> rfl
    · show Extends _ _ (if _ then _ else _)
      split
      · exact Extends.of_trace [⟨"glfwGetKey", [Key.ESCAPE.sym]⟩,
          ⟨"glfwSetWindowShouldClose", [.sym "true"]⟩] (by simp [World.emit])
          (by simp [InputCall, inputFunctions])
      · exact Extends.emit_call _ _ _ (by simp [InputCall, inputFunctions])
  have hO : ∀ a : App, During (InputCall a.g.gDeltaTime) a
      (⟨if decide (Key.O ∈ f.keys) = true then { a.g with orthoViewToggle := true } else a.g,
        a.w.emit "glfwGetKey" [Key.O.sym]⟩ : App) := by
    intro a
    refine ⟨?_, Extends.emit_call _ _ _ (by simp [InputCall, inputFunctions])⟩
    show Kept a ⟨if _ then _ else _, _⟩
    split <;> exact ⟨rfl, rfl, rfl, rfl, rfl, rfl⟩
  have hP : ∀ a : App, During (InputCall a.g.gDeltaTime) a
      (⟨if decide (Key.P ∈ f.keys) = true then { a.g with orthoViewToggle := false } else a.g,
        a.w.emit "glfwGetKey" [Key.P.sym]⟩ : App) := by
    intro a
    refine ⟨?_, Extends.emit_call _ _ _ (by simp [InputCall, inputFunctions])⟩
    show Kept a ⟨if _ then _ else _, _⟩
    split <;> exact ⟨rfl, rfl, rfl, rfl, rfl, rfl⟩
  have h1 := h0 a
  have h2 := input_chain a _ (moveOnKey f .W "FORWARD") h1 (during_moveOnKey f .W "FORWARD")
  have h3 := input_chain a _ (moveOnKey f .S "BACKWARD") h2 (during_moveOnKey f .S "BACKWARD")
  have h4 := input_chain a _ (moveOnKey f .A "LEFT") h3 (during_moveOnKey f .A "LEFT")
  have h5 := input_chain a _ (moveOnKey f .D "RIGHT") h4 (during_moveOnKey f .D "RIGHT")
  have h6 := input_chain a _ (moveOnKey f .Q "UP") h5 (during_moveOnKey f .Q "UP")
  have h7 := input_chain a _ (moveOnKey f .E "DOWN") h6 (during_moveOnKey f .E "DOWN")
  have h8 := input_chain a _
    (fun a : App =>
      (⟨if decide (Key.O ∈ f.keys) = true then { a.g with orthoViewToggle := true } else a.g,
        a.w.emit "glfwGetKey" [Key.O.sym]⟩ : App)) h7 hO
  have h9 := input_chain a _
    (fun a : App =>
      (⟨if decide (Key.P ∈ f.keys) = true then { a.g with orthoViewToggle := false } else a.g,
        a.w.emit "glfwGetKey" [Key.P.sym]⟩ : App)) h8 hP
  exact h9

theorem during_dispatch (a : App) (e : InputEvent) : During PollCall a (dispatch a e) := by
  cases e with
  | resize width height =>
    exact ⟨kept_refl a, Extends.emit_call _ _ _ (by simp [PollCall, pollFunctions])⟩
  | cursor xpos ypos =>
    refine ⟨?_, Extends.emit_call _ _ _ (by simp [PollCall, pollFunctions])⟩
    simp only [dispatch, UMousePositionCallback]
    split <;> exact ⟨rfl, rfl, rfl, rfl, rfl, rfl⟩
  | scroll xoffset yoffset =>
    exact ⟨kept_refl a, Extends.emit_call _ _ _ (by simp [PollCall, pollFunctions])⟩
  | button button action mods =>
    simp only [dispatch, UMouseButtonCallback, cout]
    repeat' split
    all_goals exact ⟨kept_refl a, Extends.emit_call _ _ _ (by simp [PollCall, pollFunctions])⟩
  | close => exact ⟨⟨rfl, rfl, rfl, rfl, rfl, rfl⟩, ⟨[], by simp [dispatch], by simp⟩⟩

theorem during_foldl_dispatch (events : List InputEvent) (a : App) :
    During PollCall a (events.foldl dispatch a) := by
  induction events generalizing a with
  | nil => exact During.rfl_step _ _
  | cons e es ih => exact (during_dispatch a e).then (ih _)

theorem during_glfwPollEvents (events : List InputEvent) (a : App) :
    During PollCall a (glfwPollEvents events a) :=
  (during_emit PollCall a "glfwPollEvents" [] (by simp [PollCall, pollFunctions])).then
    (during_foldl_dispatch events _)

theorem glBindTexture_textures (t : Nat) (w : World) :
    (glBindTexture t w).textures = w.textures := by
  simp only [glBindTexture, World.emit]
  split <;> rfl

theorem glUseProgram_textures (p : Nat) (w : World) :
    (glUseProgram p w).textures = w.textures := by
  simp only [glUseProgram, World.emit]
  split <;> rfl

theorem body_Stmt_exec (g : Globals) (s : RenderState) (stmt : Stmt) :
    (stmt.exec g s).w.textures = s.w.textures ∧ Extends BodyCall s.w (stmt.exec g s).w := by
  cases stmt with
  | glBindVertexArray m =>
    cases m <;> exact ⟨rfl, Extends.emit_call _ _ _ (by simp [BodyCall, bodyFunctions])⟩
  | setHasTextureVal b => exact ⟨rfl, Extends.refl _ _⟩
  | uploadHasTexture => exact ⟨rfl, Extends.emit_call _ _ _ (by simp [BodyCall, bodyFunctions])⟩
  | glActiveTexture => exact ⟨rfl, Extends.emit_call _ _ _ (by simp [BodyCall, bodyFunctions])⟩
  | glBindTexture t =>
    exact ⟨glBindTexture_textures _ _,
      Extends.of_trace _ (glBindTexture_trace _ _) (by simp [BodyCall, bodyFunctions])⟩
  | glEnableBlend => exact ⟨rfl, Extends.emit_call _ _ _ (by simp [BodyCall, bodyFunctions])⟩
  | glBlendFunc => exact ⟨rfl, Extends.emit_call _ _ _ (by simp [BodyCall, bodyFunctions])⟩
  | uploadModel => exact ⟨rfl, Extends.emit_call _ _ _ (by simp [BodyCall, bodyFunctions])⟩
  | programObjectColor r g2 b a =>
    exact ⟨rfl, Extends.emit_call _ _ _ (by simp [BodyCall, bodyFunctions])⟩
  | useTexture v =>
    exact ⟨rfl, (Extends.emit_call _ _ _ (by simp [BodyCall, bodyFunctions])).trans
      (Extends.emit_call _ _ _ (by simp [BodyCall, bodyFunctions]))⟩
  | objectColor r g2 b a =>
    exact ⟨rfl, (Extends.emit_call _ _ _ (by simp [BodyCall, bodyFunctions])).trans
      (Extends.emit_call _ _ _ (by simp [BodyCall, bodyFunctions]))⟩
  | glDrawElements m =>
    exact ⟨rfl, Extends.emit_call _ _ _ (by simp [BodyCall, bodyFunctions])⟩

theorem body_foldl_exec (g : Globals) (stmts : List Stmt) (s : RenderState) :
    (stmts.foldl (Stmt.exec g) s).w.textures = s.w.textures ∧
      Extends BodyCall s.w (stmts.foldl (Stmt.exec g) s).w := by
  induction stmts generalizing s with
  | nil => exact ⟨rfl, Extends.refl _ _⟩
  | cons stmt rest ih =>
    have h1 := body_Stmt_exec g s stmt
    have h2 := ih (stmt.exec g s)
    exact ⟨h2.1.trans h1.1, h1.2.trans h2.2⟩

theorem emit_trace (w : World) (fn : String) (args : List Arg) :
    (w.emit fn args).trace = w.trace ++ [⟨fn, args⟩] :=
  rfl

theorem emit_textures (w : World) (fn : String) (args : List Arg) :
    (w.emit fn args).textures = w.textures :=
  rfl

theorem URender_eq (a : App) :
    URender a =
      ⟨a.g, World.emit
        (URenderSections.flatten.foldl (Stmt.exec a.g) ⟨false, URenderHeaderWorld a⟩).w
        "glfwSwapBuffers" []⟩ :=
  rfl

theorem URenderHeaderWorld_trace (a : App) :
    (URenderHeaderWorld a).trace =
      a.w.trace ++ (URenderSetupCalls a.g ++ URenderLookupCalls a.g ++
        [viewUpload, projectionUpload] ++ URenderLightCalls) := by
  cases ho : a.g.orthoViewToggle <;>
  simp [URenderHeaderWorld, ho, World.emit, World.emitAll, glUseProgram_trace, URenderSetupCalls,
    URenderLookupCalls, URenderLightCalls, viewUpload, projectionUpload, projectionCall]

theorem URenderHeaderWorld_textures (a : App) :
    (URenderHeaderWorld a).textures = a.w.textures := by
  simp only [URenderHeaderWorld, World.emitAll, World.emit, glUseProgram_textures]
  split <;> rfl

theorem URender_trace (a : App) :
    ∃ body, (URender a).w.trace =
        a.w.trace ++ (URenderSetupCalls a.g ++ URenderLookupCalls a.g ++
          [viewUpload, projectionUpload] ++ URenderLightCalls ++ body ++
          [⟨"glfwSwapBuffers", []⟩]) ∧
      ∀ c ∈ body, BodyCall c := by
  obtain ⟨body, hb, hq⟩ :=
    (body_foldl_exec a.g URenderSections.flatten ⟨false, URenderHeaderWorld a⟩).2
  refine ⟨body, ?_, hq⟩
  rw [URender_eq]
  simp only [emit_trace]
  rw [hb, URenderHeaderWorld_trace]
  simp only [List.append_assoc]

theorem URender_kept (a : App) : Kept a (URender a) := by
  refine ⟨rfl, rfl, rfl, rfl, rfl, ?_⟩
  rw [URender_eq]
  simp only [emit_textures]
  rw [(body_foldl_exec a.g URenderSections.flatten _).1, URenderHeaderWorld_textures]

theorem frame_eq (f : FrameInput) (a : App) :
    frame f a = glfwPollEvents f.events (URender (renderEntry f a)) :=
  rfl

theorem renderEntry_during (f : FrameInput) (a : App) :
    (renderEntry f a).g.gProgramId = a.g.gProgramId ∧
    (renderEntry f a).g.gTextureIdCase = a.g.gTextureIdCase ∧
    (renderEntry f a).g.gTextureIdLogo = a.g.gTextureIdLogo ∧
    (renderEntry f a).g.gDeltaTime = f.time - a.g.gLastFrame ∧
    (renderEntry f a).g.gLastFrame = f.time ∧
    (renderEntry f a).w.textures = a.w.textures ∧
    ∃ input, (renderEntry f a).w.trace =
        a.w.trace ++ ([⟨"glfwGetTime", []⟩, ⟨"UProcessInput", []⟩] ++ input ++
          [⟨"URender", []⟩]) ∧
      ∀ c ∈ input, InputCall (f.time - a.g.gLastFrame) c := by
  have h := during_UProcessInput f
    ⟨{ a.g with gDeltaTime := f.time - a.g.gLastFrame, gLastFrame := f.time },
      World.emit (a.w.emit "glfwGetTime" []) "UProcessInput" []⟩
  obtain ⟨⟨k1, k2, k3, k4, k5, k6⟩, input, ht, hq⟩ := h
  refine ⟨k1, k2, k3, k4, k5, k6, input, ?_, hq⟩
  show (World.emit (UProcessInput f _).w "URender" []).trace = _
  rw [emit_trace, ht]
  simp [World.emit]

theorem frame_parts (f : FrameInput) (a : App) :
    Kept (renderEntry f a) (frame f a) ∧
    ∃ input body poll,
      (frame f a).w.trace =
        a.w.trace ++ ([⟨"glfwGetTime", []⟩, ⟨"UProcessInput", []⟩] ++ input ++
          [⟨"URender", []⟩] ++
          URenderSetupCalls (renderEntry f a).g ++ URenderLookupCalls (renderEntry f a).g ++
          [viewUpload, projectionUpload] ++ URenderLightCalls ++ body ++
          [⟨"glfwSwapBuffers", []⟩] ++ poll) ∧
      (∀ c ∈ input, InputCall (f.time - a.g.gLastFrame) c) ∧
      (∀ c ∈ body, BodyCall c) ∧
      (∀ c ∈ poll, PollCall c) := by
  obtain ⟨_, _, _, _, _, _, input, hi, qi⟩ := renderEntry_during f a
  obtain ⟨body, hb, qb⟩ := URender_trace (renderEntry f a)
  obtain ⟨kp, poll, hp, qp⟩ := during_glfwPollEvents f.events (URender (renderEntry f a))
  refine ⟨kept_trans (URender_kept _) kp, input, body, poll, ?_, qi, qb, qp⟩
  rw [frame_eq, hp, hb, hi]
  simp only [List.append_assoc]

/-! ## Claims about the frame: projection, timing, ordering, and `UDestroyTexture` -/

/-- C12: in `URender` the projection is built by exactly one call, made by `URender` itself:
`glm::perspective(glm::radians(gCamera.Zoom), 800/600, 0.1, 100)` when `orthoViewToggle` is
false, `glm::ortho(-5, 5, -5, 5, 0.1, 100)`, whose arguments are constants, when it is true; the
zoom is the only camera value among the arguments, and the only method of `gCamera` that
`URender` calls is `GetViewMatrix`. -/
theorem projection_built_by_URender (a : App) :
    ((issued a.w (URender a).w).filter
        (fun c => c.fn = "glm::perspective" ∨ c.fn = "glm::ortho") =
      [projectionCall a.g.orthoViewToggle]) ∧
    projectionCall false =
      ⟨"glm::perspective", [.sym "glm::radians(gCamera.Zoom)", .real (800 / 600), .real (1 / 10),
        .real 100]⟩ ∧
    projectionCall true =
      ⟨"glm::ortho", [.real (-5), .real 5, .real (-5), .real 5, .real (1 / 10), .real 100]⟩ ∧
    ((issued a.w (URender a).w).filter (fun c => c.fn ∈ cameraMethods) =
      [⟨"gCamera.GetViewMatrix", []⟩]) := by
  obtain ⟨body, hb, qb⟩ := URender_trace a
  have hi : issued a.w (URender a).w =
      URenderSetupCalls a.g ++ URenderLookupCalls a.g ++
          [viewUpload, projectionUpload] ++ URenderLightCalls ++ body ++
          [⟨"glfwSwapBuffers", []⟩] := by
    simp [issued, hb]
  have hbody1 : body.filter (fun c => c.fn = "glm::perspective" ∨ c.fn = "glm::ortho") = [] := by
    rw [List.filter_eq_nil_iff]
    intro c hc
    have h := (qb c hc).1
    simp only [decide_eq_true_eq]
    rintro (h2 | h2) <;> · rw [h2] at h; simp [bodyFunctions] at h
  have hbody2 : body.filter (fun c => c.fn ∈ cameraMethods) = [] := by
    rw [List.filter_eq_nil_iff]
    intro c hc
    have h := (qb c hc).1
    simp only [bodyFunctions, List.mem_cons, List.mem_singleton, List.not_mem_nil, or_false] at h
    rcases h with h | h | h | h | h | h | h | h | h | h | h <;> · rw [h]; simp [cameraMethods]
  refine ⟨?_, ?_, ?_, ?_⟩
  · rw [hi]
    simp only [List.filter_append, hbody1]
    cases ho : a.g.orthoViewToggle <;>
    simp [ho, URenderSetupCalls, URenderLookupCalls, URenderLightCalls, viewUpload,
      projectionUpload, projectionCall, URenderLookups, List.filter_cons]
  · simp [projectionCall, WINDOW_WIDTH, WINDOW_HEIGHT]
    norm_num
  · simp [projectionCall]
    norm_num
  · rw [hi]
    simp only [List.filter_append, hbody2]
    cases ho : a.g.orthoViewToggle <;>
    simp [ho, URenderSetupCalls, URenderLookupCalls, URenderLightCalls, viewUpload,
      projectionUpload, projectionCall, URenderLookups, List.filter_cons, cameraMethods]

/-- C19: for every `textureId`, `UDestroyTexture` issues exactly one call, `glGenTextures(1, ..)`
on its own copy of the id, and no `glDeleteTextures`: a texture name that was generated is
still generated afterwards (also after the statements that end `main`), and only the world is
changed, the caller's `textureId` is not. -/
theorem UDestroyTexture_generates_instead_of_deleting (textureId : Nat) (w : World) (a : App) :
    issued w (UDestroyTexture textureId w) = [⟨"glGenTextures", [.int 1]⟩] ∧
    (∀ c ∈ issued w (UDestroyTexture textureId w), c.fn ≠ "glDeleteTextures") ∧
    (w.textures textureId = true → (UDestroyTexture textureId w).textures textureId = true) ∧
    (a.w.textures a.g.gTextureIdCase = true →
      (shutdownWorld a).textures a.g.gTextureIdCase = true) ∧
    (a.w.textures a.g.gTextureIdLogo = true →
      (shutdownWorld a).textures a.g.gTextureIdLogo = true) ∧
    (∀ c ∈ issued a.w (shutdownWorld a), c.fn ≠ "glDeleteTextures") := by
  have key : ∀ (id : Nat) (w : World) (n : Nat), w.textures n = true →
      (UDestroyTexture id w).textures n = true := by
    intro id w n h
    simp only [UDestroyTexture, glGenTextures, World.emit, Function.update_apply]
    split
    · rfl
    · exact h
  have hdp : ∀ (p : Nat) (w : World), (glDeleteProgram p w).textures = w.textures := by
    intro p w
    simp only [glDeleteProgram, World.emit]
    split <;> [split; skip] <;> rfl
  refine ⟨?_, ?_, key textureId w textureId, ?_, ?_, ?_⟩
  · simp [issued, UDestroyTexture, glGenTextures, World.emit]
  · simp [issued, UDestroyTexture, glGenTextures, World.emit]
  · intro h
    simp only [shutdownWorld, emit_textures, UDestroyShaderProgram, hdp]
    exact key _ _ _ (key _ _ _ h)
  · intro h
    simp only [shutdownWorld, emit_textures, UDestroyShaderProgram, hdp]
    exact key _ _ _ (key _ _ _ h)
  · intro c hc
    obtain ⟨l, hl, q⟩ := shutdown_extends a
    simp only [issued, hl, List.drop_left] at hc
    intro hfn
    have := (q c hc).1
    rw [hfn] at this
    simp [shutdownFunctions] at this

/-- C19, at an instance: texture 1 is generated in a world; after `UDestroyTexture(1)` it still
is. -/
theorem UDestroyTexture_generates_instead_of_deleting_witness :
    (UDestroyTexture 1 (glGenTextures World.init).2).textures 1 = true :=
  (UDestroyTexture_generates_instead_of_deleting 1 (glGenTextures World.init).2
    ⟨Globals.init, World.init⟩).2.2.1 (by decide)

/-- C20: the calls of one iteration of the render loop come in this order: `glfwGetTime`, the
call of `UProcessInput` with its key polls and keyboard camera moves, the call of `URender`,
whose calls start with the read of the view matrix and the choice of the projection, then
`glUseProgram` and the uniform look-ups, the uploads of `view` and `projection`, the other
uniform uploads, the drawing statements, and end with `glfwSwapBuffers`; `glfwPollEvents` with
its callbacks follows.  So every `ProcessKeyboard` comes before `URender`, no `glDrawElements`
comes before the uploads of `view` and `projection` or after `glfwSwapBuffers`,
`glfwSwapBuffers` is called exactly once, and no camera update lies between the read of the
view matrix and the buffer swap. -/
theorem frame_order (f : FrameInput) (a : App) :
    ∃ input body poll,
      issued a.w (frame f a).w =
        [⟨"glfwGetTime", []⟩, ⟨"UProcessInput", []⟩] ++ input ++ [⟨"URender", []⟩] ++
          URenderSetupCalls (renderEntry f a).g ++ URenderLookupCalls (renderEntry f a).g ++
          [viewUpload, projectionUpload] ++ URenderLightCalls ++ body ++
          [⟨"glfwSwapBuffers", []⟩] ++ poll ∧
      (∀ c ∈ input, c.fn ∈ inputFunctions) ∧
      (∀ c ∈ body, c.fn ∈ bodyFunctions) ∧
      (∀ c ∈ poll, c.fn ∈ pollFunctions) ∧
      (⟨"gCamera.GetViewMatrix", []⟩ : Call) ∈ URenderSetupCalls (renderEntry f a).g ∧
      (∀ c ∈ [⟨"glfwGetTime", []⟩, ⟨"UProcessInput", []⟩] ++ input ++ [⟨"URender", []⟩] ++
          URenderSetupCalls (renderEntry f a).g ++ URenderLookupCalls (renderEntry f a).g,
        c.fn ≠ "glDrawElements" ∧ c.fn ≠ "glfwSwapBuffers") ∧
      (∀ c ∈ [viewUpload, projectionUpload] ++ URenderLightCalls ++ body,
        c.fn ≠ "glfwSwapBuffers" ∧ c.fn ≠ "gCamera.ProcessKeyboard") ∧
      (∀ c ∈ URenderSetupCalls (renderEntry f a).g ++ URenderLookupCalls (renderEntry f a).g ++
          [viewUpload, projectionUpload] ++ URenderLightCalls ++ body ++
          [⟨"glfwSwapBuffers", []⟩], c.fn ∉ cameraUpdates) ∧
      (∀ c ∈ poll, c.fn ≠ "glDrawElements" ∧ c.fn ≠ "glfwSwapBuffers" ∧
        c.fn ≠ "gCamera.ProcessKeyboard") := by
  obtain ⟨_, input, body, poll, ht, qi, qb, qp⟩ := frame_parts f a
  have hsetup : ∀ c ∈ URenderSetupCalls (renderEntry f a).g,
      c.fn ≠ "glDrawElements" ∧ c.fn ≠ "glfwSwapBuffers" ∧ c.fn ∉ cameraUpdates := by
    intro c h
    simp only [URenderSetupCalls, projectionCall, List.mem_cons, List.mem_singleton,
      List.not_mem_nil, or_false] at h
    rcases h with h | h | h | h | h
    · rw [h]; simp [cameraUpdates]
    · rw [h]; simp [cameraUpdates]
    · rw [h]; simp [cameraUpdates]
    · rw [h]; simp [cameraUpdates]
    · rw [h]; split <;> simp [cameraUpdates]
  have hlookup : ∀ c ∈ URenderLookupCalls (renderEntry f a).g,
      c.fn ≠ "glDrawElements" ∧ c.fn ≠ "glfwSwapBuffers" ∧ c.fn ∉ cameraUpdates := by
    intro c h
    simp only [URenderLookupCalls, List.mem_cons, List.mem_map] at h
    rcases h with h | ⟨n, _, h⟩
    · rw [h]; simp [cameraUpdates]
    · rw [← h]; simp [cameraUpdates]
  have hupload : ∀ c ∈ [viewUpload, projectionUpload] ++ URenderLightCalls,
      c.fn ≠ "glfwSwapBuffers" ∧ c.fn ≠ "gCamera.ProcessKeyboard" ∧ c.fn ∉ cameraUpdates := by
    intro c h
    simp only [URenderLightCalls, viewUpload, projectionUpload, List.mem_append, List.mem_cons,
      List.mem_singleton, List.not_mem_nil, or_false] at h
    rcases h with (h | h) | h | h | h | h | h | h | h | h | h | h | h <;>
    · rw [h]; simp [cameraUpdates]
  have hbody : ∀ c ∈ body,
      c.fn ≠ "glfwSwapBuffers" ∧ c.fn ≠ "gCamera.ProcessKeyboard" ∧ c.fn ∉ cameraUpdates := by
    intro c h
    have hm := (qb c h).1
    refine ⟨?_, ?_, ?_⟩
    · intro hfn; rw [hfn] at hm; simp [bodyFunctions] at hm
    · intro hfn; rw [hfn] at hm; simp [bodyFunctions] at hm
    · intro hcam
      simp only [cameraUpdates, List.mem_cons, List.mem_singleton, List.not_mem_nil,
        or_false] at hcam
      rcases hcam with hfn | hfn | hfn <;> · rw [hfn] at hm; simp [bodyFunctions] at hm
  have hinput : ∀ c ∈ input, c.fn ≠ "glDrawElements" ∧ c.fn ≠ "glfwSwapBuffers" := by
    intro c h
    have hm := (qi c h).1
    constructor <;> · intro hfn; rw [hfn] at hm; simp [inputFunctions] at hm
  have hpoll : ∀ c ∈ poll, c.fn ≠ "glDrawElements" ∧ c.fn ≠ "glfwSwapBuffers" ∧
      c.fn ≠ "gCamera.ProcessKeyboard" := by
    intro c h
    have hm : c.fn ∈ pollFunctions := qp c h
    refine ⟨?_, ?_, ?_⟩ <;> · intro hfn; rw [hfn] at hm; simp [pollFunctions] at hm
  refine ⟨input, body, poll, ?_, fun c h => (qi c h).1, fun c h => (qb c h).1, qp, ?_, ?_, ?_, ?_,
    hpoll⟩
  · simp only [issued, ht, List.drop_left]
  · simp [URenderSetupCalls]
  · intro c h
    simp only [List.mem_append, List.mem_cons, List.mem_singleton, List.not_mem_nil,
      or_false] at h
    rcases h with (((h | h) | h) | h) | h
    · rcases h with h | h <;> · rw [h]; simp
    · exact hinput c h
    · rw [h]; simp
    · exact ⟨(hsetup c h).1, (hsetup c h).2.1⟩
    · exact ⟨(hlookup c h).1, (hlookup c h).2.1⟩
  · intro c h
    rcases List.mem_append.1 h with h | h
    · exact ⟨(hupload c h).1, (hupload c h).2.1⟩
    · exact ⟨(hbody c h).1, (hbody c h).2.1⟩
  · intro c h
    simp only [List.mem_append, List.mem_singleton] at h
    rcases h with ((((h | h) | h) | h) | h) | h
    · exact (hsetup c h).2.2
    · exact (hlookup c h).2.2
    · exact (hupload c (List.mem_append.2 (Or.inl h))).2.2
    · exact (hupload c (List.mem_append.2 (Or.inr h))).2.2
    · exact (hbody c h).2.2
    · rw [h]; simp [cameraUpdates]

/-! ## The draws of `URender` -/

theorem observe_state (g : Globals) (stmts : List Stmt) (o : RenderObs) :
    (stmts.foldl (Stmt.observe g) o).s = stmts.foldl (Stmt.exec g) o.s := by
  induction stmts generalizing o with
  | nil => rfl
  | cons stmt rest ih =>
    simp only [List.foldl_cons]
    rw [ih]
    cases stmt <;> rfl

theorem agrees_step (g : Globals) (s : AbsState) (o : RenderObs) (stmt : Stmt)
    (h : Agrees g s o) (hd : ∀ m, stmt ≠ .glDrawElements m) :
    Agrees g (s.step stmt) (stmt.observe g o) ∧ (stmt.observe g o).draws = o.draws := by
  obtain ⟨h1, h2, h3, h4, h5, h6⟩ := h
  cases stmt with
  | glBindVertexArray m => cases m <;> exact ⟨⟨h1, h2, h3, h4, h5, h6⟩, rfl⟩
  | setHasTextureVal b => exact ⟨⟨rfl, h2, h3, h4, h5, h6⟩, rfl⟩
  | uploadHasTexture =>
    refine ⟨⟨h1, ?_, h3, h4, h5, h6⟩, rfl⟩
    intro b hb
    simp only [AbsState.step, Option.some.injEq] at hb
    simp only [Stmt.observe]
    rw [h1, hb]
  | glActiveTexture => exact ⟨⟨h1, h2, fun _ => rfl, h4, h5, h6⟩, rfl⟩
  | glBindTexture t =>
    refine ⟨⟨h1, h2, h3, ?_, ?_, ?_⟩, rfl⟩
    · intro t2 ht
      simp only [AbsState.step, Option.some.injEq] at ht
      subst ht
      simp only [Stmt.observe, Stmt.exec, glBindTexture, World.emit]
      cases t
      · simp [TexRef.name]
      · simp [TexRef.name, h5]
      · simp [TexRef.name, h6]
    · simp only [Stmt.observe, Stmt.exec, glBindTexture_textures]; exact h5
    · simp only [Stmt.observe, Stmt.exec, glBindTexture_textures]; exact h6
  | glEnableBlend => exact ⟨⟨h1, h2, h3, h4, h5, h6⟩, rfl⟩
  | glBlendFunc => exact ⟨⟨h1, h2, h3, h4, h5, h6⟩, rfl⟩
  | uploadModel => exact ⟨⟨h1, h2, h3, h4, h5, h6⟩, rfl⟩
  | programObjectColor r g2 b a => exact ⟨⟨h1, h2, h3, h4, h5, h6⟩, rfl⟩
  | useTexture v => exact ⟨⟨h1, h2, h3, h4, h5, h6⟩, rfl⟩
  | objectColor r g2 b a => exact ⟨⟨h1, h2, h3, h4, h5, h6⟩, rfl⟩
  | glDrawElements m => exact absurd rfl (hd m)

theorem agrees_draw (g : Globals) (s : AbsState) (o : RenderObs) (m : Mesh)
    (h : Agrees g s o) :
    Agrees g s ((Stmt.glDrawElements m).observe g o) ∧
    ∃ d, ((Stmt.glDrawElements m).observe g o).draws = o.draws ++ [d] ∧
      Matches g ⟨s.uniform, s.unit0, s.bound⟩ d := by
  obtain ⟨h1, h2, h3, h4, h5, h6⟩ := h
  exact ⟨⟨h1, h2, h3, h4, h5, h6⟩, _, rfl, h2, h3, h4⟩

theorem observe_abs (g : Globals) (stmts : List Stmt) (s : AbsState) (o : RenderObs)
    (h : Agrees g s o) :
    ∃ ds, (stmts.foldl (Stmt.observe g) o).draws = o.draws ++ ds ∧
      List.Forall₂ (Matches g) (absDraws s stmts) ds := by
  induction stmts generalizing s o with
  | nil => exact ⟨[], by simp, by simp [absDraws]⟩
  | cons stmt rest ih =>
    by_cases hd : ∃ m, stmt = .glDrawElements m
    · obtain ⟨m, rfl⟩ := hd
      obtain ⟨ha, d, hdr, hm⟩ := agrees_draw g s o m h
      obtain ⟨ds, e, f⟩ := ih s _ ha
      refine ⟨d :: ds, ?_, ?_⟩
      · simp only [List.foldl_cons]
        rw [e, hdr]
        simp
      · simp only [absDraws]
        exact List.Forall₂.cons hm f
    · have hd2 : ∀ m, stmt ≠ .glDrawElements m := fun m hm => hd ⟨m, hm⟩
      obtain ⟨ha, hdr⟩ := agrees_step g s o stmt h hd2
      obtain ⟨ds, e, f⟩ := ih _ _ ha
      refine ⟨ds, ?_, ?_⟩
      · simp only [List.foldl_cons]
        rw [e, hdr]
      · have : absDraws s (stmt :: rest) = absDraws (s.step stmt) rest := by
          cases stmt <;> first | rfl | exact absurd rfl (hd2 _)
        rw [this]
        exact f

theorem forall₂_transfer {α β : Type} {R : α → β → Prop} {A : α → Prop} {B : β → Prop}
    (hAB : ∀ r d, R r d → A r → B d) {l1 : List α} {l2 : List β}
    (h : List.Forall₂ R l1 l2) (hA : ∀ r ∈ l1, A r) : ∀ d ∈ l2, B d := by
  induction h with
  | nil => simp
  | cons hr _ ih =>
    intro d hd
    rcases List.mem_cons.1 hd with rfl | hd
    · exact hAB _ _ hr (hA _ (List.mem_cons_self _ _))
    · exact ih (fun r hr => hA r (List.mem_cons_of_mem _ hr)) d hd

theorem forall₂_count {α β : Type} {R : α → β → Prop} {A : α → Prop} (p : α → Bool)
    (q : β → Bool) (hpq : ∀ r d, R r d → A r → p r = q d) {l1 : List α} {l2 : List β}
    (h : List.Forall₂ R l1 l2) (hA : ∀ r ∈ l1, A r) :
    (l1.filter p).length = (l2.filter q).length := by
  induction h with
  | nil => rfl
  | cons hr _ ih =>
    have ih2 := ih (fun r hr => hA r (List.mem_cons_of_mem _ hr))
    simp only [List.filter_cons, hpq _ _ hr (hA _ (List.mem_cons_self _ _))]
    split <;> simp [ih2]

theorem absDraws_URender_good : ∀ r ∈ absDraws AbsState.entry URenderSections.flatten,
    r.good = true := by
  decide

theorem absDraws_URender_length :
    (absDraws AbsState.entry URenderSections.flatten).length = 68 := by
  decide

theorem absDraws_URender_textured :
    ((absDraws AbsState.entry URenderSections.flatten).filter
      (fun r => r.uniform == some true)).length = 3 := by
  decide

theorem URenderDraws_good (a : App) (hc : a.w.textures a.g.gTextureIdCase = true)
    (hl : a.w.textures a.g.gTextureIdLogo = true) (ubHasTexture : Bool)
    (activeTexture : String) :
    (∀ d ∈ URenderDraws a ubHasTexture activeTexture, d.hasTexture = true →
      d.activeTexture = "GL_TEXTURE0" ∧
      (d.boundTexture2D = a.g.gTextureIdCase ∨ d.boundTexture2D = a.g.gTextureIdLogo)) ∧
    (URenderDraws a ubHasTexture activeTexture).length = 68 ∧
    ((URenderDraws a ubHasTexture activeTexture).filter (fun d => d.hasTexture)).length = 3 := by
  have hag : Agrees a.g AbsState.entry
      ⟨⟨false, URenderHeaderWorld a⟩, ubHasTexture, activeTexture, []⟩ := by
    refine ⟨rfl, ?_, ?_, ?_, ?_, ?_⟩
    · intro b hb; simp [AbsState.entry] at hb
    · intro hb; simp [AbsState.entry] at hb
    · intro t hb; simp [AbsState.entry] at hb
    · show (URenderHeaderWorld a).textures _ = true
      rw [URenderHeaderWorld_textures]; exact hc
    · show (URenderHeaderWorld a).textures _ = true
      rw [URenderHeaderWorld_textures]; exact hl
  obtain ⟨ds, e, f⟩ := observe_abs a.g URenderSections.flatten _ _ hag
  have hds : URenderDraws a ubHasTexture activeTexture = ds := by
    simp only [URenderDraws, e, List.nil_append]
  rw [hds]
  refine ⟨?_, ?_, ?_⟩
  · refine forall₂_transfer ?_ f absDraws_URender_good
    intro r d hm hg ht
    obtain ⟨m1, m2, m3⟩ := hm
    simp only [AbsDraw.good, Bool.or_eq_true, Bool.and_eq_true, beq_iff_eq] at hg
    rcases hg with hg | ⟨⟨_, hu⟩, hb⟩
    · have := m1 _ hg
      rw [ht] at this
      exact absurd this (by decide)
    · refine ⟨m2 hu, ?_⟩
      rcases hb with hb | hb
      · exact Or.inl (m3 _ hb)
      · exact Or.inr (m3 _ hb)
  · rw [← f.length_eq]; exact absDraws_URender_length
  · rw [← forall₂_count (fun r => r.uniform == some true) (fun d => d.hasTexture) ?_ f
      absDraws_URender_good]
    · exact absDraws_URender_textured
    · intro r d hm hg
      obtain ⟨m1, _, _⟩ := hm
      simp only [AbsDraw.good, Bool.or_eq_true, Bool.and_eq_true, beq_iff_eq] at hg
      rcases hg with hg | ⟨⟨hg, _⟩, _⟩
      · show (r.uniform == some true) = d.hasTexture
        rw [m1 _ hg, hg]; rfl
      · show (r.uniform == some true) = d.hasTexture
        rw [m1 _ hg, hg]; rfl

theorem UCreateTexture_textures (P : Platform) (filename : String) (id : Nat) (w : World) :
    (∀ n, w.textures n = true → (UCreateTexture P filename id w).world.textures n = true) ∧
    ((UCreateTexture P filename id w).ok = true →
      (UCreateTexture P filename id w).world.textures (UCreateTexture P filename id w).textureId
        = true) := by
  unfold UCreateTexture
  cases P.stbi_load filename with
  | none => exact ⟨fun n h => h, fun h => absurd h (by simp)⟩
  | some image =>
    have key : ∀ n, w.textures n = true →
        Function.update w.textures w.nextTexture true n = true := by
      intro n h
      rw [Function.update_apply]
      split
      · rfl
      · exact h
    simp only
    split
    · simp only [glBindTexture_textures, emit_textures, glGenTextures, Function.update_same,
        implies_true, and_true]
      exact key
    · split
      · simp only [glBindTexture_textures, emit_textures, glGenTextures, Function.update_same,
          implies_true, and_true]
        exact key
      · simp only [glBindTexture_textures, emit_textures, glGenTextures, cout]
        exact ⟨key, fun h => absurd h (by simp)⟩

theorem loopWorld_textures (P : Platform) (hc : (caseStage P).ok = true)
    (hl : (logoStage P).ok = true) :
    (loopWorld P).textures (caseStage P).textureId = true ∧
    (loopWorld P).textures (logoStage P).textureId = true := by
  have h1 := (UCreateTexture_textures P "casetexture.jpg" Globals.init.gTextureIdCase
    (shaderStage P).world).2 hc
  have h2 := UCreateTexture_textures P "applelogo.png" Globals.init.gTextureIdLogo
    (caseStage P).world
  simp only [loopWorld, emit_textures, glUseProgram_textures]
  exact ⟨h2.1 _ h1, h2.2 hl⟩

theorem loopFrames_kept (frames : List FrameInput) (a : App) :
    ∀ p ∈ loopFrames frames a,
      (renderEntry p.1 p.2).g.gTextureIdCase = a.g.gTextureIdCase ∧
      (renderEntry p.1 p.2).g.gTextureIdLogo = a.g.gTextureIdLogo ∧
      (renderEntry p.1 p.2).w.textures = a.w.textures := by
  induction frames generalizing a with
  | nil => simp [loopFrames]
  | cons f fs ih =>
    intro p hp
    simp only [loopFrames] at hp
    split at hp
    · simp at hp
    · obtain ⟨_, e2, e3, _, _, e6, _⟩ :=
        renderEntry_during f ⟨a.g, a.w.emit "glfwWindowShouldClose" []⟩
      rcases List.mem_cons.1 hp with rfl | hp
      · exact ⟨e2, e3, e6⟩
      · obtain ⟨⟨_, k2, k3, _, _, k6⟩, _⟩ :=
          frame_parts f ⟨a.g, a.w.emit "glfwWindowShouldClose" []⟩
        obtain ⟨i2, i3, i6⟩ := ih _ p hp
        exact ⟨i2.trans (k2.trans e2), i3.trans (k3.trans e3), i6.trans (k6.trans e6)⟩

/-- C11: in every run of `main` in which both textures were created, in every iteration of the
render loop, `URender` issues 68 draws, 3 of them while the uniform `ubHasTexture` is true; at
each of these 3 draws texture unit `GL_TEXTURE0` is selected and the texture bound to
`GL_TEXTURE_2D` is `gTextureIdCase` or `gTextureIdLogo`, the names that `UCreateTexture` wrote,
which are generated textures.  The values the uniform and the texture unit have when `URender`
is entered do not matter. -/
theorem textured_draws_have_texture_bound (P : Platform) (frames : List FrameInput)
    (hc : (caseStage P).ok = true) (hl : (logoStage P).ok = true)
    (f : FrameInput) (a : App)
    (hp : (f, a) ∈ loopFrames frames ⟨loopGlobals P, loopWorld P⟩)
    (ubHasTexture : Bool) (activeTexture : String) :
    (renderEntry f a).g.gTextureIdCase = (caseStage P).textureId ∧
    (renderEntry f a).g.gTextureIdLogo = (logoStage P).textureId ∧
    (renderEntry f a).w.textures (caseStage P).textureId = true ∧
    (renderEntry f a).w.textures (logoStage P).textureId = true ∧
    (∀ d ∈ URenderDraws (renderEntry f a) ubHasTexture activeTexture, d.hasTexture = true →
      d.activeTexture = "GL_TEXTURE0" ∧
      (d.boundTexture2D = (caseStage P).textureId ∨
        d.boundTexture2D = (logoStage P).textureId)) ∧
    (URenderDraws (renderEntry f a) ubHasTexture activeTexture).length = 68 ∧
    ((URenderDraws (renderEntry f a) ubHasTexture activeTexture).filter
      (fun d => d.hasTexture)).length = 3 ∧
    (URender (renderEntry f a)).w =
      World.emit
        (URenderSections.flatten.foldl (Stmt.observe (renderEntry f a).g)
          ⟨⟨false, URenderHeaderWorld (renderEntry f a)⟩, ubHasTexture, activeTexture, []⟩).s.w
        "glfwSwapBuffers" [] := by
  obtain ⟨e2, e3, e6⟩ := loopFrames_kept frames _ (f, a) hp
  have e2 : (renderEntry f a).g.gTextureIdCase = (caseStage P).textureId := e2
  have e3 : (renderEntry f a).g.gTextureIdLogo = (logoStage P).textureId := e3
  have e6 : (renderEntry f a).w.textures = (loopWorld P).textures := e6
  obtain ⟨t1, t2⟩ := loopWorld_textures P hc hl
  have v1 : (renderEntry f a).w.textures (renderEntry f a).g.gTextureIdCase = true := by
    rw [e2, e6]; exact t1
  have v2 : (renderEntry f a).w.textures (renderEntry f a).g.gTextureIdLogo = true := by
    rw [e3, e6]; exact t2
  obtain ⟨g1, g2, g3⟩ := URenderDraws_good (renderEntry f a) v1 v2 ubHasTexture activeTexture
  rw [e2, e3] at g1
  refine ⟨e2, e3, by rw [e6]; exact t1, by rw [e6]; exact t2, g1, g2, g3, ?_⟩
  rw [observe_state, URender_eq]

/-- C11, at an instance: everything succeeds and one frame is rendered. -/
theorem textured_draws_have_texture_bound_witness :
    (URenderDraws
      (renderEntry (quietFrame 1)
        ⟨loopGlobals goodPlatform,
          (loopWorld goodPlatform).emit "glfwWindowShouldClose" []⟩) false
      "GL_TEXTURE0").length = 68 := by
  have hw : ((loopWorld goodPlatform).emit "glfwWindowShouldClose" []).windowShouldClose
      = false := by decide
  have hp : (quietFrame 1, (⟨loopGlobals goodPlatform,
      (loopWorld goodPlatform).emit "glfwWindowShouldClose" []⟩ : App)) ∈
      loopFrames [quietFrame 1] ⟨loopGlobals goodPlatform, loopWorld goodPlatform⟩ := by
    simp [loopFrames, hw]
  exact (textured_draws_have_texture_bound goodPlatform [quietFrame 1] (by decide) (by decide)
    _ _ hp false "GL_TEXTURE0").2.2.2.2.2.1

/-! ## The camera -/

theorem normalize_of_dot (M : MathLib ℝ) (hM : M.exact) (v : Vec3 ℝ) (k : ℝ) (hk : 0 ≤ k)
    (h : v.dot v = k * k) : v.normalize M = v.scale (1 / k) := by
  obtain ⟨-, -, -, hq⟩ := hM
  simp only [Vec3.normalize, Vec3.length, hq, h, Real.sqrt_mul_self hk]

theorem updateCameraVectors_fields {K : Type} [Field K] (M : MathLib K) (c : Camera K) :
    (c.updateCameraVectors M).Position = c.Position ∧
    (c.updateCameraVectors M).WorldUp = c.WorldUp ∧
    (c.updateCameraVectors M).Yaw = c.Yaw ∧
    (c.updateCameraVectors M).Pitch = c.Pitch ∧
    (c.updateCameraVectors M).MovementSpeed = c.MovementSpeed ∧
    (c.updateCameraVectors M).MouseSensitivity = c.MouseSensitivity ∧
    (c.updateCameraVectors M).Zoom = c.Zoom :=
  ⟨rfl, rfl, rfl, rfl, rfl, rfl, rfl⟩

theorem cos_radians_pos (p : ℝ) (h1 : -89 ≤ p) (h2 : p ≤ 89) :
    0 < Real.cos (p * (Real.pi / 180)) := by
  apply Real.cos_pos_of_mem_Ioo
  constructor <;> nlinarith [Real.pi_pos]

theorem updateCameraVectors_real (M : MathLib ℝ) (hM : M.exact) (c : Camera ℝ)
    (hw : c.WorldUp = ⟨0, 1, 0⟩) (h1 : -89 ≤ c.Pitch) (h2 : c.Pitch ≤ 89) :
    (c.updateCameraVectors M).Front =
      ⟨Real.cos (c.Yaw * (Real.pi / 180)) * Real.cos (c.Pitch * (Real.pi / 180)),
       Real.sin (c.Pitch * (Real.pi / 180)),
       Real.sin (c.Yaw * (Real.pi / 180)) * Real.cos (c.Pitch * (Real.pi / 180))⟩ ∧
    (c.updateCameraVectors M).Right =
      ⟨-Real.sin (c.Yaw * (Real.pi / 180)), 0, Real.cos (c.Yaw * (Real.pi / 180))⟩ ∧
    (c.updateCameraVectors M).Up =
      ⟨-(Real.cos (c.Yaw * (Real.pi / 180)) * Real.sin (c.Pitch * (Real.pi / 180))),
       Real.cos (c.Pitch * (Real.pi / 180)),
       -(Real.sin (c.Yaw * (Real.pi / 180)) * Real.sin (c.Pitch * (Real.pi / 180)))⟩ := by
  have hcp := cos_radians_pos c.Pitch h1 h2
  have hy := Real.cos_sq_add_sin_sq (c.Yaw * (Real.pi / 180))
  have hp := Real.cos_sq_add_sin_sq (c.Pitch * (Real.pi / 180))
  obtain ⟨hc, hs, hr, hq⟩ := id hM
  generalize hcy : Real.cos (c.Yaw * (Real.pi / 180)) = cy at *
  generalize hsy : Real.sin (c.Yaw * (Real.pi / 180)) = sy at *
  generalize hcpe : Real.cos (c.Pitch * (Real.pi / 180)) = cp at *
  generalize hspe : Real.sin (c.Pitch * (Real.pi / 180)) = sp at *
  have hF : (c.updateCameraVectors M).Front = ⟨cy * cp, sp, sy * cp⟩ := by
    show Vec3.normalize M _ = _
    simp only [hc, hs, hr, hcy, hsy, hcpe, hspe]
    rw [normalize_of_dot M hM _ 1 (by norm_num)
      (by simp only [Vec3.dot]; linear_combination cp ^ 2 * hy + hp)]
    simp [Vec3.scale]
  have hR : (c.updateCameraVectors M).Right = ⟨-sy, 0, cy⟩ := by
    show Vec3.normalize M (Vec3.cross (c.updateCameraVectors M).Front c.WorldUp) = _
    rw [hF, hw, normalize_of_dot M hM _ cp hcp.le
      (by simp only [Vec3.dot, Vec3.cross]; linear_combination cp ^ 2 * hy)]
    have hne : cp ≠ 0 := hcp.ne'
    ext <;> simp [Vec3.scale, Vec3.cross] <;> field_simp
  have hU : (c.updateCameraVectors M).Up = ⟨-(cy * sp), cp, -(sy * sp)⟩ := by
    show Vec3.normalize M (Vec3.cross (c.updateCameraVectors M).Right
      (c.updateCameraVectors M).Front) = _
    rw [hF, hR, normalize_of_dot M hM _ 1 (by norm_num)
      (by simp only [Vec3.dot, Vec3.cross]
          linear_combination (sp ^ 2 + cp ^ 2 * (cy ^ 2 + sy ^ 2 + 1)) * hy + hp)]
    ext
    · simp [Vec3.scale, Vec3.cross]
    · simp only [Vec3.scale, Vec3.cross]; linear_combination cp * hy
    · simp [Vec3.scale, Vec3.cross]
  exact ⟨hF, hR, hU⟩

theorem updateCameraVectors_orthonormal (M : MathLib ℝ) (hM : M.exact) (c : Camera ℝ)
    (hw : c.WorldUp = ⟨0, 1, 0⟩) (h1 : -89 ≤ c.Pitch) (h2 : c.Pitch ≤ 89) :
    (c.updateCameraVectors M).Orthonormal M ∧ (c.updateCameraVectors M).Consistent M := by
  obtain ⟨hF, hR, hU⟩ := updateCameraVectors_real M hM c hw h1 h2
  have hy := Real.cos_sq_add_sin_sq (c.Yaw * (Real.pi / 180))
  have hp := Real.cos_sq_add_sin_sq (c.Pitch * (Real.pi / 180))
  obtain ⟨hc, hs, hr, hq⟩ := id hM
  refine ⟨?_, ?_⟩
  · simp only [Camera.Orthonormal, Vec3.length, hF, hR, hU, hq, Vec3.dot]
    generalize Real.cos (c.Yaw * (Real.pi / 180)) = cy at *
    generalize Real.sin (c.Yaw * (Real.pi / 180)) = sy at *
    generalize Real.cos (c.Pitch * (Real.pi / 180)) = cp at *
    generalize Real.sin (c.Pitch * (Real.pi / 180)) = sp at *
    refine ⟨?_, ?_, ?_, ?_, ?_, ?_⟩
    · rw [show cy * cp * (cy * cp) + sp * sp + sy * cp * (sy * cp) = 1 by
        linear_combination cp ^ 2 * hy + hp, Real.sqrt_one]
    · rw [show -sy * -sy + 0 * 0 + cy * cy = 1 by linear_combination hy, Real.sqrt_one]
    · rw [show -(cy * sp) * -(cy * sp) + cp * cp + -(sy * sp) * -(sy * sp) = 1 by
        linear_combination sp ^ 2 * hy + hp, Real.sqrt_one]
    · ring
    · linear_combination (-(cp * sp)) * hy
    · ring
  · simp only [Camera.Consistent, hF, hc, hs, hr]
    rfl

theorem ProcessMouseMovement_pitch {K : Type} [LinearOrderedField K] (M : MathLib K)
    (c : Camera K) (xoffset yoffset : K) :
    (c.ProcessMouseMovement M xoffset yoffset true).Pitch =
      if c.Pitch + yoffset * c.MouseSensitivity > 89 then 89
      else if c.Pitch + yoffset * c.MouseSensitivity < -89 then -89
      else c.Pitch + yoffset * c.MouseSensitivity := by
  simp [Camera.ProcessMouseMovement, Camera.updateCameraVectors]

theorem ProcessMouseMovement_pitch_bounds {K : Type} [LinearOrderedField K] (M : MathLib K)
    (c : Camera K) (xoffset yoffset : K) :
    -89 ≤ (c.ProcessMouseMovement M xoffset yoffset true).Pitch ∧
    (c.ProcessMouseMovement M xoffset yoffset true).Pitch ≤ 89 := by
  rw [ProcessMouseMovement_pitch]
  split_ifs with h1 h2
  · norm_num
  · norm_num
  · exact ⟨not_lt.mp h2, not_lt.mp h1⟩

theorem ProcessMouseMovement_upright {K : Type} [LinearOrderedField K] (M : MathLib K)
    (c : Camera K) (xoffset yoffset : K) (h : c.WorldUp = ⟨0, 1, 0⟩) :
    (c.ProcessMouseMovement M xoffset yoffset true).Upright :=
  ⟨h, ProcessMouseMovement_pitch_bounds M c xoffset yoffset⟩

theorem ProcessMouseMovement_orthonormal (M : MathLib ℝ) (hM : M.exact) (c : Camera ℝ)
    (xoffset yoffset : ℝ) (hw : c.WorldUp = ⟨0, 1, 0⟩) :
    (c.ProcessMouseMovement M xoffset yoffset true).Orthonormal M ∧
    (c.ProcessMouseMovement M xoffset yoffset true).Consistent M := by
  have hb := ProcessMouseMovement_pitch_bounds M c xoffset yoffset
  have hp := ProcessMouseMovement_pitch M c xoffset yoffset
  simp only [Camera.ProcessMouseMovement, if_true] at hb hp ⊢
  exact updateCameraVectors_orthonormal M hM _ hw hb.1 hb.2

theorem moveOnKey_g (f : FrameInput) (key : Key) (direction : String) (a : App) :
    (moveOnKey f key direction a).g = a.g := by
  simp only [moveOnKey, glfwGetKey]
  split <;> rfl

theorem moveOnKey_trace (f : FrameInput) (key : Key) (direction : String) (a : App) :
    (moveOnKey f key direction a).w.trace =
      a.w.trace ++ moveOnKeyCalls f key direction a.g.gDeltaTime := by
  by_cases h : key ∈ f.keys <;> simp [moveOnKey, glfwGetKey, moveOnKeyCalls, World.emit, h]

theorem UProcessInput_trace (f : FrameInput) (a : App) :
    (UProcessInput f a).w.trace = a.w.trace ++ UProcessInputCalls f a.g.gDeltaTime := by
  by_cases h : Key.ESCAPE ∈ f.keys <;>
  simp [UProcessInput, glfwGetKey, UProcessInputCalls, World.emit, h, moveOnKey_trace,
    moveOnKey_g]

theorem UProcessInput_issued (f : FrameInput) (a : App) :
    issued a.w (UProcessInput f a).w = UProcessInputCalls f a.g.gDeltaTime := by
  simp [issued, UProcessInput_trace]

theorem renderEntry_trace (f : FrameInput) (a : App) :
    (renderEntry f a).w.trace =
      a.w.trace ++ ([⟨"glfwGetTime", []⟩, ⟨"UProcessInput", []⟩] ++
        UProcessInputCalls f (f.time - a.g.gLastFrame) ++ [⟨"URender", []⟩]) := by
  simp [renderEntry, UProcessInput_trace, World.emit]

theorem apply_of_not_update {K : Type} [LinearOrderedField K] (M : MathLib K) (c : Camera K)
    (call : Call) (h : call.fn ∉ cameraUpdates) : Camera.apply M c call = c := by
  unfold Camera.apply
  split
  · rename_i h1 _
    simp [cameraUpdates, h1] at h
  · rename_i h1 _
    simp [cameraUpdates, h1] at h
  · rename_i h1 _
    simp [cameraUpdates, h1] at h
  · rfl

theorem replay_of_no_update {K : Type} [LinearOrderedField K] (M : MathLib K) (c : Camera K)
    (calls : List Call) (h : ∀ call ∈ calls, call.fn ∉ cameraUpdates) :
    Camera.replay M c calls = c := by
  induction calls with
  | nil => rfl
  | cons x xs ih =>
    show Camera.replay M (Camera.apply M c x) xs = c
    rw [apply_of_not_update M c x (h x (List.mem_cons_self _ _))]
    exact ih (fun call hc => h call (List.mem_cons_of_mem _ hc))

theorem replay_append {K : Type} [LinearOrderedField K] (M : MathLib K) (c : Camera K)
    (l1 l2 : List Call) :
    Camera.replay M c (l1 ++ l2) = Camera.replay M (Camera.replay M c l1) l2 := by
  simp [Camera.replay, List.foldl_append]

theorem apply_ProcessMouseScroll {K : Type} [LinearOrderedField K] (M : MathLib K)
    (c : Camera K) (yoffset : ℚ) :
    Camera.apply M c ⟨"gCamera.ProcessMouseScroll", [.real yoffset]⟩ =
      c.ProcessMouseScroll (yoffset : K) := by
  simp [Camera.apply]

theorem apply_ProcessMouseMovement {K : Type} [LinearOrderedField K] (M : MathLib K)
    (c : Camera K) (xoffset yoffset : ℚ) :
    Camera.apply M c ⟨"gCamera.ProcessMouseMovement", [.real xoffset, .real yoffset]⟩ =
      c.ProcessMouseMovement M (xoffset : K) (yoffset : K) true := by
  simp [Camera.apply]

theorem apply_cases {K : Type} [LinearOrderedField K] (M : MathLib K) (c : Camera K)
    (call : Call) :
    Camera.apply M c call = c ∨
    (∃ d dt, Camera.apply M c call = c.ProcessKeyboard d dt) ∨
    (∃ x y, Camera.apply M c call = c.ProcessMouseMovement M x y true) ∨
    (∃ y, Camera.apply M c call = c.ProcessMouseScroll y) := by
  unfold Camera.apply
  split
  · split
    · exact Or.inr (Or.inl ⟨_, _, rfl⟩)
    · exact Or.inl rfl
  · exact Or.inr (Or.inr (Or.inl ⟨_, _, rfl⟩))
  · exact Or.inr (Or.inr (Or.inr ⟨_, rfl⟩))
  · exact Or.inl rfl

theorem ProcessMouseScroll_zoom {K : Type} [LinearOrderedField K] (c : Camera K) (yoffset : K) :
    1 ≤ (c.ProcessMouseScroll yoffset).Zoom ∧ (c.ProcessMouseScroll yoffset).Zoom ≤ 45 := by
  simp only [Camera.ProcessMouseScroll]
  split_ifs with h1 h2
  · norm_num
  · norm_num
  · exact ⟨not_lt.mp h1, not_lt.mp h2⟩

theorem ProcessKeyboard_fields {K : Type} [Field K] (c : Camera K) (d : Camera_Movement)
    (dt : K) :
    (c.ProcessKeyboard d dt).Front = c.Front ∧ (c.ProcessKeyboard d dt).Right = c.Right ∧
    (c.ProcessKeyboard d dt).Up = c.Up ∧ (c.ProcessKeyboard d dt).WorldUp = c.WorldUp ∧
    (c.ProcessKeyboard d dt).Yaw = c.Yaw ∧ (c.ProcessKeyboard d dt).Pitch = c.Pitch ∧
    (c.ProcessKeyboard d dt).Zoom = c.Zoom ∧
    (c.ProcessKeyboard d dt).MovementSpeed = c.MovementSpeed := by
  cases d <;> exact ⟨rfl, rfl, rfl, rfl, rfl, rfl, rfl, rfl⟩

theorem apply_zoom {K : Type} [LinearOrderedField K] (M : MathLib K) (c : Camera K)
    (call : Call) (h1 : 1 ≤ c.Zoom) (h2 : c.Zoom ≤ 45) :
    1 ≤ (Camera.apply M c call).Zoom ∧ (Camera.apply M c call).Zoom ≤ 45 := by
  rcases apply_cases M c call with h | ⟨d, dt, h⟩ | ⟨x, y, h⟩ | ⟨y, h⟩
  · rw [h]; exact ⟨h1, h2⟩
  · rw [h, (ProcessKeyboard_fields c d dt).2.2.2.2.2.2.1]; exact ⟨h1, h2⟩
  · rw [h]; exact ⟨h1, h2⟩
  · rw [h]; exact ProcessMouseScroll_zoom c y

theorem replay_zoom {K : Type} [LinearOrderedField K] (M : MathLib K) (calls : List Call)
    (c : Camera K) (h1 : 1 ≤ c.Zoom) (h2 : c.Zoom ≤ 45) :
    1 ≤ (Camera.replay M c calls).Zoom ∧ (Camera.replay M c calls).Zoom ≤ 45 := by
  induction calls generalizing c with
  | nil => exact ⟨h1, h2⟩
  | cons x xs ih => exact ih _ (apply_zoom M c x h1 h2).1 (apply_zoom M c x h1 h2).2

theorem apply_invariant (M : MathLib ℝ) (hM : M.exact) (c : Camera ℝ) (call : Call)
    (h : c.Upright ∧ c.Orthonormal M ∧ c.Consistent M) :
    (Camera.apply M c call).Upright ∧ (Camera.apply M c call).Orthonormal M ∧
      (Camera.apply M c call).Consistent M := by
  rcases apply_cases M c call with e | ⟨d, dt, e⟩ | ⟨x, y, e⟩ | ⟨y, e⟩
  · rw [e]; exact h
  · rw [e]
    obtain ⟨f1, f2, f3, f4, f5, f6, -, -⟩ := ProcessKeyboard_fields c d dt
    simp only [Camera.Upright, Camera.Orthonormal, Camera.Consistent, f1, f2, f3, f4, f5, f6]
    exact h
  · rw [e]
    exact ⟨ProcessMouseMovement_upright M c x y h.1.1,
      ProcessMouseMovement_orthonormal M hM c x y h.1.1⟩
  · rw [e]; exact h

theorem replay_invariant (M : MathLib ℝ) (hM : M.exact) (calls : List Call) (c : Camera ℝ)
    (h : c.Upright ∧ c.Orthonormal M ∧ c.Consistent M) :
    (Camera.replay M c calls).Upright ∧ (Camera.replay M c calls).Orthonormal M ∧
      (Camera.replay M c calls).Consistent M := by
  induction calls generalizing c with
  | nil => exact h
  | cons x xs ih => exact ih _ (apply_invariant M hM c x h)

theorem new_invariant (M : MathLib ℝ) (hM : M.exact) (position : Vec3 ℝ)
    (yaw pitch movementSpeed mouseSensitivity zoom : ℝ) (h1 : -89 ≤ pitch) (h2 : pitch ≤ 89) :
    (Camera.new M position yaw pitch movementSpeed mouseSensitivity zoom).Upright ∧
    (Camera.new M position yaw pitch movementSpeed mouseSensitivity zoom).Orthonormal M ∧
    (Camera.new M position yaw pitch movementSpeed mouseSensitivity zoom).Consistent M :=
  ⟨⟨rfl, h1, h2⟩, updateCameraVectors_orthonormal M hM _ rfl h1 h2⟩

theorem gCamera_vectors (M : MathLib ℝ) (hM : M.exact) (movementSpeed mouseSensitivity zoom : ℝ) :
    (gCamera M movementSpeed mouseSensitivity zoom).Position = ⟨0, 3, 20⟩ ∧
    (gCamera M movementSpeed mouseSensitivity zoom).Front = ⟨0, 0, -1⟩ ∧
    (gCamera M movementSpeed mouseSensitivity zoom).Right = ⟨1, 0, 0⟩ ∧
    (gCamera M movementSpeed mouseSensitivity zoom).Up = ⟨0, 1, 0⟩ := by
  obtain ⟨hF, hR, hU⟩ := updateCameraVectors_real M hM
    { Position := ⟨0, 3, 20⟩, Front := ⟨0, 0, -1⟩, Up := ⟨0, 1, 0⟩, Right := ⟨1, 0, 0⟩,
      WorldUp := ⟨0, 1, 0⟩, Yaw := -90, Pitch := 0, MovementSpeed := movementSpeed,
      MouseSensitivity := mouseSensitivity, Zoom := zoom } rfl (by norm_num) (by norm_num)
  have e : (-90 : ℝ) * (Real.pi / 180) = -(Real.pi / 2) := by ring
  simp only [e, zero_mul, Real.cos_neg, Real.sin_neg, Real.cos_pi_div_two, Real.sin_pi_div_two,
    Real.cos_zero, Real.sin_zero, mul_one, mul_zero, neg_neg, neg_zero] at hF hR hU
  exact ⟨rfl, hF, hR, hU⟩

theorem startup_no_camera_update (P : Platform) :
    ∀ c ∈ (loopWorld P).trace, c.fn ∉ cameraUpdates := by
  have e1 : Extends (fun c => c.fn ∉ cameraUpdates) World.init (startWorld P) :=
    ((init_extends P World.init).mono (by
      intro c h hc
      simp only [cameraUpdates, List.mem_cons, List.mem_singleton, List.not_mem_nil,
        or_false] at hc
      rcases hc with hc | hc | hc <;> (rw [hc] at h; simp [initFunctions] at h))).trans
    (Extends.emit_call _ _ _ (by simp [cameraUpdates]))
  have e2 : Extends (fun c => c.fn ∉ cameraUpdates) (startWorld P) (shaderStage P).world :=
    (create_extends P _ _ _).mono (by
      intro c h hc
      have h := h.1
      simp only [cameraUpdates, List.mem_cons, List.mem_singleton, List.not_mem_nil,
        or_false] at hc
      rcases hc with hc | hc | hc <;> (rw [hc] at h; simp [createFunctions] at h))
  have ht : ∀ (filename : String) (id : Nat) (w : World),
      Extends (fun c => c.fn ∉ cameraUpdates) w (UCreateTexture P filename id w).world := by
    intro filename id w
    refine (texture_extends P filename id w).mono ?_
    intro c h hc
    have h := h.1
    simp only [cameraUpdates, List.mem_cons, List.mem_singleton, List.not_mem_nil,
      or_false] at hc
    rcases hc with hc | hc | hc <;> (rw [hc] at h; simp [textureFunctions] at h)
  have e5 : Extends (fun c => c.fn ∉ cameraUpdates) (logoStage P).world (loopWorld P) := by
    refine Extends.of_issued ?_ ?_ <;>
    simp [loopWorld, issued, World.emit, glUseProgram_trace, cameraUpdates]
  have e := ((e1.trans e2).trans (ht _ _ _)).trans ((ht _ _ _).trans e5)
  intro c hc
  rcases e.mem hc with h | h
  · simp [World.init] at h
  · exact h

theorem UProcessInputCalls_no_update (f : FrameInput) (deltaTime : ℚ)
    (hk : ∀ k ∈ movementKeys, k ∉ f.keys) :
    ∀ c ∈ UProcessInputCalls f deltaTime, c.fn ∉ cameraUpdates := by
  simp only [movementKeys, List.mem_cons, List.mem_singleton, List.not_mem_nil, or_false,
    forall_eq_or_imp, forall_eq] at hk
  obtain ⟨kW, kS, kA, kD, kQ, kE⟩ := hk
  by_cases hE : Key.ESCAPE ∈ f.keys <;>
  simp [UProcessInputCalls, moveOnKeyCalls, kW, kS, kA, kD, kQ, kE, hE, cameraUpdates]

theorem header_no_update (g : Globals) :
    ∀ c ∈ URenderSetupCalls g ++ URenderLookupCalls g ++ [viewUpload, projectionUpload] ++
      URenderLightCalls, c.fn ∉ cameraUpdates := by
  cases ho : g.orthoViewToggle <;>
  simp [URenderSetupCalls, URenderLookupCalls, URenderLightCalls, viewUpload, projectionUpload,
    projectionCall, ho, cameraUpdates] <;>
  · intro a h
    rcases h with ⟨_, _, rfl⟩ | rfl | rfl | rfl | rfl | rfl | rfl | rfl | rfl | rfl | rfl | rfl |
      rfl | rfl <;> simp

theorem replay_singleton {K : Type} [LinearOrderedField K] (M : MathLib K) (c : Camera K)
    (call : Call) : Camera.replay M c [call] = Camera.apply M c call :=
  rfl

/-! ## Claims about the camera

The camera is modelled from the specification; scalars are exact (real numbers, or any ordered
field where no trigonometry is involved), so rounding is not part of these statements. -/

/-- C14: the application's camera, constructed at position (0, 3, 20) with the default yaw of
-90 degrees and pitch of 0 degrees, has front (0, 0, -1), right (1, 0, 0) and up (0, 1, 0), so
`GetViewMatrix()` is the look-at matrix for eye (0, 3, 20), target (0, 3, 19), up (0, 1, 0),
whatever the look-at function and the tuning parameters are.  The same holds after any calls
that are not updates of the camera, and in particular at the first `URender` of a run of `main`
when no movement key is down: no call up to the end of the uniform uploads of that `URender`
updates the camera. -/
theorem initial_view_matrix_is_lookAt (M : MathLib ℝ) (hM : M.exact)
    (movementSpeed mouseSensitivity zoom : ℝ) {Mat : Type}
    (lookAt : Vec3 ℝ → Vec3 ℝ → Vec3 ℝ → Mat) :
    (gCamera M movementSpeed mouseSensitivity zoom).Position = ⟨0, 3, 20⟩ ∧
    (gCamera M movementSpeed mouseSensitivity zoom).Front = ⟨0, 0, -1⟩ ∧
    (gCamera M movementSpeed mouseSensitivity zoom).Right = ⟨1, 0, 0⟩ ∧
    (gCamera M movementSpeed mouseSensitivity zoom).Up = ⟨0, 1, 0⟩ ∧
    (gCamera M movementSpeed mouseSensitivity zoom).GetViewMatrix lookAt =
      lookAt ⟨0, 3, 20⟩ ⟨0, 3, 19⟩ ⟨0, 1, 0⟩ ∧
    (∀ calls : List Call, (∀ c ∈ calls, c.fn ∉ cameraUpdates) →
      (Camera.replay M (gCamera M movementSpeed mouseSensitivity zoom) calls).GetViewMatrix
        lookAt = lookAt ⟨0, 3, 20⟩ ⟨0, 3, 19⟩ ⟨0, 1, 0⟩) ∧
    (∀ (P : Platform) (f : FrameInput), (∀ k ∈ movementKeys, k ∉ f.keys) →
      (Camera.replay M (gCamera M movementSpeed mouseSensitivity zoom)
        (URenderHeaderWorld (renderEntry f
          ⟨loopGlobals P, (loopWorld P).emit "glfwWindowShouldClose" []⟩)).trace).GetViewMatrix
        lookAt = lookAt ⟨0, 3, 20⟩ ⟨0, 3, 19⟩ ⟨0, 1, 0⟩) := by
  obtain ⟨hP, hF, hR, hU⟩ := gCamera_vectors M hM movementSpeed mouseSensitivity zoom
  have hv : (gCamera M movementSpeed mouseSensitivity zoom).GetViewMatrix lookAt =
      lookAt ⟨0, 3, 20⟩ ⟨0, 3, 19⟩ ⟨0, 1, 0⟩ := by
    simp only [Camera.GetViewMatrix, hP, hF, hU, Vec3.add]
    norm_num
  have hn : ∀ calls : List Call, (∀ c ∈ calls, c.fn ∉ cameraUpdates) →
      (Camera.replay M (gCamera M movementSpeed mouseSensitivity zoom) calls).GetViewMatrix
        lookAt = lookAt ⟨0, 3, 20⟩ ⟨0, 3, 19⟩ ⟨0, 1, 0⟩ := by
    intro calls h
    rw [replay_of_no_update M _ calls h, hv]
  refine ⟨hP, hF, hR, hU, hv, hn, ?_⟩
  intro P f hk
  apply hn
  intro c hc
  rw [URenderHeaderWorld_trace, renderEntry_trace] at hc
  simp only [World.emit, List.mem_append] at hc
  rcases hc with (((hc | hc) | hc) | hc)
  · exact startup_no_camera_update P c hc
  · revert c; simp [cameraUpdates]
  · rcases hc with (hc | hc) | hc
    · revert c; simp [cameraUpdates]
    · exact UProcessInputCalls_no_update f _ hk c hc
    · revert c; simp [cameraUpdates]
  · exact header_no_update _ c (by simpa only [List.mem_append] using hc)

theorem initial_view_matrix_is_lookAt_witness :
    (⟨Real.cos, Real.sin, fun d => d * (Real.pi / 180), Real.sqrt⟩ : MathLib ℝ).exact ∧
    (gCamera (⟨Real.cos, Real.sin, fun d => d * (Real.pi / 180), Real.sqrt⟩ : MathLib ℝ)
      (5 / 2) (1 / 10) 45).GetViewMatrix (fun eye center up => (eye, center, up)) =
      ((⟨0, 3, 20⟩ : Vec3 ℝ), (⟨0, 3, 19⟩ : Vec3 ℝ), (⟨0, 1, 0⟩ : Vec3 ℝ)) :=
  ⟨⟨rfl, rfl, rfl, rfl⟩,
    (initial_view_matrix_is_lookAt _ ⟨rfl, rfl, rfl, rfl⟩ (5 / 2) (1 / 10) 45
      (fun eye center up => (eye, center, up))).2.2.2.2.1⟩

/-- C15: with `worldUp` the +Y axis, the vectors that the recomputation
front = (cos yaw cos pitch, sin pitch, sin yaw cos pitch), right = normalize(front x worldUp),
up = normalize(right x front) yields are each of unit length and pairwise orthogonal, and front is
the image of the current yaw and pitch, for every yaw and every pitch from -89 to 89 degrees:
after construction with such a pitch, after every `ProcessMouseMovement` with
`constrainPitch = true` whatever the state before, and after a `ProcessMouseMovement` without
the clamp that leaves the pitch in that range.  Hence the application's camera has these
properties after every sequence of calls. -/
theorem camera_vectors_orthonormal (M : MathLib ℝ) (hM : M.exact) :
    (∀ (position : Vec3 ℝ) (yaw pitch movementSpeed mouseSensitivity zoom : ℝ),
      -89 < pitch → pitch < 89 →
      (Camera.new M position yaw pitch movementSpeed mouseSensitivity zoom).Orthonormal M ∧
      (Camera.new M position yaw pitch movementSpeed mouseSensitivity zoom).Consistent M) ∧
    (∀ (c : Camera ℝ) (xoffset yoffset : ℝ), c.WorldUp = ⟨0, 1, 0⟩ →
      (c.ProcessMouseMovement M xoffset yoffset true).Orthonormal M ∧
      (c.ProcessMouseMovement M xoffset yoffset true).Consistent M) ∧
    (∀ (c : Camera ℝ) (xoffset yoffset : ℝ), c.WorldUp = ⟨0, 1, 0⟩ →
      -89 < c.Pitch + yoffset * c.MouseSensitivity → c.Pitch + yoffset * c.MouseSensitivity < 89 →
      (c.ProcessMouseMovement M xoffset yoffset false).Orthonormal M ∧
      (c.ProcessMouseMovement M xoffset yoffset false).Consistent M) ∧
    (∀ (c : Camera ℝ), c.WorldUp = ⟨0, 1, 0⟩ → -89 ≤ c.Pitch → c.Pitch ≤ 89 →
      (c.updateCameraVectors M).Front =
        ⟨Real.cos (c.Yaw * (Real.pi / 180)) * Real.cos (c.Pitch * (Real.pi / 180)),
         Real.sin (c.Pitch * (Real.pi / 180)),
         Real.sin (c.Yaw * (Real.pi / 180)) * Real.cos (c.Pitch * (Real.pi / 180))⟩ ∧
      (c.updateCameraVectors M).Right =
        ⟨-Real.sin (c.Yaw * (Real.pi / 180)), 0, Real.cos (c.Yaw * (Real.pi / 180))⟩ ∧
      (c.updateCameraVectors M).Up =
        ⟨-(Real.cos (c.Yaw * (Real.pi / 180)) * Real.sin (c.Pitch * (Real.pi / 180))),
         Real.cos (c.Pitch * (Real.pi / 180)),
         -(Real.sin (c.Yaw * (Real.pi / 180)) * Real.sin (c.Pitch * (Real.pi / 180)))⟩) ∧
    (∀ (movementSpeed mouseSensitivity zoom : ℝ) (calls : List Call),
      (Camera.replay M (gCamera M movementSpeed mouseSensitivity zoom) calls).Orthonormal M ∧
      (Camera.replay M (gCamera M movementSpeed mouseSensitivity zoom) calls).Consistent M) := by
  refine ⟨?_, ?_, ?_, ?_, ?_⟩
  · intro position yaw pitch movementSpeed mouseSensitivity zoom h1 h2
    exact (new_invariant M hM position yaw pitch movementSpeed mouseSensitivity zoom
      h1.le h2.le).2
  · intro c xoffset yoffset hw
    exact ProcessMouseMovement_orthonormal M hM c xoffset yoffset hw
  · intro c xoffset yoffset hw h1 h2
    exact updateCameraVectors_orthonormal M hM
      { c with Yaw := c.Yaw + xoffset * c.MouseSensitivity,
               Pitch := c.Pitch + yoffset * c.MouseSensitivity } hw h1.le h2.le
  · intro c hw h1 h2
    exact updateCameraVectors_real M hM c hw h1 h2
  · intro movementSpeed mouseSensitivity zoom calls
    exact (replay_invariant M hM calls _
      (new_invariant M hM ⟨0, 3, 20⟩ (-90) 0 movementSpeed mouseSensitivity zoom
        (by norm_num) (by norm_num))).2

theorem camera_vectors_orthonormal_witness :
    (⟨Real.cos, Real.sin, fun d => d * (Real.pi / 180), Real.sqrt⟩ : MathLib ℝ).exact ∧
    (-89 : ℝ) < 30 ∧ (30 : ℝ) < 89 ∧
    (Camera.new (⟨Real.cos, Real.sin, fun d => d * (Real.pi / 180), Real.sqrt⟩ : MathLib ℝ)
      ⟨0, 3, 20⟩ 45 30 (5 / 2) (1 / 10) 45).Orthonormal
      (⟨Real.cos, Real.sin, fun d => d * (Real.pi / 180), Real.sqrt⟩ : MathLib ℝ) :=
  ⟨⟨rfl, rfl, rfl, rfl⟩, by norm_num, by norm_num,
    ((camera_vectors_orthonormal _ ⟨rfl, rfl, rfl, rfl⟩).1 ⟨0, 3, 20⟩ 45 30 (5 / 2) (1 / 10) 45
      (by norm_num) (by norm_num)).1⟩

/-- C16: for every camera state and every mouse offset, `ProcessMouseMovement` with
`constrainPitch = true` leaves the pitch at exactly 89 degrees when the pitch plus the scaled
`yoffset` exceeds 89, at exactly -89 when it is below -89, and at that sum otherwise; the pitch
is never beyond 89 or below -89 afterwards.  `UMousePositionCallback` makes exactly one call of
`ProcessMouseMovement`, with two arguments, so with `constrainPitch = true`. -/
theorem pitch_clamped_at_89_degrees {K : Type} [LinearOrderedField K] (M : MathLib K)
    (c : Camera K) (xoffset yoffset : K) :
    (89 < c.Pitch + yoffset * c.MouseSensitivity →
      (c.ProcessMouseMovement M xoffset yoffset true).Pitch = 89) ∧
    (c.Pitch + yoffset * c.MouseSensitivity < -89 →
      (c.ProcessMouseMovement M xoffset yoffset true).Pitch = -89) ∧
    (-89 ≤ c.Pitch + yoffset * c.MouseSensitivity → c.Pitch + yoffset * c.MouseSensitivity ≤ 89 →
      (c.ProcessMouseMovement M xoffset yoffset true).Pitch =
        c.Pitch + yoffset * c.MouseSensitivity) ∧
    -89 ≤ (c.ProcessMouseMovement M xoffset yoffset true).Pitch ∧
    (c.ProcessMouseMovement M xoffset yoffset true).Pitch ≤ 89 ∧
    (∀ (xpos ypos : ℚ) (a : App), ∃ x y : ℚ,
      issued a.w (UMousePositionCallback xpos ypos a).w =
        [⟨"gCamera.ProcessMouseMovement", [.real x, .real y]⟩] ∧
      Camera.replay M c (issued a.w (UMousePositionCallback xpos ypos a).w) =
        c.ProcessMouseMovement M (x : K) (y : K) true) := by
  have hp := ProcessMouseMovement_pitch M c xoffset yoffset
  have hb := ProcessMouseMovement_pitch_bounds M c xoffset yoffset
  refine ⟨?_, ?_, ?_, hb.1, hb.2, ?_⟩
  · intro h
    rw [hp, if_pos h]
  · intro h
    have h2 : ¬ c.Pitch + yoffset * c.MouseSensitivity > 89 := by
      intro h3
      have : (-89 : K) < 89 := by norm_num
      exact absurd (lt_trans h3 h) (not_lt.mpr (le_of_lt this))
    rw [hp, if_neg h2, if_pos h]
  · intro h1 h2
    rw [hp, if_neg (not_lt.mpr h2), if_neg (not_lt.mpr h1)]
  · intro xpos ypos a
    have hi : issued a.w (UMousePositionCallback xpos ypos a).w =
        [⟨"gCamera.ProcessMouseMovement",
          [.real (float (xpos - (if a.g.gFirstMouse then float xpos else a.g.gLastX))),
           .real (float ((if a.g.gFirstMouse then float ypos else a.g.gLastY) - ypos))]⟩] := by
      cases hf : a.g.gFirstMouse <;> simp [issued, UMousePositionCallback, World.emit, hf]
    refine ⟨_, _, hi, ?_⟩
    rw [hi, replay_singleton]
    exact apply_ProcessMouseMovement M c _ _

theorem pitch_clamped_at_89_degrees_witness :
    ((gCamera (⟨Real.cos, Real.sin, fun d => d * (Real.pi / 180), Real.sqrt⟩ : MathLib ℝ)
      (5 / 2) (1 / 10) 45).ProcessMouseMovement
      (⟨Real.cos, Real.sin, fun d => d * (Real.pi / 180), Real.sqrt⟩ : MathLib ℝ)
      0 1000 true).Pitch = 89 :=
  (pitch_clamped_at_89_degrees _ _ 0 1000).1 (by
    show (89 : ℝ) < 0 + 1000 * (1 / 10)
    norm_num)

/-- C17: `ProcessMouseScroll` leaves the zoom between 1 and 45 degrees whatever the state and
the offset; hence after any sequence of calls that holds a scroll the zoom is between 1 and 45,
and it is so after every sequence of calls when the camera starts with a zoom in that range.
`UMouseScrollCallback` makes exactly one call, `ProcessMouseScroll(yoffset)`: the horizontal
offset is not passed.  The field of view `URender` passes to `glm::perspective` is
`glm::radians(gCamera.Zoom)`. -/
theorem zoom_stays_between_1_and_45 {K : Type} [LinearOrderedField K] (M : MathLib K) :
    (∀ (c : Camera K) (yoffset : K),
      1 ≤ (c.ProcessMouseScroll yoffset).Zoom ∧ (c.ProcessMouseScroll yoffset).Zoom ≤ 45) ∧
    (∀ (c : Camera K) (before after : List Call) (yoffset : ℚ),
      1 ≤ (Camera.replay M c
        (before ++ ⟨"gCamera.ProcessMouseScroll", [.real yoffset]⟩ :: after)).Zoom ∧
      (Camera.replay M c
        (before ++ ⟨"gCamera.ProcessMouseScroll", [.real yoffset]⟩ :: after)).Zoom ≤ 45) ∧
    (∀ (c : Camera K) (calls : List Call), 1 ≤ c.Zoom → c.Zoom ≤ 45 →
      1 ≤ (Camera.replay M c calls).Zoom ∧ (Camera.replay M c calls).Zoom ≤ 45) ∧
    (∀ (c : Camera K) (xoffset yoffset : ℚ) (a : App),
      issued a.w (UMouseScrollCallback xoffset yoffset a).w =
        [⟨"gCamera.ProcessMouseScroll", [.real yoffset]⟩] ∧
      Camera.replay M c (issued a.w (UMouseScrollCallback xoffset yoffset a).w) =
        c.ProcessMouseScroll (yoffset : K)) ∧
    (projectionCall false).fn = "glm::perspective" ∧
    (projectionCall false).args.head? = some (.sym "glm::radians(gCamera.Zoom)") := by
  refine ⟨ProcessMouseScroll_zoom, ?_, ?_, ?_, ?_⟩
  · intro c before after yoffset
    rw [replay_append]
    show 1 ≤ (Camera.replay M (Camera.apply M _ _) after).Zoom ∧ _
    rw [apply_ProcessMouseScroll]
    exact replay_zoom M after _ (ProcessMouseScroll_zoom _ _).1 (ProcessMouseScroll_zoom _ _).2
  · intro c calls h1 h2
    exact replay_zoom M calls c h1 h2
  · intro c xoffset yoffset a
    have hi : issued a.w (UMouseScrollCallback xoffset yoffset a).w =
        [⟨"gCamera.ProcessMouseScroll", [.real yoffset]⟩] := by
      simp [issued, UMouseScrollCallback, World.emit]
    refine ⟨hi, ?_⟩
    rw [hi, replay_singleton]
    exact apply_ProcessMouseScroll M c yoffset
  · exact ⟨rfl, rfl⟩

theorem zoom_stays_between_1_and_45_witness :
    (1 : ℝ) ≤ (gCamera (⟨Real.cos, Real.sin, fun d => d * (Real.pi / 180), Real.sqrt⟩ : MathLib ℝ)
      (5 / 2) (1 / 10) 45).Zoom ∧
    (Camera.replay (⟨Real.cos, Real.sin, fun d => d * (Real.pi / 180), Real.sqrt⟩ : MathLib ℝ)
      (gCamera (⟨Real.cos, Real.sin, fun d => d * (Real.pi / 180), Real.sqrt⟩ : MathLib ℝ)
        (5 / 2) (1 / 10) 45)
      [⟨"gCamera.ProcessMouseScroll", [.real 50]⟩, ⟨"gCamera.ProcessMouseScroll", [.real (-100)]⟩,
       ⟨"gCamera.ProcessMouseScroll", [.real 3]⟩]).Zoom ≤ 45 :=
  ⟨by show (1 : ℝ) ≤ 45; norm_num,
    ((zoom_stays_between_1_and_45 _).2.2.1 _ _ (by show (1 : ℝ) ≤ 45; norm_num)
      (by show (45 : ℝ) ≤ 45; norm_num)).2⟩

/-- C18: for every camera state and every `dt`, `ProcessKeyboard(FORWARD, dt)` followed by
`ProcessKeyboard(BACKWARD, dt)` returns the position to its original value (the first call
leaves the orientation as it is).  Consequently the calls of a `UProcessInput` in which W and S
are down and none of A, D, Q, E is leave the camera position unchanged. -/
theorem forward_then_backward_restores_position {K : Type} [LinearOrderedField K]
    (M : MathLib K) :
    (∀ (c : Camera K) (dt : K),
      ((c.ProcessKeyboard .FORWARD dt).ProcessKeyboard .BACKWARD dt).Position = c.Position ∧
      (c.ProcessKeyboard .FORWARD dt).Front = c.Front ∧
      ((c.ProcessKeyboard .FORWARD dt).ProcessKeyboard .BACKWARD dt) = c) ∧
    (∀ (f : FrameInput) (a : App) (c : Camera K),
      Key.W ∈ f.keys → Key.S ∈ f.keys → Key.A ∉ f.keys → Key.D ∉ f.keys → Key.Q ∉ f.keys →
      Key.E ∉ f.keys →
      (issued a.w (UProcessInput f a).w).filter (fun call => call.fn ∈ cameraUpdates) =
        [⟨"gCamera.ProcessKeyboard", [.sym "FORWARD", .real a.g.gDeltaTime]⟩,
         ⟨"gCamera.ProcessKeyboard", [.sym "BACKWARD", .real a.g.gDeltaTime]⟩] ∧
      (Camera.replay M c (issued a.w (UProcessInput f a).w)).Position = c.Position) := by
  have hr : ∀ (c : Camera K) (dt : K),
      ((c.ProcessKeyboard .FORWARD dt).ProcessKeyboard .BACKWARD dt) = c := by
    intro c dt
    cases c with
    | mk Position Front Up Right WorldUp Yaw Pitch MovementSpeed MouseSensitivity Zoom =>
      simp only [Camera.ProcessKeyboard, Vec3.add, Vec3.sub, Vec3.scale, Camera.mk.injEq,
        and_true, true_and]
      ext <;> simp
  refine ⟨fun c dt => ⟨by rw [hr], rfl, hr c dt⟩, ?_⟩
  intro f a c kW kS kA kD kQ kE
  rw [UProcessInput_issued]
  by_cases hE : Key.ESCAPE ∈ f.keys
  · refine ⟨by simp [UProcessInputCalls, moveOnKeyCalls, kW, kS, kA, kD, kQ, kE, hE,
      cameraUpdates, List.filter_cons], ?_⟩
    simp [UProcessInputCalls, moveOnKeyCalls, kW, kS, kA, kD, kQ, kE, hE, Camera.replay,
      Camera.apply, Camera_Movement.ofName, hr]
  · refine ⟨by simp [UProcessInputCalls, moveOnKeyCalls, kW, kS, kA, kD, kQ, kE, hE,
      cameraUpdates, List.filter_cons], ?_⟩
    simp [UProcessInputCalls, moveOnKeyCalls, kW, kS, kA, kD, kQ, kE, hE, Camera.replay,
      Camera.apply, Camera_Movement.ofName, hr]

theorem forward_then_backward_restores_position_witness :
    (Camera.replay (⟨Real.cos, Real.sin, fun d => d * (Real.pi / 180), Real.sqrt⟩ : MathLib ℝ)
      (gCamera (⟨Real.cos, Real.sin, fun d => d * (Real.pi / 180), Real.sqrt⟩ : MathLib ℝ)
        (5 / 2) (1 / 10) 45)
      (issued (loopWorld goodPlatform)
        (UProcessInput ⟨1, [.W, .S], []⟩ ⟨loopGlobals goodPlatform, loopWorld goodPlatform⟩).w)).Position =
    (gCamera (⟨Real.cos, Real.sin, fun d => d * (Real.pi / 180), Real.sqrt⟩ : MathLib ℝ)
      (5 / 2) (1 / 10) 45).Position :=
  ((forward_then_backward_restores_position _).2 ⟨1, [.W, .S], []⟩
    ⟨loopGlobals goodPlatform, loopWorld goodPlatform⟩ _
    (by simp) (by simp) (by simp) (by simp) (by simp) (by simp)).2

/-! ## `flipImageVertically` -/

theorem int_of_range (x : Int) (h1 : INT_MIN ≤ x) (h2 : x ≤ INT_MAX) : int x = some x := by
  simp [int, h1, h2]

theorem int_natCast (a : Nat) (h : (a : Int) ≤ INT_MAX) : int (a : Int) = some (a : Int) := by
  apply int_of_range _ _ h
  simp only [INT_MIN]
  omega

theorem int_natCast_succ (a : Nat) (h : (a : Int) + 1 ≤ INT_MAX) :
    int ((a : Int) + 1) = some ((a + 1 : Nat) : Int) := by
  have := int_natCast (a + 1) (by push_cast; omega)
  simpa using this

theorem load_natCast (image : List Byte) (a : Nat) : load image (a : Int) = image[a]? := by
  simp [load]

theorem store_natCast (image : List Byte) (a : Nat) (v : Byte) (h : a < image.length) :
    store image (a : Int) v = some (image.set a v) := by
  simp [store, h]

theorem swapLoop_zero (image : List Byte) (index1 index2 : Int) :
    flipImageVertically.swapLoop image index1 index2 0 = some image := by
  rw [flipImageVertically.swapLoop]
  simp

theorem swapLoop_pos (image : List Byte) (index1 index2 i : Int) (h : i > 0) :
    flipImageVertically.swapLoop image index1 index2 i =
      (load image index1).bind fun tmp =>
      (load image index2).bind fun value =>
      (store image index1 value).bind fun image =>
      (store image index2 tmp).bind fun image =>
      (int (index1 + 1)).bind fun index1 =>
      (int (index2 + 1)).bind fun index2 =>
      flipImageVertically.swapLoop image index1 index2 (i - 1) := by
  rw [flipImageVertically.swapLoop, if_pos h]
  rfl

theorem swapLoop_succ (image : List Byte) (a b n : Nat) (ha : a < image.length)
    (hb : b < image.length) (hm : (b : Int) + 1 ≤ INT_MAX) (hab : a < b) :
    flipImageVertically.swapLoop image (a : Int) (b : Int) ((n + 1 : Nat) : Int) =
      flipImageVertically.swapLoop ((image.set a image[b]).set b image[a])
        ((a + 1 : Nat) : Int) ((b + 1 : Nat) : Int) (n : Int) := by
  have hn : ((n + 1 : Nat) : Int) - 1 = (n : Int) := by push_cast; ring
  rw [swapLoop_pos _ _ _ _ (by omega), load_natCast, load_natCast,
    List.getElem?_eq_getElem ha, List.getElem?_eq_getElem hb, hn, Option.some_bind,
    Option.some_bind, store_natCast _ _ _ ha, Option.some_bind,
    store_natCast _ _ _ (by simpa using hb), Option.some_bind,
    int_natCast_succ a (by omega), Option.some_bind, int_natCast_succ b hm, Option.some_bind]

theorem some_getElem_eq (l : List Byte) (i j : Nat) (h : i = j) (hj : j < l.length) :
    some l[j] = l[i]? := by
  subst h
  exact (List.getElem?_eq_getElem hj).symm

theorem swapLoop_spec (n : Nat) : ∀ (image : List Byte) (a b : Nat), a + n ≤ b →
    b + n ≤ image.length → ((b + n : Nat) : Int) ≤ INT_MAX →
    ∃ out, flipImageVertically.swapLoop image (a : Int) (b : Int) (n : Int) = some out ∧
      out.length = image.length ∧
      ∀ k, out[k]? = if a ≤ k ∧ k < a + n then image[k - a + b]?
        else if b ≤ k ∧ k < b + n then image[k - b + a]? else image[k]? := by
  induction n with
  | zero =>
    intro image a b _ _ _
    exact ⟨image, by simpa using swapLoop_zero image a b, rfl,
      by intro k; rw [if_neg (by omega), if_neg (by omega)]⟩
  | succ n ih =>
    intro image a b h1 h2 h3
    have ha : a < image.length := by omega
    have hb : b < image.length := by omega
    obtain ⟨out, e, hl, hk⟩ := ih ((image.set a image[b]).set b image[a]) (a + 1) (b + 1)
      (by omega) (by simp only [List.length_set]; omega) (by push_cast at h3 ⊢; omega)
    refine ⟨out, ?_, by simpa using hl, ?_⟩
    · rw [swapLoop_succ image a b n ha hb (by push_cast at h3; omega) (by omega)]
      exact e
    · intro k
      rw [hk k]
      simp only [List.getElem?_set, List.length_set]
      split_ifs <;>
        first
        | rfl
        | omega
        | (congr 1; omega)
        | exact some_getElem_eq image _ _ (by omega) _

theorem rowLoop_done (image : List Byte) (width height channels j : Int)
    (h : ¬ j < Int.tdiv height 2) :
    flipImageVertically.rowLoop image width height channels j = some image := by
  rw [flipImageVertically.rowLoop, if_neg h]

theorem rowLoop_next (image : List Byte) (width height channels j : Int)
    (h : j < Int.tdiv height 2) :
    flipImageVertically.rowLoop image width height channels j =
      (int (j * width)).bind fun index1 =>
      (int (index1 * channels)).bind fun index1 =>
      (int (height - 1)).bind fun index2 =>
      (int (index2 - j)).bind fun index2 =>
      (int (index2 * width)).bind fun index2 =>
      (int (index2 * channels)).bind fun index2 =>
      (int (width * channels)).bind fun i =>
      (flipImageVertically.swapLoop image index1 index2 i).bind fun image =>
      flipImageVertically.rowLoop image width height channels (j + 1) := by
  rw [flipImageVertically.rowLoop, if_pos h]
  rfl

theorem row_mem_iff (L r j i : Nat) (hi : i < L) :
    (j * L ≤ r * L + i ∧ r * L + i < j * L + L) ↔ r = j := by
  constructor
  · rintro ⟨h1, h2⟩
    by_contra hne
    rcases Nat.lt_or_gt_of_ne hne with h | h
    · have := Nat.mul_le_mul_right L (show r + 1 ≤ j from h)
      rw [Nat.add_mul, one_mul] at this
      omega
    · have := Nat.mul_le_mul_right L (show j + 1 ≤ r from h)
      rw [Nat.add_mul, one_mul] at this
      omega
  · rintro rfl
    omega

theorem rowLoop_step (image : List Byte) (w h c j : Nat) (hj : j < h / 2)
    (hh : (h : Int) ≤ INT_MAX) (hwh : ((w * h : Nat) : Int) ≤ INT_MAX)
    (hN : ((w * h * c : Nat) : Int) ≤ INT_MAX) :
    flipImageVertically.rowLoop image (w : Int) (h : Int) (c : Int) (j : Int) =
      (flipImageVertically.swapLoop image ((j * (w * c) : Nat) : Int)
        (((h - 1 - j) * (w * c) : Nat) : Int) ((w * c : Nat) : Int)).bind fun image =>
      flipImageVertically.rowLoop image (w : Int) (h : Int) (c : Int) ((j + 1 : Nat) : Int) := by
  have h1 : 1 ≤ h := by omega
  have b1 : j * w ≤ w * h := by
    rw [Nat.mul_comm w h]; exact Nat.mul_le_mul_right w (by omega)
  have b2 : j * w * c ≤ w * h * c := Nat.mul_le_mul_right c b1
  have b3 : (h - 1 - j) * w ≤ w * h := by
    rw [Nat.mul_comm w h]; exact Nat.mul_le_mul_right w (by omega)
  have b4 : (h - 1 - j) * w * c ≤ w * h * c := Nat.mul_le_mul_right c b3
  have b5 : w * c ≤ w * h * c :=
    Nat.mul_le_mul_right c (Nat.le_mul_of_pos_right w (by omega))
  have k1 : (j : Int) * (w : Int) = ((j * w : Nat) : Int) := by push_cast; ring
  have k2 : ((j * w : Nat) : Int) * (c : Int) = ((j * (w * c) : Nat) : Int) := by
    push_cast; ring
  have k3 : (h : Int) - 1 = ((h - 1 : Nat) : Int) := by omega
  have k4 : ((h - 1 : Nat) : Int) - (j : Int) = ((h - 1 - j : Nat) : Int) := by omega
  have k5 : ((h - 1 - j : Nat) : Int) * (w : Int) = (((h - 1 - j) * w : Nat) : Int) := by
    push_cast; ring
  have k6 : (((h - 1 - j) * w : Nat) : Int) * (c : Int) =
      (((h - 1 - j) * (w * c) : Nat) : Int) := by
    rw [← Nat.mul_assoc]; push_cast; ring
  have k7 : (w : Int) * (c : Int) = ((w * c : Nat) : Int) := by push_cast; ring
  have k8 : (j : Int) + 1 = ((j + 1 : Nat) : Int) := by push_cast; ring
  have hlt : (j : Int) < Int.tdiv (h : Int) 2 := by
    show (j : Int) < ((h / 2 : Nat) : Int)
    exact Int.ofNat_lt.mpr hj
  rw [rowLoop_next _ _ _ _ _ hlt, k1, int_natCast _ (le_trans (Int.ofNat_le.mpr b1) hwh),
    Option.some_bind, k2,
    int_natCast _ (by rw [← Nat.mul_assoc]; exact le_trans (Int.ofNat_le.mpr b2) hN),
    Option.some_bind, k3, int_natCast _ (by omega), Option.some_bind, k4,
    int_natCast _ (by omega), Option.some_bind, k5,
    int_natCast _ (le_trans (Int.ofNat_le.mpr b3) hwh), Option.some_bind, k6,
    int_natCast _ (by rw [← Nat.mul_assoc]; exact le_trans (Int.ofNat_le.mpr b4) hN),
    Option.some_bind, k7, int_natCast _ (le_trans (Int.ofNat_le.mpr b5) hN),
    Option.some_bind, k8]

theorem rowLoop_spec (w h c L : Nat) (hL : w * c = L) (hh : (h : Int) ≤ INT_MAX)
    (hwh : ((w * h : Nat) : Int) ≤ INT_MAX) (hN : ((w * h * c : Nat) : Int) ≤ INT_MAX)
    (m : Nat) :
    ∀ (j : Nat) (image : List Byte), j + m = h / 2 → image.length = w * h * c →
    ∃ out, flipImageVertically.rowLoop image (w : Int) (h : Int) (c : Int) (j : Int) = some out ∧
      out.length = image.length ∧
      ∀ r i, r < h → i < L →
        out[r * L + i]? =
          if j ≤ r ∧ r + j < h then image[(h - 1 - r) * L + i]?
          else image[r * L + i]? := by
  induction m with
  | zero =>
    intro j image hj hl
    refine ⟨image, rowLoop_done _ _ _ _ _ ?_, rfl, ?_⟩
    · show ¬ (j : Int) < ((h / 2 : Nat) : Int)
      omega
    · intro r i hr hi
      split_ifs with hc
      · have : h - 1 - r = r := by omega
        rw [this]
      · rfl
  | succ m ih =>
    intro j image hj hl
    have hj2 : j < h / 2 := by omega
    have eN : w * h * c = h * L := by rw [← hL]; ring
    have hab : j * L + L ≤ (h - 1 - j) * L := by
      have := Nat.mul_le_mul_right L (show j + 1 ≤ h - 1 - j by omega)
      rw [Nat.add_mul, one_mul] at this
      exact this
    have hbn : (h - 1 - j) * L + L ≤ h * L := by
      have := Nat.mul_le_mul_right L (show (h - 1 - j) + 1 ≤ h by omega)
      rw [Nat.add_mul, one_mul] at this
      exact this
    obtain ⟨mid, e1, l1, k1⟩ := swapLoop_spec L image (j * L) ((h - 1 - j) * L) hab
      (by rw [hl, eN]; exact hbn)
      (le_trans (Int.ofNat_le.mpr (by rw [eN]; exact hbn)) hN)
    obtain ⟨out, e2, l2, k2⟩ := ih (j + 1) mid (by omega) (by rw [l1, hl])
    refine ⟨out, ?_, by rw [l2, l1], ?_⟩
    · have hs := rowLoop_step image w h c j hj2 hh hwh hN
      rw [hL] at hs
      rw [hs, e1, Option.some_bind]
      exact e2
    · intro r i hr hi
      rw [k2 r i hr hi]
      have hm : ∀ r', r' < h → mid[r' * L + i]? =
          if r' = j then image[(h - 1 - j) * L + i]?
          else if r' = h - 1 - j then image[j * L + i]? else image[r' * L + i]? := by
        intro r' hr'
        rw [k1]
        by_cases c1 : r' = j
        · subst c1
          rw [if_pos (by omega), if_pos rfl]
          congr 1
          omega
        · have n1 : ¬ (j * L ≤ r' * L + i ∧ r' * L + i < j * L + L) :=
            fun hcon => c1 ((row_mem_iff L r' j i hi).1 hcon)
          rw [if_neg n1, if_neg c1]
          by_cases c2 : r' = h - 1 - j
          · rw [if_pos ((row_mem_iff L r' (h - 1 - j) i hi).2 c2), if_pos c2, c2]
            congr 1
            omega
          · have n2 : ¬ ((h - 1 - j) * L ≤ r' * L + i ∧ r' * L + i < (h - 1 - j) * L + L) :=
              fun hcon => c2 ((row_mem_iff L r' (h - 1 - j) i hi).1 hcon)
            rw [if_neg n2, if_neg c2]
      by_cases c3 : j + 1 ≤ r ∧ r + (j + 1) < h
      · rw [if_pos c3, if_pos (by omega), hm _ (by omega), if_neg (by omega), if_neg (by omega)]
      · rw [if_neg c3, hm r hr]
        by_cases c4 : r = j
        · rw [if_pos c4, if_pos (by omega), c4]
        · rw [if_neg c4]
          by_cases c5 : r = h - 1 - j
          · have e : h - 1 - (h - 1 - j) = j := by omega
            rw [if_pos c5, if_pos (by omega), c5, e]
          · rw [if_neg c5, if_neg (by omega)]

theorem flip_rows (image : List Byte) (w h c : Nat) (hl : image.length = w * h * c)
    (hh : (h : Int) ≤ INT_MAX) (hwh : ((w * h : Nat) : Int) ≤ INT_MAX)
    (hN : ((w * h * c : Nat) : Int) ≤ INT_MAX) :
    ∃ out, flipImageVertically image (w : Int) (h : Int) (c : Int) = some out ∧
      out.length = image.length ∧
      ∀ r i, r < h → i < w * c →
        out[r * (w * c) + i]? = image[(h - 1 - r) * (w * c) + i]? := by
  obtain ⟨out, e, l, k⟩ := rowLoop_spec w h c (w * c) rfl hh hwh hN (h / 2) 0 image
    (by omega) hl
  refine ⟨out, e, l, ?_⟩
  intro r i hr hi
  rw [k r i hr hi, if_pos (by omega)]

theorem flip_twice (image : List Byte) (w h c : Nat) (hl : image.length = w * h * c)
    (hh : (h : Int) ≤ INT_MAX) (hwh : ((w * h : Nat) : Int) ≤ INT_MAX)
    (hN : ((w * h * c : Nat) : Int) ≤ INT_MAX) :
    ∃ out, flipImageVertically image (w : Int) (h : Int) (c : Int) = some out ∧
      flipImageVertically out (w : Int) (h : Int) (c : Int) = some image := by
  obtain ⟨out, e, l, hk⟩ := flip_rows image w h c hl hh hwh hN
  obtain ⟨out2, e2, l2, hk2⟩ := flip_rows out w h c (by rw [l, hl]) hh hwh hN
  refine ⟨out, e, ?_⟩
  rw [e2]
  congr 1
  apply List.ext_getElem?
  intro k
  by_cases hlt : k < w * h * c
  · have hpos : 0 < w * c := by
      rcases Nat.eq_zero_or_pos (w * c) with h0 | h0
      · have : w * h * c = 0 := by
          rw [Nat.mul_right_comm, h0, Nat.zero_mul]
        omega
      · exact h0
    have hr : k / (w * c) < h := by
      apply Nat.div_lt_of_lt_mul
      rw [Nat.mul_right_comm] at hlt
      exact hlt
    have hi := Nat.mod_lt k hpos
    have key := Nat.div_add_mod' k (w * c)
    generalize k / (w * c) = q at hr key
    generalize k % (w * c) = i at hi key
    have a1 := hk2 q i hr hi
    have a2 := hk (h - 1 - q) i (by omega) hi
    rw [← key, a1, a2, show h - 1 - (h - 1 - q) = q by omega]
  · rw [List.getElem?_eq_none (by omega), List.getElem?_eq_none (by omega)]

theorem row_index_lt (w h c j i : Nat) (hj : j < h) (hi : i < w * c) :
    j * w * c + i < w * h * c := by
  have := Nat.mul_le_mul_right (w * c) (show j + 1 ≤ h from hj)
  rw [Nat.add_mul, one_mul] at this
  have e1 : j * w * c = j * (w * c) := Nat.mul_assoc j w c
  have e2 : w * h * c = h * (w * c) := by ring
  omega

theorem flip_small_height (image : List Byte) (width height channels : Int)
    (h : height ≤ 1) : flipImageVertically image width height channels = some image := by
  apply rowLoop_done
  have : Int.tdiv height 2 ≤ 0 := by
    rcases Int.le_total 0 height with h0 | h0
    · rw [Int.tdiv_eq_ediv h0 (by norm_num)]
      omega
    · have e : height = -(-height) := by ring
      rw [e, Int.neg_tdiv, Int.tdiv_eq_ediv (by omega) (by norm_num)]
      omega
  omega

theorem load_isSome (image : List Byte) (index : Int) :
    (load image index).isSome = true ↔ 0 ≤ index ∧ index < image.length := by
  unfold load
  split
  · rename_i h0
    rw [Option.isSome_iff_exists]
    constructor
    · rintro ⟨b, hb⟩
      have := (List.getElem?_eq_some.1 hb).1
      omega
    · rintro ⟨_, h2⟩
      exact ⟨_, List.getElem?_eq_getElem (by omega)⟩
  · rename_i h0
    constructor
    · intro h
      simp at h
    · rintro ⟨h1, _⟩
      exact absurd h1 h0

theorem store_isSome (image : List Byte) (index : Int) (value : Byte) :
    (store image index value).isSome = true ↔ 0 ≤ index ∧ index < image.length := by
  unfold store
  split
  · rename_i h0
    simp only [Option.isSome_some, true_iff]
    omega
  · rename_i h0
    constructor
    · intro h
      simp at h
    · rintro ⟨h1, h2⟩
      exact absurd ⟨h1, by omega⟩ h0

/-! ## Claims about `flipImageVertically` -/

/-- C23, as stated, fails for a large image: 65536 x 65536 pixels of one channel are 2^32
bytes; for the first pair of rows `index2 = (65536 - 1 - 0) * 65536` does not fit in an `int`,
so the call has no defined result and the postcondition does not hold. -/
theorem flipImageVertically_large_image_overflows :
    (List.replicate 4294967296 (0 : Byte)).length = 65536 * 65536 * 1 ∧
    flipImageVertically (List.replicate 4294967296 0) 65536 65536 1 = none := by
  have e1 : int (0 * 65536) = some 0 := by decide
  have e2 : int (0 * 1) = some 0 := by decide
  have e3 : int (65536 - 1) = some 65535 := by decide
  have e4 : int (65535 - 0) = some 65535 := by decide
  have e5 : int (65535 * 65536) = none := by decide
  refine ⟨List.length_replicate _ _, ?_⟩
  rw [flipImageVertically, rowLoop_next _ _ _ _ _ (by decide), e1, Option.some_bind, e2,
    Option.some_bind, e3, Option.some_bind, e4, Option.some_bind, e5, Option.none_bind]

/-- C23 (amended for `int` overflow): for `int`s width, height, channels >= 0 such that
neither `width * height` nor `width * height * channels` exceeds `INT_MAX`, and every buffer of
exactly `width * height * channels` bytes, the call returns with a buffer of the same length in
which the byte at row `j`, offset `i` (index `j * width * channels + i`, which is inside the
buffer) is the original byte at row `height - 1 - j`, offset `i`; the middle row of an image of
odd height is unchanged. -/
theorem flipImageVertically_mirrors_rows (image : List Byte) (width height channels : Nat)
    (hl : image.length = width * height * channels)
    (hh : (height : Int) ≤ INT_MAX)
    (hwh : ((width * height : Nat) : Int) ≤ INT_MAX)
    (hN : ((width * height * channels : Nat) : Int) ≤ INT_MAX) :
    ∃ out, flipImageVertically image (width : Int) (height : Int) (channels : Int) = some out ∧
      out.length = image.length ∧
      (∀ j i, j < height → i < width * channels →
        j * width * channels + i < out.length ∧
        out[j * width * channels + i]? =
          image[(height - 1 - j) * width * channels + i]?) ∧
      (height % 2 = 1 → ∀ i, i < width * channels →
        out[height / 2 * width * channels + i]? =
          image[height / 2 * width * channels + i]?) := by
  obtain ⟨out, e, l, hk⟩ := flip_rows image width height channels hl hh hwh hN
  have hrow : ∀ j i, j < height → i < width * channels →
      out[j * width * channels + i]? =
        image[(height - 1 - j) * width * channels + i]? := by
    intro j i hj hi
    have := hk j i hj hi
    rw [← Nat.mul_assoc, ← Nat.mul_assoc] at this
    exact this
  refine ⟨out, e, l, ?_, ?_⟩
  · intro j i hj hi
    exact ⟨by rw [l, hl]; exact row_index_lt width height channels j i hj hi, hrow j i hj hi⟩
  · intro hodd i hi
    have := hrow (height / 2) i (by omega) hi
    rw [show height - 1 - height / 2 = height / 2 by omega] at this
    exact this

/-- C23, at an instance: a 1 x 3 image of 2 channels; the rows (1, 2), (3, 4), (5, 6) come out
as (5, 6), (3, 4), (1, 2). -/
theorem flipImageVertically_mirrors_rows_witness :
    flipImageVertically [1, 2, 3, 4, 5, 6] 1 3 2 = some [5, 6, 3, 4, 1, 2] := by
  obtain ⟨out, e, l, hk, -⟩ := flipImageVertically_mirrors_rows [1, 2, 3, 4, 5, 6] 1 3 2 rfl
    (by decide) (by decide) (by decide)
  have h0 := (hk 0 0 (by decide) (by decide)).2
  have h1 := (hk 0 1 (by decide) (by decide)).2
  have h2 := (hk 1 0 (by decide) (by decide)).2
  have h3 := (hk 1 1 (by decide) (by decide)).2
  have h4 := (hk 2 0 (by decide) (by decide)).2
  have h5 := (hk 2 1 (by decide) (by decide)).2
  have eo : out = [5, 6, 3, 4, 1, 2] := by
    apply List.ext_getElem?
    intro k
    match k with
    | 0 => exact h0
    | 1 => exact h1
    | 2 => exact h2
    | 3 => exact h3
    | 4 => exact h4
    | 5 => exact h5
    | k + 6 =>
      rw [List.getElem?_eq_none (by rw [l]; simp), List.getElem?_eq_none (by simp)]
  rw [← eo]
  exact e

/-- C24, as stated, fails for a large image: 32768 x 32768 pixels of 4 channels are 2^32 bytes;
`index2 = (32768 - 1 - 0) * 32768 * 4` does not fit in an `int`, so the first call already has
no defined result and two calls do not give back the buffer. -/
theorem flipImageVertically_twice_large_image_overflows :
    (List.replicate 4294967296 (0 : Byte)).length = 32768 * 32768 * 4 ∧
    (flipImageVertically (List.replicate 4294967296 0) 32768 32768 4).bind
      (fun out => flipImageVertically out 32768 32768 4) = none := by
  have e1 : int (0 * 32768) = some 0 := by decide
  have e2 : int (0 * 4) = some 0 := by decide
  have e3 : int (32768 - 1) = some 32767 := by decide
  have e4 : int (32767 - 0) = some 32767 := by decide
  have e5 : int (32767 * 32768) = some 1073709056 := by decide
  have e6 : int (1073709056 * 4) = none := by decide
  refine ⟨List.length_replicate _ _, ?_⟩
  rw [flipImageVertically, rowLoop_next _ _ _ _ _ (by decide), e1, Option.some_bind, e2,
    Option.some_bind, e3, Option.some_bind, e4, Option.some_bind, e5, Option.some_bind, e6,
    Option.none_bind, Option.none_bind]

/-- C24 (amended for `int` overflow): for `int`s width, height, channels >= 0 such that neither
`width * height` nor `width * height * channels` exceeds `INT_MAX`, and every buffer of
`width * height * channels` bytes, applying `flipImageVertically` twice with the same
dimensions yields the original buffer. -/
theorem flipImageVertically_involution (image : List Byte) (width height channels : Nat)
    (hl : image.length = width * height * channels)
    (hh : (height : Int) ≤ INT_MAX)
    (hwh : ((width * height : Nat) : Int) ≤ INT_MAX)
    (hN : ((width * height * channels : Nat) : Int) ≤ INT_MAX) :
    (flipImageVertically image (width : Int) (height : Int) (channels : Int)).bind
      (fun out => flipImageVertically out (width : Int) (height : Int) (channels : Int)) =
      some image := by
  obtain ⟨out, e1, e2⟩ := flip_twice image width height channels hl hh hwh hN
  rw [e1, Option.some_bind, e2]

/-- C24, at an instance: a 2 x 2 image of 2 channels. -/
theorem flipImageVertically_involution_witness :
    (flipImageVertically [1, 2, 3, 4, 5, 6, 7, 8] 2 2 2).bind
      (fun out => flipImageVertically out 2 2 2) = some [1, 2, 3, 4, 5, 6, 7, 8] :=
  flipImageVertically_involution [1, 2, 3, 4, 5, 6, 7, 8] 2 2 2 rfl (by decide) (by decide)
    (by decide)

/-- C25, as stated, fails for a large image: 2 x 1073741825 pixels of one channel are
2147483650 bytes; `index2 = (1073741825 - 1 - 0) * 2 = 2147483648` is not an `int`, so the
index is not below the size of the buffer but undefined, and the call has no defined result. -/
theorem flipImageVertically_index_overflows :
    (List.replicate 2147483650 (0 : Byte)).length = 2 * 1073741825 * 1 ∧
    int ((1073741825 - 1 - 0) * 2) = none ∧
    flipImageVertically (List.replicate 2147483650 0) 2 1073741825 1 = none := by
  have e1 : int (0 * 2) = some 0 := by decide
  have e2 : int (0 * 1) = some 0 := by decide
  have e3 : int (1073741825 - 1) = some 1073741824 := by decide
  have e4 : int (1073741824 - 0) = some 1073741824 := by decide
  have e5 : int (1073741824 * 2) = none := by decide
  refine ⟨List.length_replicate _ _, by decide, ?_⟩
  rw [flipImageVertically, rowLoop_next _ _ _ _ _ (by decide), e1, Option.some_bind, e2,
    Option.some_bind, e3, Option.some_bind, e4, Option.some_bind, e5, Option.none_bind]

/-- C25 (amended for `int` overflow): for `int`s width, height, channels >= 0 such that neither
`width * height` nor `width * height * channels` exceeds `INT_MAX`, and a buffer of
`width * height * channels` bytes, the call returns a buffer: both loops terminate (the model
is a total function), no `int` operation overflows, and every read and write is inside the
buffer, reads and writes being defined exactly for the indices from 0 up to the size of the
buffer.  When `height <= 1` the call returns whatever buffer it is given, even an empty one, so
it accesses no byte; when `width * channels = 0` the buffer is empty and the call returns. -/
theorem flipImageVertically_terminates_in_bounds (image : List Byte)
    (width height channels : Nat)
    (hl : image.length = width * height * channels)
    (hh : (height : Int) ≤ INT_MAX)
    (hwh : ((width * height : Nat) : Int) ≤ INT_MAX)
    (hN : ((width * height * channels : Nat) : Int) ≤ INT_MAX) :
    (flipImageVertically image (width : Int) (height : Int) (channels : Int)).isSome = true ∧
    (∀ (buffer : List Byte) (index : Int),
      (load buffer index).isSome = true ↔ 0 ≤ index ∧ index < buffer.length) ∧
    (∀ (buffer : List Byte) (index : Int) (value : Byte),
      (store buffer index value).isSome = true ↔ 0 ≤ index ∧ index < buffer.length) ∧
    (height ≤ 1 → ∀ buffer : List Byte,
      flipImageVertically buffer (width : Int) (height : Int) (channels : Int) = some buffer) ∧
    (width * channels = 0 → image = [] ∧
      flipImageVertically [] (width : Int) (height : Int) (channels : Int) = some []) := by
  obtain ⟨out, e, l, -⟩ := flip_rows image width height channels hl hh hwh hN
  refine ⟨by rw [e]; rfl, load_isSome, store_isSome, ?_, ?_⟩
  · intro h1 buffer
    exact flip_small_height buffer _ _ _ (by omega)
  · intro h0
    have hnil : image = [] := by
      apply List.eq_nil_of_length_eq_zero
      rw [hl, Nat.mul_right_comm, h0, Nat.zero_mul]
    subst hnil
    refine ⟨rfl, ?_⟩
    rw [e]
    congr 1
    exact List.eq_nil_of_length_eq_zero l

/-- C25, at an instance: a 1 x 3 image of 2 channels. -/
theorem flipImageVertically_terminates_in_bounds_witness :
    (flipImageVertically [1, 2, 3, 4, 5, 6] 1 3 2).isSome = true :=
  (flipImageVertically_terminates_in_bounds [1, 2, 3, 4, 5, 6] 1 3 2 rfl (by decide)
    (by decide) (by decide)).1

/-! ## Claims about keyboard input -/

theorem moveOnKeyCalls_filter (f : FrameInput) (key : Key) (direction : String) (dt : ℚ) :
    (moveOnKeyCalls f key direction dt).filter (fun c => c.fn = "gCamera.ProcessKeyboard") =
      if key ∈ f.keys then [processKeyboardCall direction dt] else [] := by
  by_cases h : key ∈ f.keys <;>
  simp [moveOnKeyCalls, h, List.filter_cons, processKeyboardCall]

theorem moveOnKeyCalls_filter_camera (f : FrameInput) (key : Key) (direction : String)
    (dt : ℚ) :
    (moveOnKeyCalls f key direction dt).filter (fun c => c.fn ∈ cameraMethods) =
      if key ∈ f.keys then [processKeyboardCall direction dt] else [] := by
  by_cases h : key ∈ f.keys <;>
  simp [moveOnKeyCalls, h, List.filter_cons, processKeyboardCall, cameraMethods]

theorem filter_map_cons {α β : Type} (p : α → Bool) (g : α → β) (x : α) (l : List α) :
    ((x :: l).filter p).map g = (if p x = true then [g x] else []) ++ (l.filter p).map g := by
  cases h : p x <;> simp [List.filter_cons, h]

theorem movementBindings_calls (f : FrameInput) (dt : ℚ) :
    (movementBindings.filter (fun b => b.1 ∈ f.keys)).map
        (fun b => processKeyboardCall b.2 dt) =
      (if Key.W ∈ f.keys then [processKeyboardCall "FORWARD" dt] else []) ++
      ((if Key.S ∈ f.keys then [processKeyboardCall "BACKWARD" dt] else []) ++
      ((if Key.A ∈ f.keys then [processKeyboardCall "LEFT" dt] else []) ++
      ((if Key.D ∈ f.keys then [processKeyboardCall "RIGHT" dt] else []) ++
      ((if Key.Q ∈ f.keys then [processKeyboardCall "UP" dt] else []) ++
      (if Key.E ∈ f.keys then [processKeyboardCall "DOWN" dt] else []))))) := by
  simp only [movementBindings, filter_map_cons, List.filter_nil, List.map_nil,
    List.append_nil, decide_eq_true_eq]

theorem UProcessInputCalls_keyboard (f : FrameInput) (dt : ℚ) :
    (UProcessInputCalls f dt).filter (fun c => c.fn = "gCamera.ProcessKeyboard") =
      (movementBindings.filter (fun b => b.1 ∈ f.keys)).map
        (fun b => processKeyboardCall b.2 dt) := by
  rw [movementBindings_calls]
  simp only [UProcessInputCalls, List.filter_append, moveOnKeyCalls_filter]
  by_cases hE : Key.ESCAPE ∈ f.keys <;> simp [hE, List.filter_cons]

theorem UProcessInputCalls_camera (f : FrameInput) (dt : ℚ) :
    (UProcessInputCalls f dt).filter (fun c => c.fn ∈ cameraMethods) =
      (movementBindings.filter (fun b => b.1 ∈ f.keys)).map
        (fun b => processKeyboardCall b.2 dt) := by
  rw [movementBindings_calls]
  simp only [UProcessInputCalls, List.filter_append, moveOnKeyCalls_filter_camera]
  by_cases hE : Key.ESCAPE ∈ f.keys <;> simp [hE, List.filter_cons, cameraMethods]

/-- C21: the `ProcessKeyboard` calls of one `UProcessInput` are, in this order, one call for
each of the keys W, S, A, D, Q, E that is down, with FORWARD for W, BACKWARD for S, LEFT for A,
RIGHT for D, UP for Q and DOWN for E, each with the current `gDeltaTime`, and these are its
only calls of methods of `gCamera`; the other calls are the key polls (and
`glfwSetWindowShouldClose` for ESCAPE).  With none of the six keys down no method of `gCamera`
is called, so the camera is as it was. -/
theorem UProcessInput_moves_once_per_pressed_key (f : FrameInput) (a : App) :
    issued a.w (UProcessInput f a).w = UProcessInputCalls f a.g.gDeltaTime ∧
    (issued a.w (UProcessInput f a).w).filter (fun c => c.fn = "gCamera.ProcessKeyboard") =
      (movementBindings.filter (fun b => b.1 ∈ f.keys)).map
        (fun b => processKeyboardCall b.2 a.g.gDeltaTime) ∧
    (issued a.w (UProcessInput f a).w).filter (fun c => c.fn ∈ cameraMethods) =
      (movementBindings.filter (fun b => b.1 ∈ f.keys)).map
        (fun b => processKeyboardCall b.2 a.g.gDeltaTime) ∧
    movementBindings = [(.W, "FORWARD"), (.S, "BACKWARD"), (.A, "LEFT"), (.D, "RIGHT"),
      (.Q, "UP"), (.E, "DOWN")] ∧
    ((∀ b ∈ movementBindings, b.1 ∉ f.keys) →
      ∀ c ∈ issued a.w (UProcessInput f a).w, c.fn ∉ cameraMethods) := by
  rw [UProcessInput_issued]
  refine ⟨rfl, UProcessInputCalls_keyboard f _, UProcessInputCalls_camera f _, rfl, ?_⟩
  intro hn c hc hm
  have hnil : (movementBindings.filter (fun b => b.1 ∈ f.keys)) = [] := by
    rw [List.filter_eq_nil_iff]
    intro b hb
    simpa using hn b hb
  have hcam := UProcessInputCalls_camera f a.g.gDeltaTime
  rw [hnil, List.map_nil, List.filter_eq_nil_iff] at hcam
  exact hcam c hc (by simpa using hm)

/-- C21, at an instance: with W and D down at a frame time of 1/60, the camera calls are
`ProcessKeyboard(FORWARD, 1/60)` and `ProcessKeyboard(RIGHT, 1/60)`. -/
theorem UProcessInput_moves_once_per_pressed_key_witness :
    (issued World.init
      (UProcessInput ⟨1, [.D, .W], []⟩
        ⟨{ Globals.init with gDeltaTime := 1 / 60 }, World.init⟩).w).filter
      (fun c => c.fn = "gCamera.ProcessKeyboard") =
    [processKeyboardCall "FORWARD" (1 / 60), processKeyboardCall "RIGHT" (1 / 60)] := by
  rw [(UProcessInput_moves_once_per_pressed_key ⟨1, [.D, .W], []⟩
    ⟨{ Globals.init with gDeltaTime := 1 / 60 }, World.init⟩).2.1]
  simp [movementBindings, List.filter_cons]

theorem UProcessInput_toggle (f : FrameInput) (a : App) :
    (UProcessInput f a).g.orthoViewToggle = toggleAfter f.keys a.g.orthoViewToggle := by
  by_cases hO : Key.O ∈ f.keys <;> by_cases hP : Key.P ∈ f.keys <;>
  simp [UProcessInput, glfwGetKey, moveOnKey_g, toggleAfter, hO, hP]

theorem dispatch_toggle (a : App) (e : InputEvent) :
    (dispatch a e).g.orthoViewToggle = a.g.orthoViewToggle := by
  cases e with
  | resize width height => rfl
  | cursor xpos ypos =>
    simp only [dispatch, UMousePositionCallback]
    split <;> rfl
  | scroll xoffset yoffset => rfl
  | button button action mods =>
    simp only [dispatch, UMouseButtonCallback]
    repeat' split
    all_goals rfl
  | close => rfl

theorem glfwPollEvents_toggle (events : List InputEvent) (a : App) :
    (glfwPollEvents events a).g.orthoViewToggle = a.g.orthoViewToggle := by
  have h : ∀ (events : List InputEvent) (a : App),
      (events.foldl dispatch a).g.orthoViewToggle = a.g.orthoViewToggle := by
    intro events
    induction events with
    | nil => intro a; rfl
    | cons e es ih => intro a; exact (ih _).trans (dispatch_toggle a e)
  exact h events _

theorem frame_toggle (f : FrameInput) (a : App) :
    (frame f a).g.orthoViewToggle = toggleAfter f.keys a.g.orthoViewToggle := by
  rw [frame_eq, glfwPollEvents_toggle, URender_eq]
  show (renderEntry f a).g.orthoViewToggle = _
  simp only [renderEntry]
  rw [UProcessInput_toggle]

theorem toggleAfter_idem (keys : List Key) (b : Bool) :
    toggleAfter keys (toggleAfter keys b) = toggleAfter keys b := by
  unfold toggleAfter
  split
  · rfl
  · split <;> rfl

/-- C22: after `UProcessInput`, and so at the end of the iteration of the render loop,
`orthoViewToggle` is false if P is down (also when O is down too), otherwise true if O is down,
otherwise what it was before.  Hence the same keys held over two consecutive calls or
iterations give the same value as once, and O alone keeps it true, P keeps it false: the switch
does not flip back.  Its initial value is false, also when `main` enters the render loop. -/
theorem orthoViewToggle_set_by_O_and_P (f f2 : FrameInput) (a : App) :
    (UProcessInput f a).g.orthoViewToggle =
      (if Key.P ∈ f.keys then false else if Key.O ∈ f.keys then true
       else a.g.orthoViewToggle) ∧
    (frame f a).g.orthoViewToggle =
      (if Key.P ∈ f.keys then false else if Key.O ∈ f.keys then true
       else a.g.orthoViewToggle) ∧
    (f2.keys = f.keys →
      (UProcessInput f2 (UProcessInput f a)).g.orthoViewToggle =
        (UProcessInput f a).g.orthoViewToggle ∧
      (frame f2 (frame f a)).g.orthoViewToggle = (frame f a).g.orthoViewToggle) ∧
    (Key.O ∈ f2.keys → Key.P ∉ f2.keys → (frame f a).g.orthoViewToggle = true →
      (frame f2 (frame f a)).g.orthoViewToggle = true) ∧
    (Key.P ∈ f2.keys → (frame f2 (frame f a)).g.orthoViewToggle = false) ∧
    Globals.init.orthoViewToggle = false ∧
    (∀ P : Platform, (loopGlobals P).orthoViewToggle = false) := by
  refine ⟨UProcessInput_toggle f a, frame_toggle f a, ?_, ?_, ?_, rfl, fun _ => rfl⟩
  · intro hk
    rw [UProcessInput_toggle, UProcessInput_toggle, frame_toggle, frame_toggle, hk]
    exact ⟨toggleAfter_idem _ _, toggleAfter_idem _ _⟩
  · intro hO hP ht
    rw [frame_toggle, ht]
    simp [toggleAfter, hO, hP]
  · intro hP
    rw [frame_toggle]
    simp [toggleAfter, hP]

/-- C22, at an instance: O is down in two consecutive frames; the view is orthographic after
the first and after the second. -/
theorem orthoViewToggle_set_by_O_and_P_witness :
    (frame ⟨2, [.O], []⟩ (frame ⟨1, [.O], []⟩ ⟨Globals.init, World.init⟩)).g.orthoViewToggle =
      (frame ⟨1, [.O], []⟩ ⟨Globals.init, World.init⟩).g.orthoViewToggle ∧
    (frame ⟨1, [.O], []⟩ ⟨Globals.init, World.init⟩).g.orthoViewToggle = true :=
  ⟨((orthoViewToggle_set_by_O_and_P ⟨1, [.O], []⟩ ⟨2, [.O], []⟩
      ⟨Globals.init, World.init⟩).2.2.1 rfl).2,
    by
      rw [(orthoViewToggle_set_by_O_and_P ⟨1, [.O], []⟩ ⟨2, [.O], []⟩
        ⟨Globals.init, World.init⟩).2.1]
      simp⟩

/-! ## The conversion of `double` to `float` -/

theorem roundHalfEven_eval (y : ℚ) (m : Int) (h : |y - m| < 1 / 2) : roundHalfEven y = m := by
  rw [abs_lt] at h
  obtain ⟨h1, h2⟩ := h
  unfold roundHalfEven
  rcases le_or_lt (m : ℚ) y with hm | hm
  · have hf : ⌊y⌋ = m := by
      rw [Int.floor_eq_iff]
      constructor
      · exact hm
      · linarith
    simp only [hf]
    rw [if_pos (by linarith)]
  · have hf : ⌊y⌋ = m - 1 := by
      rw [Int.floor_eq_iff]
      push_cast
      constructor <;> linarith
    simp only [hf]
    push_cast
    rw [if_neg (by linarith), if_pos (by linarith)]
    ring

theorem float_zero : float 0 = 0 := by
  simp [float]

theorem log_eval (x : ℚ) (e : Int) (h1 : (2 : ℚ) ^ e ≤ |x|) (h2 : |x| < (2 : ℚ) ^ (e + 1)) :
    Int.log 2 |x| = e := by
  have hpos : 0 < |x| := lt_of_lt_of_le (zpow_pos (by norm_num) e) h1
  have a1 := (Int.zpow_le_iff_le_log (by norm_num : 1 < 2) hpos).1 (by exact_mod_cast h1)
  have a2 := (Int.lt_zpow_iff_log_lt (by norm_num : 1 < 2) hpos).1 (by exact_mod_cast h2)
  omega

theorem float_eval (x : ℚ) (e m : Int) (h1 : (2 : ℚ) ^ e ≤ |x|) (h2 : |x| < (2 : ℚ) ^ (e + 1))
    (he : -126 ≤ e) (hm : |x / (2 : ℚ) ^ (e - 23) - m| < 1 / 2) :
    float x = m * (2 : ℚ) ^ (e - 23) := by
  have hpos : 0 < |x| := lt_of_lt_of_le (zpow_pos (by norm_num) e) h1
  have hx : x ≠ 0 := abs_pos.1 hpos
  unfold float
  rw [if_neg hx, log_eval x e h1 h2, max_eq_left he]
  simp only
  rw [roundHalfEven_eval _ m hm]

theorem roundHalfEven_intCast (k : Int) : roundHalfEven (k : ℚ) = k :=
  roundHalfEven_eval _ k (by simp)

theorem float_intCast (n : Int) (h : |n| < 2 ^ 24) : float (n : ℚ) = n := by
  rcases eq_or_ne n 0 with h0 | h0
  · subst h0
    simpa using float_zero
  · have hq : (n : ℚ) ≠ 0 := by exact_mod_cast h0
    have hpos : 0 < |(n : ℚ)| := abs_pos.2 hq
    have h1 : (1 : ℚ) ≤ |(n : ℚ)| := by
      have : (1 : Int) ≤ |n| := Int.one_le_abs h0
      exact_mod_cast this
    have h2 : |(n : ℚ)| < (2 : ℚ) ^ (24 : Int) := by
      rw [← Int.cast_abs]
      have : ((|n| : Int) : ℚ) < ((2 ^ 24 : Int) : ℚ) := Int.cast_lt.2 h
      norm_num at this ⊢
      exact this
    have a1 : (0 : Int) ≤ Int.log 2 |(n : ℚ)| :=
      (Int.zpow_le_iff_le_log (by norm_num : 1 < 2) hpos).1 (by simpa using h1)
    have a2 : Int.log 2 |(n : ℚ)| < 24 :=
      (Int.lt_zpow_iff_log_lt (by norm_num : 1 < 2) hpos).1 (by exact_mod_cast h2)
    unfold float
    rw [if_neg hq, max_eq_left (by omega)]
    simp only
    generalize Int.log 2 |(n : ℚ)| = e at a1 a2
    obtain ⟨k, hk⟩ : ∃ k : ℕ, (23 : Int) - e = k := ⟨(23 - e).toNat, by omega⟩
    have hq2 : (2 : ℚ) ^ (e - 23) = ((2 : ℚ) ^ k)⁻¹ := by
      rw [show e - 23 = -(k : Int) by omega, zpow_neg, zpow_natCast]
    have hdiv : (n : ℚ) / (2 : ℚ) ^ (e - 23) = ((n * 2 ^ k : Int) : ℚ) := by
      rw [hq2]
      push_cast
      field_simp
    rw [hdiv, roundHalfEven_intCast, hq2]
    push_cast
    field_simp

theorem isFloat_intCast (n : Int) (h : |n| < 2 ^ 24) : isFloat (n : ℚ) := by
  refine ⟨float_intCast n h, ?_⟩
  have h2 : |(n : ℚ)| ≤ 16777216 := by
    rw [← Int.cast_abs]
    have : ((|n| : Int) : ℚ) ≤ ((2 ^ 24 : Int) : ℚ) := Int.cast_le.2 h.le
    norm_num at this ⊢
    exact this
  refine le_trans h2 ?_
  norm_num [FLT_MAX]

theorem float_tenth : float tenth = 13421773 / 134217728 := by
  have := float_eval tenth (-4) 13421773 (by norm_num [tenth, abs_of_pos])
    (by norm_num [tenth, abs_of_pos]) (by norm_num) (by norm_num [tenth, abs_lt])
  rw [this]
  norm_num

theorem float_fifth : float fifth = 13421773 / 67108864 := by
  have := float_eval fifth (-3) 13421773 (by norm_num [fifth, abs_of_pos])
    (by norm_num [fifth, abs_of_pos]) (by norm_num) (by norm_num [fifth, abs_lt])
  rw [this]
  norm_num

theorem float_tenth_error :
    float (tenth - 13421773 / 134217728) = -13421773 / 9007199254740992 := by
  have := float_eval (tenth - 13421773 / 134217728) (-30) (-13421773)
    (by norm_num [tenth, abs_of_neg]) (by norm_num [tenth, abs_of_neg]) (by norm_num)
    (by norm_num [tenth, abs_lt])
  rw [this]
  norm_num

theorem float_fifth_error :
    float (13421773 / 67108864 - fifth) = 13421773 / 4503599627370496 := by
  have := float_eval (13421773 / 67108864 - fifth) (-29) 13421773
    (by norm_num [fifth, abs_of_pos]) (by norm_num [fifth, abs_of_pos]) (by norm_num)
    (by norm_num [fifth, abs_lt])
  rw [this]
  norm_num

theorem float_one_sub_tenth :
    float (1 - 13421773 / 134217728) = 15099494 / 16777216 := by
  have := float_eval (1 - 13421773 / 134217728) (-1) 15099494
    (by norm_num [abs_of_pos]) (by norm_num [abs_of_pos]) (by norm_num)
    (by norm_num [abs_lt])
  rw [this]
  norm_num

/-! ## Claims about the cursor callback -/

theorem UMousePositionCallback_first (xpos ypos : ℚ) (a : App) (h : a.g.gFirstMouse = true) :
    UMousePositionCallback xpos ypos a =
      ⟨{ a.g with gLastX := float xpos, gLastY := float ypos, gFirstMouse := false },
        a.w.emit "gCamera.ProcessMouseMovement"
          [.real (float (xpos - float xpos)), .real (float (float ypos - ypos))]⟩ := by
  simp [UMousePositionCallback, h]

theorem UMousePositionCallback_later (xpos ypos : ℚ) (a : App)
    (h : a.g.gFirstMouse = false) :
    UMousePositionCallback xpos ypos a =
      ⟨{ a.g with gLastX := float xpos, gLastY := float ypos },
        a.w.emit "gCamera.ProcessMouseMovement"
          [.real (float (xpos - a.g.gLastX)), .real (float (a.g.gLastY - ypos))]⟩ := by
  simp [UMousePositionCallback, h]

/-- C26, as stated, fails at a position that is not a `float`: the first cursor event of a run
arrives at (0.1, 0.2), both `double`s.  `gLastX` and `gLastY` get the nearest `float`s,
13421773 / 2^27 and 13421773 / 2^26, so `gLastX` is not `xpos`, and the offsets passed to
`ProcessMouseMovement` are the `float`s of `xpos - gLastX` and `gLastY - ypos`, about
-1.49e-9 and 2.98e-9, not (0, 0). -/
theorem UMousePositionCallback_first_offsets_not_zero :
    Globals.init.gFirstMouse = true ∧
    issued World.init (UMousePositionCallback tenth fifth ⟨Globals.init, World.init⟩).w =
      [processMouseMovementCall (-13421773 / 9007199254740992)
        (13421773 / 4503599627370496)] ∧
    (UMousePositionCallback tenth fifth ⟨Globals.init, World.init⟩).g.gLastX =
      13421773 / 134217728 ∧
    (UMousePositionCallback tenth fifth ⟨Globals.init, World.init⟩).g.gLastX ≠ tenth ∧
    (UMousePositionCallback tenth fifth ⟨Globals.init, World.init⟩).g.gLastY ≠ fifth := by
  rw [UMousePositionCallback_first tenth fifth _ rfl]
  refine ⟨rfl, ?_, float_tenth, ?_, ?_⟩
  · simp only [issued, World.emit, World.init, processMouseMovementCall, float_tenth, float_fifth,
      float_tenth_error, float_fifth_error]
    rfl
  · show float tenth ≠ tenth
    rw [float_tenth]
    norm_num [tenth]
  · show float fifth ≠ fifth
    rw [float_fifth]
    norm_num [fifth]

/-- C26 (amended for the conversions to `float`; subtraction exact): for a cursor position
within the range of `float`, on the first cursor event, when `gFirstMouse` is true,
`UMousePositionCallback` passes `(float(xpos - float(xpos)), float(float(ypos) - ypos))` to
`ProcessMouseMovement`, which is (0, 0) when `xpos` and `ypos` are `float`s, and `gFirstMouse`
becomes false; on a later event it passes `(float(xpos - gLastX), float(gLastY - ypos))`, the y
offset reversed; after every event `gLastX = float(xpos)` and `gLastY = float(ypos)`, which are
`xpos` and `ypos` when these are `float`s, and no other global is changed.  `gFirstMouse` is
true initially. -/
theorem UMousePositionCallback_offsets_converted (xpos ypos : ℚ) (a : App)
    (_hx : |xpos| ≤ FLT_MAX) (_hy : |ypos| ≤ FLT_MAX) :
    (a.g.gFirstMouse = true →
      issued a.w (UMousePositionCallback xpos ypos a).w =
        [processMouseMovementCall (float (xpos - float xpos)) (float (float ypos - ypos))]) ∧
    (a.g.gFirstMouse = true → isFloat xpos → isFloat ypos →
      issued a.w (UMousePositionCallback xpos ypos a).w = [processMouseMovementCall 0 0]) ∧
    (a.g.gFirstMouse = false → |xpos - a.g.gLastX| ≤ FLT_MAX → |a.g.gLastY - ypos| ≤ FLT_MAX →
      issued a.w (UMousePositionCallback xpos ypos a).w =
        [processMouseMovementCall (float (xpos - a.g.gLastX)) (float (a.g.gLastY - ypos))]) ∧
    (UMousePositionCallback xpos ypos a).g =
      { a.g with gLastX := float xpos, gLastY := float ypos, gFirstMouse := false } ∧
    (isFloat xpos → isFloat ypos →
      (UMousePositionCallback xpos ypos a).g.gLastX = xpos ∧
      (UMousePositionCallback xpos ypos a).g.gLastY = ypos) ∧
    Globals.init.gFirstMouse = true ∧
    (∀ P : Platform, (loopGlobals P).gFirstMouse = true) := by
  have hg : (UMousePositionCallback xpos ypos a).g =
      { a.g with gLastX := float xpos, gLastY := float ypos, gFirstMouse := false } := by
    cases h : a.g.gFirstMouse
    · rw [UMousePositionCallback_later xpos ypos a h]
      simp [← h]
    · rw [UMousePositionCallback_first xpos ypos a h]
  refine ⟨?_, ?_, ?_, hg, ?_, rfl, fun _ => rfl⟩
  · intro h
    rw [UMousePositionCallback_first xpos ypos a h]
    simp [issued, World.emit, processMouseMovementCall]
  · intro h fx fy
    have e0x : float (xpos - float xpos) = 0 := by rw [fx.1, sub_self, float_zero]
    have e0y : float (float ypos - ypos) = 0 := by rw [fy.1, sub_self, float_zero]
    rw [UMousePositionCallback_first xpos ypos a h, e0x, e0y]
    simp [issued, World.emit, processMouseMovementCall]
  · intro h _ _
    rw [UMousePositionCallback_later xpos ypos a h]
    simp [issued, World.emit, processMouseMovementCall]
  · intro fx fy
    rw [hg]
    exact ⟨fx.1, fy.1⟩

/-- C26, at an instance: the first cursor event of a run, at (10, 20), both `float`s: the
offsets are (0, 0). -/
theorem UMousePositionCallback_offsets_converted_witness :
    issued World.init (UMousePositionCallback 10 20 ⟨Globals.init, World.init⟩).w =
      [processMouseMovementCall 0 0] :=
  (UMousePositionCallback_offsets_converted 10 20 ⟨Globals.init, World.init⟩
    (by norm_num [FLT_MAX]) (by norm_num [FLT_MAX])).2.1 rfl
    (by simpa using isFloat_intCast 10 (by decide))
    (by simpa using isFloat_intCast 20 (by decide))

theorem mouseOffsets_append (l1 l2 : List Call) :
    mouseOffsets (l1 ++ l2) = mouseOffsets l1 ++ mouseOffsets l2 := by
  simp [mouseOffsets, List.filterMap_append]

theorem mouseOffsets_call (x y : ℚ) :
    mouseOffsets [⟨"gCamera.ProcessMouseMovement", [.real x, .real y]⟩] = [(x, y)] := by
  simp [mouseOffsets, List.filterMap_cons]

theorem cursorEvents_later (positions : List (ℚ × ℚ)) :
    ∀ a : App, a.g.gFirstMouse = false →
      List.Chain floatStep (a.g.gLastX, a.g.gLastY) positions →
      ∃ l, (cursorEvents positions a).w.trace = a.w.trace ++ l ∧
        ((mouseOffsets l).map Prod.fst).sum =
          (cursorEvents positions a).g.gLastX - a.g.gLastX ∧
        ((mouseOffsets l).map Prod.snd).sum =
          a.g.gLastY - (cursorEvents positions a).g.gLastY ∧
        (cursorEvents positions a).g.gLastX =
          ((positions.getLast?.map Prod.fst).getD a.g.gLastX) ∧
        (cursorEvents positions a).g.gLastY =
          ((positions.getLast?.map Prod.snd).getD a.g.gLastY) ∧
        (mouseOffsets l).length = positions.length := by
  induction positions with
  | nil =>
    intro a _ _
    exact ⟨[], by simp [cursorEvents], by simp [mouseOffsets, cursorEvents],
      by simp [mouseOffsets, cursorEvents], rfl, rfl, by simp [mouseOffsets]⟩
  | cons p ps ih =>
    intro a h hch
    obtain ⟨⟨f1, f2, f3, f4⟩, hrest⟩ := List.chain_cons.1 hch
    have e : UMousePositionCallback p.1 p.2 a =
        ⟨{ a.g with gLastX := p.1, gLastY := p.2 },
          a.w.emit "gCamera.ProcessMouseMovement"
            [.real (p.1 - a.g.gLastX), .real (a.g.gLastY - p.2)]⟩ := by
      rw [UMousePositionCallback_later p.1 p.2 a h, f1.1, f2.1, f3.1, f4.1]
    obtain ⟨l, h1, h2, h3, h4, h5, h6⟩ := ih (UMousePositionCallback p.1 p.2 a)
      (by rw [e]; exact h) (by rw [e]; exact hrest)
    have hc : cursorEvents (p :: ps) a = cursorEvents ps (UMousePositionCallback p.1 p.2 a) :=
      rfl
    refine ⟨⟨"gCamera.ProcessMouseMovement",
      [.real (p.1 - a.g.gLastX), .real (a.g.gLastY - p.2)]⟩ :: l, ?_, ?_, ?_, ?_, ?_, ?_⟩
    · rw [hc, h1, e]
      simp [World.emit]
    · rw [hc, ← List.singleton_append, mouseOffsets_append, mouseOffsets_call, List.map_append,
        List.sum_append, h2, e]
      simp
    · rw [hc, ← List.singleton_append, mouseOffsets_append, mouseOffsets_call, List.map_append,
        List.sum_append, h3, e]
      simp
    · rw [hc, h4, e]
      cases hq : ps.getLast? <;> simp [List.getLast?_cons, hq]
    · rw [hc, h5, e]
      cases hq : ps.getLast? <;> simp [List.getLast?_cons, hq]
    · rw [← List.singleton_append, mouseOffsets_append, mouseOffsets_call, List.length_append,
        h6]
      simp [Nat.add_comm]

theorem getLast_cons_getD {α : Type} (x : α) (l : List α) :
    (x :: l).getLast (List.cons_ne_nil _ _) = l.getLast?.getD x := by
  have h1 := List.getLast?_eq_getLast (x :: l) (List.cons_ne_nil _ _)
  rw [List.getLast?_cons] at h1
  exact (Option.some.inj h1).symm

/-- C27, as stated, fails when a position is not a `float`: the cursor goes from (0.1, 0.2),
both `double`s, to (1, 1), starting with `gFirstMouse` true.  The x offsets passed to the camera
are -13421773 / 2^53 and 15099494 / 2^24 (the `float`s of `0.1 - float(0.1)` and of
`1 - float(0.1)`); their sum is about 0.89999997467, not `1 - 0.1`. -/
theorem cursor_offsets_do_not_telescope :
    ((mouseOffsets (issued World.init
      (cursorEvents [(tenth, fifth), (1, 1)] ⟨Globals.init, World.init⟩).w)).map
        Prod.fst) = [-13421773 / 9007199254740992, 15099494 / 16777216] ∧
    ((mouseOffsets (issued World.init
      (cursorEvents [(tenth, fifth), (1, 1)] ⟨Globals.init, World.init⟩).w)).map
        Prod.fst).sum ≠ 1 - tenth := by
  have e1 := UMousePositionCallback_first tenth fifth ⟨Globals.init, World.init⟩ rfl
  have hc : cursorEvents [(tenth, fifth), (1, 1)] ⟨Globals.init, World.init⟩ =
      UMousePositionCallback 1 1
        (UMousePositionCallback tenth fifth ⟨Globals.init, World.init⟩) := rfl
  have hi : issued World.init
      (cursorEvents [(tenth, fifth), (1, 1)] ⟨Globals.init, World.init⟩).w =
      [⟨"gCamera.ProcessMouseMovement",
        [.real (float (tenth - float tenth)), .real (float (float fifth - fifth))]⟩] ++
      [⟨"gCamera.ProcessMouseMovement",
        [.real (float (1 - float tenth)), .real (float (float fifth - 1))]⟩] := by
    rw [hc, e1, UMousePositionCallback_later 1 1 _ rfl]
    simp [issued, World.emit, World.init]
  have hm : (mouseOffsets (issued World.init
      (cursorEvents [(tenth, fifth), (1, 1)] ⟨Globals.init, World.init⟩).w)).map Prod.fst =
      [-13421773 / 9007199254740992, 15099494 / 16777216] := by
    rw [hi, mouseOffsets_append, mouseOffsets_call, mouseOffsets_call, float_tenth,
      float_tenth_error, float_one_sub_tenth]
    rfl
  refine ⟨hm, ?_⟩
  rw [hm]
  norm_num [tenth]

/-- C27 (amended for the conversions to `float`; subtraction and the sums exact): for every
non-empty sequence of cursor events that starts with `gFirstMouse` true and in which every
position and every difference of two consecutive positions is a `float`, the x offsets passed
to `ProcessMouseMovement` add up to the last x position minus the first, and the y offsets to
the first y position minus the last, whatever the positions in between; there is one call for
each event. -/
theorem cursor_offsets_telescope_for_floats (first : ℚ × ℚ) (rest : List (ℚ × ℚ)) (a : App)
    (h : a.g.gFirstMouse = true) (hx : isFloat first.1) (hy : isFloat first.2)
    (hs : List.Chain floatStep first rest) :
    ((mouseOffsets (issued a.w (cursorEvents (first :: rest) a).w)).map Prod.fst).sum =
      ((first :: rest).getLast (List.cons_ne_nil _ _)).1 - first.1 ∧
    ((mouseOffsets (issued a.w (cursorEvents (first :: rest) a).w)).map Prod.snd).sum =
      first.2 - ((first :: rest).getLast (List.cons_ne_nil _ _)).2 ∧
    (mouseOffsets (issued a.w (cursorEvents (first :: rest) a).w)).length =
      (first :: rest).length := by
  have e : UMousePositionCallback first.1 first.2 a =
      ⟨{ a.g with gLastX := first.1, gLastY := first.2, gFirstMouse := false },
        a.w.emit "gCamera.ProcessMouseMovement" [.real 0, .real 0]⟩ := by
    have e0x : float (first.1 - float first.1) = 0 := by rw [hx.1, sub_self, float_zero]
    have e0y : float (float first.2 - first.2) = 0 := by rw [hy.1, sub_self, float_zero]
    rw [UMousePositionCallback_first first.1 first.2 a h, e0x, e0y, hx.1, hy.1]
  have hc : cursorEvents (first :: rest) a =
      cursorEvents rest (UMousePositionCallback first.1 first.2 a) := rfl
  obtain ⟨l, h1, h2, h3, h4, h5, h6⟩ :=
    cursorEvents_later rest (UMousePositionCallback first.1 first.2 a) (by rw [e])
      (by rw [e]; exact hs)
  have hi : issued a.w (cursorEvents (first :: rest) a).w =
      [⟨"gCamera.ProcessMouseMovement", [.real 0, .real 0]⟩] ++ l := by
    rw [hc, issued, h1, e]
    simp [World.emit]
  rw [hi, mouseOffsets_append, mouseOffsets_call, getLast_cons_getD]
  refine ⟨?_, ?_, ?_⟩
  · rw [List.map_append, List.sum_append, h2, h4, e]
    cases hq : rest.getLast? <;> simp [hq]
  · rw [List.map_append, List.sum_append, h3, h5, e]
    cases hq : rest.getLast? <;> simp [hq]
  · rw [List.length_append, h6]
    simp [Nat.add_comm]

theorem isFloat_small (n : Int) (h : |n| < 2 ^ 24) (x : ℚ) (hx : x = (n : ℚ)) : isFloat x := by
  rw [hx]
  exact isFloat_intCast n h

/-- C27, at an instance: the cursor goes from (3, 4) over (10, 1) to (5, 9), all `float`s with
`float` differences; the x offsets add up to 5 - 3 and the y offsets to 4 - 9. -/
theorem cursor_offsets_telescope_for_floats_witness :
    ((mouseOffsets (issued World.init
      (cursorEvents [(3, 4), (10, 1), (5, 9)] ⟨Globals.init, World.init⟩).w)).map
        Prod.fst).sum = 5 - 3 ∧
    ((mouseOffsets (issued World.init
      (cursorEvents [(3, 4), (10, 1), (5, 9)] ⟨Globals.init, World.init⟩).w)).map
        Prod.snd).sum = 4 - 9 :=
  have hs : List.Chain floatStep ((3, 4) : ℚ × ℚ) [(10, 1), (5, 9)] :=
    List.Chain.cons
      ⟨isFloat_small 10 (by decide) _ (by norm_num), isFloat_small 1 (by decide) _ (by norm_num),
        isFloat_small 7 (by decide) _ (by norm_num), isFloat_small 3 (by decide) _ (by norm_num)⟩
      (List.Chain.cons
        ⟨isFloat_small 5 (by decide) _ (by norm_num), isFloat_small 9 (by decide) _ (by norm_num),
          isFloat_small (-5) (by decide) _ (by norm_num),
          isFloat_small (-8) (by decide) _ (by norm_num)⟩
        List.Chain.nil)
  ⟨(cursor_offsets_telescope_for_floats (3, 4) [(10, 1), (5, 9)] ⟨Globals.init, World.init⟩ rfl
      (isFloat_small 3 (by decide) _ (by norm_num)) (isFloat_small 4 (by decide) _ (by norm_num))
      hs).1,
    (cursor_offsets_telescope_for_floats (3, 4) [(10, 1), (5, 9)] ⟨Globals.init, World.init⟩ rfl
      (isFloat_small 3 (by decide) _ (by norm_num)) (isFloat_small 4 (by decide) _ (by norm_num))
      hs).2.1⟩

/-! ## Claims about `UCreateTexture` -/

theorem UCreateTexture_null (P : Platform) (filename : String) (textureId : Nat) (w : World)
    (h : P.stbi_load filename = none) :
    UCreateTexture P filename textureId w =
      ⟨false, textureId, w.emit "stbi_load" [.text filename]⟩ := by
  simp [UCreateTexture, h]

/-- The world of `UCreateTexture` when the image is decoded, up to the test of the channel
count (lines 2021-2032). -/
theorem UCreateTexture_issued_ok (P : Platform) (filename : String) (textureId : Nat)
    (w : World) (image : Image) (h : P.stbi_load filename = some image)
    (hc : image.channels = 3 ∨ image.channels = 4) :
    (UCreateTexture P filename textureId w).ok = true ∧
    (UCreateTexture P filename textureId w).textureId = w.nextTexture ∧
    (UCreateTexture P filename textureId w).world.boundTexture2D = 0 ∧
    (UCreateTexture P filename textureId w).world.textures w.nextTexture = true ∧
    issued w (UCreateTexture P filename textureId w).world =
      [⟨"stbi_load", [.text filename]⟩,
       ⟨"flipImageVertically", [.int image.width, .int image.height, .int image.channels]⟩,
       ⟨"glGenTextures", [.int 1]⟩,
       ⟨"glBindTexture", [.sym "GL_TEXTURE_2D", .name w.nextTexture]⟩,
       ⟨"glTexParameteri", [.sym "GL_TEXTURE_2D", .sym "GL_TEXTURE_WRAP_S", .sym "GL_REPEAT"]⟩,
       ⟨"glTexParameteri", [.sym "GL_TEXTURE_2D", .sym "GL_TEXTURE_WRAP_T", .sym "GL_REPEAT"]⟩,
       ⟨"glTexParameteri",
         [.sym "GL_TEXTURE_2D", .sym "GL_TEXTURE_MIN_FILTER", .sym "GL_LINEAR"]⟩,
       ⟨"glTexParameteri",
         [.sym "GL_TEXTURE_2D", .sym "GL_TEXTURE_MAG_FILTER", .sym "GL_LINEAR"]⟩,
       ⟨"glTexImage2D", [.sym "GL_TEXTURE_2D", .int 0,
         .sym (if image.channels = 3 then "GL_RGB8" else "GL_RGBA8"), .int image.width,
         .int image.height, .int 0, .sym (if image.channels = 3 then "GL_RGB" else "GL_RGBA"),
         .sym "GL_UNSIGNED_BYTE"]⟩,
       ⟨"glGenerateMipmap", [.sym "GL_TEXTURE_2D"]⟩,
       ⟨"stbi_image_free", []⟩,
       ⟨"glBindTexture", [.sym "GL_TEXTURE_2D", .name 0]⟩] := by
  rcases hc with hc | hc
  · simp [UCreateTexture, h, hc, glGenTextures, glBindTexture, World.emit, issued]
  · have h3 : image.channels ≠ 3 := by rw [hc]; decide
    simp [UCreateTexture, h, hc, glGenTextures, glBindTexture, World.emit, issued]

theorem UCreateTexture_issued_unsupported (P : Platform) (filename : String)
    (textureId : Nat) (w : World) (image : Image) (h : P.stbi_load filename = some image)
    (h3 : image.channels ≠ 3) (h4 : image.channels ≠ 4) :
    (UCreateTexture P filename textureId w).ok = false ∧
    (UCreateTexture P filename textureId w).textureId = w.nextTexture ∧
    (UCreateTexture P filename textureId w).world.boundTexture2D = w.nextTexture ∧
    (UCreateTexture P filename textureId w).world.textures w.nextTexture = true ∧
    issued w (UCreateTexture P filename textureId w).world =
      [⟨"stbi_load", [.text filename]⟩,
       ⟨"flipImageVertically", [.int image.width, .int image.height, .int image.channels]⟩,
       ⟨"glGenTextures", [.int 1]⟩,
       ⟨"glBindTexture", [.sym "GL_TEXTURE_2D", .name w.nextTexture]⟩,
       ⟨"glTexParameteri", [.sym "GL_TEXTURE_2D", .sym "GL_TEXTURE_WRAP_S", .sym "GL_REPEAT"]⟩,
       ⟨"glTexParameteri", [.sym "GL_TEXTURE_2D", .sym "GL_TEXTURE_WRAP_T", .sym "GL_REPEAT"]⟩,
       ⟨"glTexParameteri",
         [.sym "GL_TEXTURE_2D", .sym "GL_TEXTURE_MIN_FILTER", .sym "GL_LINEAR"]⟩,
       ⟨"glTexParameteri",
         [.sym "GL_TEXTURE_2D", .sym "GL_TEXTURE_MAG_FILTER", .sym "GL_LINEAR"]⟩,
       ⟨"cout", [.text ("Not implemented to handle image with " ++ toString image.channels ++
         " channels\n")]⟩] := by
  simp [UCreateTexture, h, h3, h4, glGenTextures, glBindTexture, World.emit, issued, cout]

/-- C28: `UCreateTexture` returns true if and only if `stbi_load` returned an image and its
channel count is 3 or 4; a decoded image with any other channel count makes it return false,
and so does a null image. -/
theorem UCreateTexture_true_iff_three_or_four_channels (P : Platform) (filename : String)
    (textureId : Nat) (w : World) :
    ((UCreateTexture P filename textureId w).ok = true ↔
      ∃ image, P.stbi_load filename = some image ∧
        (image.channels = 3 ∨ image.channels = 4)) ∧
    (∀ image, P.stbi_load filename = some image → image.channels ≠ 3 → image.channels ≠ 4 →
      (UCreateTexture P filename textureId w).ok = false) ∧
    (P.stbi_load filename = none → (UCreateTexture P filename textureId w).ok = false) := by
  refine ⟨?_, ?_, ?_⟩
  · constructor
    · intro hok
      cases h : P.stbi_load filename with
      | none =>
        rw [UCreateTexture_null P filename textureId w h] at hok
        simp at hok
      | some image =>
        refine ⟨image, rfl, ?_⟩
        by_contra hc
        push_neg at hc
        rw [(UCreateTexture_issued_unsupported P filename textureId w image h hc.1 hc.2).1]
          at hok
        simp at hok
    · rintro ⟨image, h, hc⟩
      exact (UCreateTexture_issued_ok P filename textureId w image h hc).1
  · intro image h h3 h4
    exact (UCreateTexture_issued_unsupported P filename textureId w image h h3 h4).1
  · intro h
    rw [UCreateTexture_null P filename textureId w h]

/-- C28, at an instance: an image with one channel is decoded; the call returns false. -/
theorem UCreateTexture_true_iff_three_or_four_channels_witness :
    (UCreateTexture (samplePlatform true true true (some (sampleImage 1)) none)
      "casetexture.jpg" 0 World.init).ok = false :=
  (UCreateTexture_true_iff_three_or_four_channels
    (samplePlatform true true true (some (sampleImage 1)) none) "casetexture.jpg" 0
    World.init).2.1 (sampleImage 1) (by simp [samplePlatform]) (by decide) (by decide)

/-- C29: in a context whose next texture name is not 0, `UCreateTexture` calls
`stbi_image_free` if and only if it returns true, and it binds 0 to `GL_TEXTURE_2D` if and only
if it returns true (then these are its last two calls and the binding is 0 afterwards).  When
the image is decoded but has neither 3 nor 4 channels it returns false with the name that
`glGenTextures` generated in `textureId`, that texture generated and still bound, and the image
not freed; its last call is the output of the message. -/
theorem UCreateTexture_frees_and_unbinds_only_on_success (P : Platform) (filename : String)
    (textureId : Nat) (w : World) (hw : w.nextTexture ≠ 0) :
    ((UCreateTexture P filename textureId w).ok = true ↔
      ⟨"stbi_image_free", []⟩ ∈ issued w (UCreateTexture P filename textureId w).world) ∧
    ((UCreateTexture P filename textureId w).ok = true ↔
      ⟨"glBindTexture", [.sym "GL_TEXTURE_2D", .name 0]⟩ ∈
        issued w (UCreateTexture P filename textureId w).world) ∧
    ((UCreateTexture P filename textureId w).ok = true →
      (UCreateTexture P filename textureId w).world.boundTexture2D = 0 ∧
      ∃ before, issued w (UCreateTexture P filename textureId w).world =
        before ++ [⟨"stbi_image_free", []⟩,
          ⟨"glBindTexture", [.sym "GL_TEXTURE_2D", .name 0]⟩] ∧
        ⟨"stbi_image_free", []⟩ ∉ before ∧
        ⟨"glBindTexture", [.sym "GL_TEXTURE_2D", .name 0]⟩ ∉ before) ∧
    (∀ image, P.stbi_load filename = some image → image.channels ≠ 3 → image.channels ≠ 4 →
      (UCreateTexture P filename textureId w).ok = false ∧
      (UCreateTexture P filename textureId w).textureId = w.nextTexture ∧
      ⟨"glGenTextures", [.int 1]⟩ ∈ issued w (UCreateTexture P filename textureId w).world ∧
      (UCreateTexture P filename textureId w).world.textures
        (UCreateTexture P filename textureId w).textureId = true ∧
      (UCreateTexture P filename textureId w).world.boundTexture2D =
        (UCreateTexture P filename textureId w).textureId ∧
      (UCreateTexture P filename textureId w).world.boundTexture2D ≠ 0 ∧
      ⟨"stbi_image_free", []⟩ ∉ issued w (UCreateTexture P filename textureId w).world ∧
      (issued w (UCreateTexture P filename textureId w).world).getLast? =
        some ⟨"cout", [.text ("Not implemented to handle image with " ++
          toString image.channels ++ " channels\n")]⟩) := by
  have hw2 : ¬ (0 = w.nextTexture) := fun e => hw e.symm
  cases h : P.stbi_load filename with
  | none =>
    have e := UCreateTexture_null P filename textureId w h
    rw [e]
    refine ⟨?_, ?_, ?_, ?_⟩
    · simp [issued, World.emit]
    · simp [issued, World.emit]
    · intro hok
      simp at hok
    · intro image hi
      simp at hi
  | some image =>
    by_cases hc : image.channels = 3 ∨ image.channels = 4
    · obtain ⟨e1, e2, e3, e4, e5⟩ := UCreateTexture_issued_ok P filename textureId w image h hc
      rw [e1, e3, e5]
      refine ⟨?_, ?_, ?_, ?_⟩
      · simp
      · simp
      · intro _
        refine ⟨rfl, [⟨"stbi_load", [.text filename]⟩,
            ⟨"flipImageVertically",
              [.int image.width, .int image.height, .int image.channels]⟩,
            ⟨"glGenTextures", [.int 1]⟩,
            ⟨"glBindTexture", [.sym "GL_TEXTURE_2D", .name w.nextTexture]⟩,
            ⟨"glTexParameteri",
              [.sym "GL_TEXTURE_2D", .sym "GL_TEXTURE_WRAP_S", .sym "GL_REPEAT"]⟩,
            ⟨"glTexParameteri",
              [.sym "GL_TEXTURE_2D", .sym "GL_TEXTURE_WRAP_T", .sym "GL_REPEAT"]⟩,
            ⟨"glTexParameteri",
              [.sym "GL_TEXTURE_2D", .sym "GL_TEXTURE_MIN_FILTER", .sym "GL_LINEAR"]⟩,
            ⟨"glTexParameteri",
              [.sym "GL_TEXTURE_2D", .sym "GL_TEXTURE_MAG_FILTER", .sym "GL_LINEAR"]⟩,
            ⟨"glTexImage2D", [.sym "GL_TEXTURE_2D", .int 0,
              .sym (if image.channels = 3 then "GL_RGB8" else "GL_RGBA8"), .int image.width,
              .int image.height, .int 0,
              .sym (if image.channels = 3 then "GL_RGB" else "GL_RGBA"),
              .sym "GL_UNSIGNED_BYTE"]⟩,
            ⟨"glGenerateMipmap", [.sym "GL_TEXTURE_2D"]⟩], rfl, ?_, ?_⟩
        · simp
        · simp [hw2]
      · intro image2 hi h3 h4
        obtain rfl := Option.some.inj hi
        exact absurd hc (by push_neg; exact ⟨h3, h4⟩)
    · push_neg at hc
      obtain ⟨e1, e2, e3, e4, e5⟩ :=
        UCreateTexture_issued_unsupported P filename textureId w image h hc.1 hc.2
      rw [e1, e2, e3, e5]
      refine ⟨?_, ?_, ?_, ?_⟩
      · simp
      · simp [hw2]
      · intro hok
        simp at hok
      · intro image2 hi h3 h4
        obtain rfl := Option.some.inj hi
        exact ⟨rfl, rfl, by simp, e4, rfl, hw, by simp, by simp⟩

/-- C29, at an instance: an image with one channel in a fresh context: the call returns false
with texture 1 generated and bound. -/
theorem UCreateTexture_frees_and_unbinds_only_on_success_witness :
    (UCreateTexture (samplePlatform true true true (some (sampleImage 1)) none)
      "casetexture.jpg" 0 World.init).world.boundTexture2D = 1 := by
  have h := (UCreateTexture_frees_and_unbinds_only_on_success
    (samplePlatform true true true (some (sampleImage 1)) none) "casetexture.jpg" 0 World.init
    (by decide)).2.2.2 (sampleImage 1) (by simp [samplePlatform]) (by decide) (by decide)
  rw [h.2.2.2.2.1, h.2.1]
  rfl

/-! ## Claim about the fragment shader -/

/-- C30 (scalars in a field, so over the reals): for all inputs and whatever `normalize`, `pow`
and the sampler return, the output `fragmentColor` is `vec4(phong1 + phong2, 1.0)`: its rgb is
`(2 * ambient + diffuse1 + diffuse2 + specular1 + specular2)` multiplied component-wise by the
base colour (the rgb of the texture sample when `ubHasTexture` is true, the rgb of
`objectColor` otherwise), the ambient term counted once for each light, and its alpha is 1.
The value assigned to `fragmentColor` inside the `if`/`else` is not used: the output is the
same for every alpha of `objectColor` and of the texture. -/
theorem fragmentColor_is_lit_base_colour {K : Type} [LinearOrderedField K] (G : GLSL K)
    (v : FragmentInput K) :
    fragmentShaderMain G v = vec4 ((v.branch G).1.add (v.branch G).2.1) 1 ∧
    (fragmentShaderMain G v).xyz =
      (((((v.ambient.scale 2).add (v.diffuse1 G)).add (v.diffuse2 G)).add
        (v.specular1 G)).add (v.specular2 G)).mul v.baseColor ∧
    (fragmentShaderMain G v).w = 1 ∧
    (∀ (alpha : K) (textureAlpha : K × K → K),
      fragmentShaderMain G
        { v with
          objectColor := ⟨v.objectColor.x, v.objectColor.y, v.objectColor.z, alpha⟩
          uTexture := fun coordinate =>
            ⟨(v.uTexture coordinate).x, (v.uTexture coordinate).y, (v.uTexture coordinate).z,
              textureAlpha coordinate⟩ } =
        fragmentShaderMain G v) := by
  refine ⟨rfl, ?_, rfl, ?_⟩
  · cases h : v.ubHasTexture <;>
    · simp only [fragmentShaderMain, FragmentInput.branch, FragmentInput.baseColor, h, vec4,
        Vec4.xyz, Vec3.add, Vec3.mul, Vec3.scale]
      ext <;> simp <;> ring
  · intro alpha textureAlpha
    cases h : v.ubHasTexture <;>
    simp [fragmentShaderMain, FragmentInput.branch, h, vec4, Vec4.xyz, FragmentInput.ambient,
      FragmentInput.diffuse1, FragmentInput.diffuse2, FragmentInput.specular1,
      FragmentInput.specular2, FragmentInput.norm, FragmentInput.light1Direction,
      FragmentInput.light2Direction, FragmentInput.viewDir]

end Mac
